import Mathlib

/-!
# Resource ensurers of the redis cluster operator

A shallow embedding of `pkg/controller/manager/ensurer.go`.

* Go maps (`map[string]string`, `corev1.ResourceList`, config map data) are total
  functions into `Option`; the label mapping of the ensure operations is a non-nil map
  that the operation mutates in place, so every operation returns the mapping it leaves
  in the caller's hands.
* `int32` fields are integers; the one `int32` addition of the file wraps modulo `2^32`.
* The CRUD clients are interface values: here they are arbitrary state transformers over
  a store type `σ`, and every call made through them is appended to a trace together with
  its outcome.
* A Go run-time panic (nil dereference, index out of range) is the outcome `Res.panic`.
* Builders, naming functions and constants that live in other packages of the repository
  are the fields of `Collaborators`.
-/

namespace Manager

/-! ## Errors -/

/-- A Go `error` value coming from the object store; `Reason` is what
`errors.IsNotFound` looks at. -/
structure Error where
  Reason : String
  Message : String
deriving DecidableEq, Repr

/-- Go `errors.IsNotFound`. -/
def IsNotFound (err : Error) : Bool :=
  err.Reason == "NotFound"

/-! ## Maps -/

/-- A non-nil `map[string]string`. -/
abbrev Labels := String → Option String

/-- Go `labels[k] = v`. -/
def Labels.set (labels : Labels) (k v : String) : Labels :=
  fun x => if x = k then some v else labels x

/-- Go `delete(labels, k)`. -/
def Labels.delete (labels : Labels) (k : String) : Labels :=
  fun x => if x = k then none else labels x

/-! ## Kubernetes objects, restricted to the fields the ensurers read -/

/-- Go `resource.Quantity`: only its numeric amount matters to `Cmp`. -/
structure Quantity where
  value : Int
deriving DecidableEq, Repr

/-- Go `Quantity.Cmp`: `-1`, `0` or `1`. -/
def Quantity.Cmp (q y : Quantity) : Int :=
  if q.value < y.value then -1 else if q.value = y.value then 0 else 1

/-- Go `corev1.ResourceList`, a map from resource name to quantity. -/
abbrev ResourceList := String → Option Quantity

/-- Go `ResourceList.Memory`: the entry under `memory`, or a zero quantity. -/
def ResourceList.Memory (rl : ResourceList) : Quantity :=
  match rl "memory" with
  | some q => q
  | none => ⟨0⟩

/-- Go `ResourceList.Cpu`: the entry under `cpu`, or a zero quantity. -/
def ResourceList.Cpu (rl : ResourceList) : Quantity :=
  match rl "cpu" with
  | some q => q
  | none => ⟨0⟩

structure ResourceRequirements where
  Limits : ResourceList
  Requests : ResourceList

structure SecretKeySelector where
  Name : String
  Key : String
deriving DecidableEq, Repr

structure EnvVarSource where
  SecretKeyRef : Option SecretKeySelector
deriving DecidableEq, Repr

structure EnvVar where
  Name : String
  Value : String
  ValueFrom : Option EnvVarSource
deriving DecidableEq, Repr

structure Container where
  Image : String
  Env : List EnvVar
  Resources : ResourceRequirements

structure PodSpec where
  Containers : List Container

structure PodTemplateSpec where
  Spec : PodSpec

structure StatefulSetSpec where
  Replicas : Option Int
  Template : PodTemplateSpec

structure StatefulSet where
  Namespace : String
  Name : String
  Labels : Labels
  Spec : StatefulSetSpec

structure PodDisruptionBudget where
  Namespace : String
  Name : String
  Labels : Labels

structure Service where
  Namespace : String
  Name : String
  Labels : Labels

structure ConfigMap where
  Namespace : String
  Name : String
  Labels : Labels
  Data : String → Option String

structure Secret where
  Namespace : String
  Name : String
  Data : String → Option String

/-! ## The cluster resource -/

structure LocalObjectReference where
  Name : String
deriving DecidableEq, Repr

/-- Modelled from the spec: the declaration of the cluster type is in another package of
the repository. The fields are those `ensurer.go` reads, typed as it uses them and as the
data model of the spec (section 3) lists them: the credential-secret reference is
optional (the source tests it against nil), the resource requests and limits are not. -/
structure DistributedRedisClusterSpec where
  Image : String
  MasterSize : Int
  ClusterReplicas : Int
  ServiceName : String
  Resources : ResourceRequirements
  PasswordSecret : Option LocalObjectReference

structure BackupSpec where
  Backend : String

structure Backup where
  Namespace : String
  Name : String
  Spec : BackupSpec

/-- Modelled from the spec: the restore status of the cluster, declared in another
package; it carries the restore-succeeded count and the backup descriptor. -/
structure Restore where
  RestoreSucceeded : Int
  Backup : Backup

structure DistributedRedisClusterStatus where
  Restore : Restore

structure DistributedRedisCluster where
  Namespace : String
  Name : String
  Spec : DistributedRedisClusterSpec
  Status : DistributedRedisClusterStatus

/-! ## Collaborators from other packages -/

/-- Constants, naming functions, cluster predicates and builders that `ensurer.go`
imports from the other packages of the repository. -/
structure Collaborators where
  StatefulSetLabel : String
  PasswordENV : String
  RestoreSucceeded : String
  ClusterStatefulSetName : String → Nat → String
  ClusterHeadlessSvcName : String → Nat → String
  RedisConfigMapName : String → String
  RestoreConfigMapName : String → String
  IsRestoreFromBackup : DistributedRedisCluster → Bool
  IsRestored : DistributedRedisCluster → Bool
  OSMSecretName : Backup → String
  NewStatefulSetForCR :
    DistributedRedisCluster → String → String → Labels → Except Error StatefulSet
  NewPodDisruptionBudgetForCR :
    DistributedRedisCluster → String → Labels → PodDisruptionBudget
  NewHeadLessSvcForCR : DistributedRedisCluster → String → Labels → Service
  NewSvcForCR : DistributedRedisCluster → String → Labels → Service
  NewConfigMapForCR : DistributedRedisCluster → Labels → ConfigMap
  NewConfigMapForRestore : DistributedRedisCluster → Labels → ConfigMap

/-! ## Clients and the call trace -/

/-- Go `k8sutil.IStatefulSetControl`. -/
structure IStatefulSetControl (σ : Type) where
  GetStatefulSet : String → String → σ → Except Error StatefulSet × σ
  CreateStatefulSet : StatefulSet → σ → Option Error × σ
  UpdateStatefulSet : StatefulSet → σ → Option Error × σ

/-- Go `k8sutil.IServiceControl`. -/
structure IServiceControl (σ : Type) where
  GetService : String → String → σ → Except Error Service × σ
  CreateService : Service → σ → Option Error × σ

/-- Go `k8sutil.IConfigMapControl`. -/
structure IConfigMapControl (σ : Type) where
  GetConfigMap : String → String → σ → Except Error ConfigMap × σ
  CreateConfigMap : ConfigMap → σ → Option Error × σ
  UpdateConfigMap : ConfigMap → σ → Option Error × σ

/-- Go `k8sutil.IPodDisruptionBudgetControl`. -/
structure IPodDisruptionBudgetControl (σ : Type) where
  GetPodDisruptionBudget : String → String → σ → Except Error PodDisruptionBudget × σ
  CreatePodDisruptionBudget : PodDisruptionBudget → σ → Option Error × σ

/-- The raw `client.Client`, as the two package functions that receive it use it:
`osm.NewCephSecret` and `k8sutil.CreateSecret`. -/
structure SecretClient (σ : Type) where
  NewCephSecret : String → String → String → σ → Except Error Secret × σ
  CreateSecret : Secret → σ → Option Error × σ

/-- The receiver `realEnsureResource` (the logger is left out). -/
structure realEnsureResource (σ : Type) where
  statefulSetClient : IStatefulSetControl σ
  svcClient : IServiceControl σ
  configMapClient : IConfigMapControl σ
  pdbClient : IPodDisruptionBudgetControl σ
  client : SecretClient σ

/-- One call through a client, with its outcome. -/
inductive Call where
  | GetStatefulSet (ns name : String) (res : Except Error StatefulSet)
  | CreateStatefulSet (ss : StatefulSet) (res : Option Error)
  | UpdateStatefulSet (ss : StatefulSet) (res : Option Error)
  | GetService (ns name : String) (res : Except Error Service)
  | CreateService (svc : Service) (res : Option Error)
  | GetConfigMap (ns name : String) (res : Except Error ConfigMap)
  | CreateConfigMap (cm : ConfigMap) (res : Option Error)
  | UpdateConfigMap (cm : ConfigMap) (res : Option Error)
  | GetPodDisruptionBudget (ns name : String) (res : Except Error PodDisruptionBudget)
  | CreatePodDisruptionBudget (pdb : PodDisruptionBudget) (res : Option Error)
  | NewCephSecret (name ns backend : String) (res : Except Error Secret)
  | CreateSecret (secret : Secret) (res : Option Error)

/-- The store together with the calls issued so far, oldest first. -/
structure World (σ : Type) where
  state : σ
  trace : List Call

/-- Outcome of a Go function that may panic. -/
inductive Res (α : Type) where
  | ret (a : α)
  | panic
deriving DecidableEq

section Calls

variable {σ : Type} (r : realEnsureResource σ)

def callGetStatefulSet (ns name : String) (w : World σ) :
    Except Error StatefulSet × World σ :=
  let out := r.statefulSetClient.GetStatefulSet ns name w.state
  (out.1, ⟨out.2, w.trace ++ [Call.GetStatefulSet ns name out.1]⟩)

def callCreateStatefulSet (ss : StatefulSet) (w : World σ) : Option Error × World σ :=
  let out := r.statefulSetClient.CreateStatefulSet ss w.state
  (out.1, ⟨out.2, w.trace ++ [Call.CreateStatefulSet ss out.1]⟩)

def callUpdateStatefulSet (ss : StatefulSet) (w : World σ) : Option Error × World σ :=
  let out := r.statefulSetClient.UpdateStatefulSet ss w.state
  (out.1, ⟨out.2, w.trace ++ [Call.UpdateStatefulSet ss out.1]⟩)

def callGetService (ns name : String) (w : World σ) : Except Error Service × World σ :=
  let out := r.svcClient.GetService ns name w.state
  (out.1, ⟨out.2, w.trace ++ [Call.GetService ns name out.1]⟩)

def callCreateService (svc : Service) (w : World σ) : Option Error × World σ :=
  let out := r.svcClient.CreateService svc w.state
  (out.1, ⟨out.2, w.trace ++ [Call.CreateService svc out.1]⟩)

def callGetConfigMap (ns name : String) (w : World σ) :
    Except Error ConfigMap × World σ :=
  let out := r.configMapClient.GetConfigMap ns name w.state
  (out.1, ⟨out.2, w.trace ++ [Call.GetConfigMap ns name out.1]⟩)

def callCreateConfigMap (cm : ConfigMap) (w : World σ) : Option Error × World σ :=
  let out := r.configMapClient.CreateConfigMap cm w.state
  (out.1, ⟨out.2, w.trace ++ [Call.CreateConfigMap cm out.1]⟩)

def callUpdateConfigMap (cm : ConfigMap) (w : World σ) : Option Error × World σ :=
  let out := r.configMapClient.UpdateConfigMap cm w.state
  (out.1, ⟨out.2, w.trace ++ [Call.UpdateConfigMap cm out.1]⟩)

def callGetPodDisruptionBudget (ns name : String) (w : World σ) :
    Except Error PodDisruptionBudget × World σ :=
  let out := r.pdbClient.GetPodDisruptionBudget ns name w.state
  (out.1, ⟨out.2, w.trace ++ [Call.GetPodDisruptionBudget ns name out.1]⟩)

def callCreatePodDisruptionBudget (pdb : PodDisruptionBudget) (w : World σ) :
    Option Error × World σ :=
  let out := r.pdbClient.CreatePodDisruptionBudget pdb w.state
  (out.1, ⟨out.2, w.trace ++ [Call.CreatePodDisruptionBudget pdb out.1]⟩)

def callNewCephSecret (name ns backend : String) (w : World σ) :
    Except Error Secret × World σ :=
  let out := r.client.NewCephSecret name ns backend w.state
  (out.1, ⟨out.2, w.trace ++ [Call.NewCephSecret name ns backend out.1]⟩)

def callCreateSecret (secret : Secret) (w : World σ) : Option Error × World σ :=
  let out := r.client.CreateSecret secret w.state
  (out.1, ⟨out.2, w.trace ++ [Call.CreateSecret secret out.1]⟩)

end Calls

/-! ## The staleness predicate -/

/-- Result of an `int32` addition: two's complement wrap-around. -/
def wrapInt32 (x : Int) : Int :=
  (x + 2147483648) % 4294967296 - 2147483648

/-- Go `strconv.Itoa`, also what the verb `%d` prints. -/
def Itoa (n : Int) : String :=
  match n with
  | Int.ofNat m => Nat.repr m
  | Int.negSucc m => "-" ++ Nat.repr (m + 1)

/-- Go `getSecretKeyRefByKey` (lines 135-144). -/
def getSecretKeyRefByKey (key : String) (envSet : List EnvVar) : String :=
  match envSet with
  | [] => ""
  | value :: rest =>
    if key = value.Name then
      match value.ValueFrom with
      | some valueFrom =>
        match valueFrom.SecretKeyRef with
        | some ref => ref.Name
        | none => getSecretKeyRefByKey key rest
      | none => getSecretKeyRefByKey key rest
    else getSecretKeyRefByKey key rest

/-- Lines 107-116 of `shouldUpdateRedis`: the password secret block, `true` when it
returns `true`. -/
def passwordSecretDiffers (d : Collaborators) (cluster : DistributedRedisCluster)
    (c0 : Container) : Bool :=
  match cluster.Spec.PasswordSecret with
  | some passwordSecret =>
    let secretName := getSecretKeyRefByKey d.PasswordENV c0.Env
    if secretName = "" then true
    else if secretName ≠ passwordSecret.Name then true
    else false
  | none => false

/-- Go `shouldUpdateRedis` (lines 100-133). Dereferencing a nil `Replicas` and indexing an
empty `Containers` panic, at the line where the source does it. -/
def shouldUpdateRedis (d : Collaborators) (cluster : DistributedRedisCluster)
    (sts : StatefulSet) : Res Bool :=
  match sts.Spec.Replicas with
  | none => Res.panic
  | some replicas =>
    if wrapInt32 (cluster.Spec.ClusterReplicas + 1) ≠ replicas then Res.ret true
    else
      match sts.Spec.Template.Spec.Containers with
      | [] => Res.panic
      | c0 :: _ =>
        if cluster.Spec.Image ≠ c0.Image then Res.ret true
        else if passwordSecretDiffers d cluster c0 then Res.ret true
        else
          let expectResource := cluster.Spec.Resources
          let currentResource := c0.Resources
          if expectResource.Requests.Memory.Cmp currentResource.Requests.Memory ≠ 0 then
            Res.ret true
          else if expectResource.Requests.Cpu.Cmp currentResource.Requests.Cpu ≠ 0 then
            Res.ret true
          else if expectResource.Limits.Memory.Cmp currentResource.Limits.Memory ≠ 0 then
            Res.ret true
          else if expectResource.Limits.Cpu.Cmp currentResource.Limits.Cpu ≠ 0 then
            Res.ret true
          else Res.ret false

/-! ## The ensure operations -/

section Ensure

variable {σ : Type} (d : Collaborators) (r : realEnsureResource σ)

/-- Go `ensureRedisPDB` (lines 146-155). -/
def ensureRedisPDB (cluster : DistributedRedisCluster) (name : String) (labels : Labels)
    (w : World σ) : Option Error × World σ :=
  let got := callGetPodDisruptionBudget r cluster.Namespace name w
  match got.1 with
  | Except.error err =>
    if IsNotFound err then
      let pdb := d.NewPodDisruptionBudgetForCR cluster name labels
      callCreatePodDisruptionBudget r pdb got.2
    else (some err, got.2)
  | Except.ok _ => (none, got.2)

/-- Go `ensureRedisStatefulset` (lines 71-98). -/
def ensureRedisStatefulset (cluster : DistributedRedisCluster) (ssName svcName : String)
    (labels : Labels) (w : World σ) : Res (Bool × Option Error) × World σ :=
  let pdb := ensureRedisPDB d r cluster ssName labels w
  match pdb.1 with
  | some err => (Res.ret (false, some err), pdb.2)
  | none =>
    let got := callGetStatefulSet r cluster.Namespace ssName pdb.2
    match got.1 with
    | Except.ok ss =>
      match shouldUpdateRedis d cluster ss with
      | Res.panic => (Res.panic, got.2)
      | Res.ret true =>
        match d.NewStatefulSetForCR cluster ssName svcName labels with
        | Except.error err => (Res.ret (false, some err), got.2)
        | Except.ok newSS =>
          let upd := callUpdateStatefulSet r newSS got.2
          (Res.ret (true, upd.1), upd.2)
      | Res.ret false => (Res.ret (false, none), got.2)
    | Except.error err =>
      if IsNotFound err then
        match d.NewStatefulSetForCR cluster ssName svcName labels with
        | Except.error err => (Res.ret (false, some err), got.2)
        | Except.ok newSS =>
          let crt := callCreateStatefulSet r newSS got.2
          (Res.ret (false, crt.1), crt.2)
      else (Res.ret (false, some err), got.2)

/-- The two label assignments at the head of each shard iteration (lines 55-60 and
159-164): the mapping handed to the per-shard ensurer for shard `i`. -/
def shardLabels (cluster : DistributedRedisCluster) (labels : Labels) (i : Nat) : Labels :=
  let name := d.ClusterStatefulSetName cluster.Name i
  (labels.set d.StatefulSetLabel name).set "app.kubernetes.io/component"
    ("shard-" ++ Itoa (Int.ofNat i))

/-- The `for` loop of `EnsureRedisStatefulsets` (lines 54-67), at index `i` with `k`
iterations to go. -/
def EnsureRedisStatefulsetsLoop (cluster : DistributedRedisCluster) :
    Nat → Nat → Bool → Labels → World σ → Res (Bool × Option Error) × Labels × World σ
  | _, 0, updated, labels, w => (Res.ret (updated, none), labels, w)
  | i, k + 1, updated, labels, w =>
    let name := d.ClusterStatefulSetName cluster.Name i
    let svcName := d.ClusterHeadlessSvcName cluster.Spec.ServiceName i
    let labels1 := shardLabels d cluster labels i
    let out := ensureRedisStatefulset d r cluster name svcName labels1 w
    match out.1 with
    | Res.panic => (Res.panic, labels1, out.2)
    | Res.ret (_, some err) => (Res.ret (false, some err), labels1, out.2)
    | Res.ret (stsUpdated, none) =>
      EnsureRedisStatefulsetsLoop cluster (i + 1) k
        (if stsUpdated then stsUpdated else updated) labels1 out.2

/-- Go `EnsureRedisStatefulsets` (lines 52-69). -/
def EnsureRedisStatefulsets (cluster : DistributedRedisCluster) (labels : Labels)
    (w : World σ) : Res (Bool × Option Error) × Labels × World σ :=
  EnsureRedisStatefulsetsLoop d r cluster 0 (Int.toNat cluster.Spec.MasterSize) false labels w

/-- Go `ensureRedisHeadLessSvc` (lines 172-181). -/
def ensureRedisHeadLessSvc (cluster : DistributedRedisCluster) (name : String)
    (labels : Labels) (w : World σ) : Option Error × World σ :=
  let got := callGetService r cluster.Namespace name w
  match got.1 with
  | Except.error err =>
    if IsNotFound err then
      let svc := d.NewHeadLessSvcForCR cluster name labels
      callCreateService r svc got.2
    else (some err, got.2)
  | Except.ok _ => (none, got.2)

/-- The `for` loop of `EnsureRedisHeadLessSvcs` (lines 158-168). -/
def EnsureRedisHeadLessSvcsLoop (cluster : DistributedRedisCluster) :
    Nat → Nat → Labels → World σ → Option Error × Labels × World σ
  | _, 0, labels, w => (none, labels, w)
  | i, k + 1, labels, w =>
    let svcName := d.ClusterHeadlessSvcName cluster.Spec.ServiceName i
    let labels1 := shardLabels d cluster labels i
    let out := ensureRedisHeadLessSvc d r cluster svcName labels1 w
    match out.1 with
    | some err => (some err, labels1, out.2)
    | none => EnsureRedisHeadLessSvcsLoop cluster (i + 1) k labels1 out.2

/-- Go `EnsureRedisHeadLessSvcs` (lines 157-170). -/
def EnsureRedisHeadLessSvcs (cluster : DistributedRedisCluster) (labels : Labels)
    (w : World σ) : Option Error × Labels × World σ :=
  EnsureRedisHeadLessSvcsLoop d r cluster 0 (Int.toNat cluster.Spec.MasterSize) labels w

/-- Go `EnsureRedisSvc` (lines 183-196). -/
def EnsureRedisSvc (cluster : DistributedRedisCluster) (labels : Labels) (w : World σ) :
    Option Error × Labels × World σ :=
  let name := cluster.Spec.ServiceName
  let labels1 := labels.delete d.StatefulSetLabel
  let labels2 := labels1.delete "app.kubernetes.io/component"
  let got := callGetService r cluster.Namespace name w
  match got.1 with
  | Except.error err =>
    if IsNotFound err then
      let svc := d.NewSvcForCR cluster name labels2
      let crt := callCreateService r svc got.2
      (crt.1, labels2, crt.2)
    else (some err, labels2, got.2)
  | Except.ok _ => (none, labels2, got.2)

/-- Lines 214-231 of `EnsureRedisConfigMap`: the restore sub-flow. -/
def ensureRestoreConfigMap (cluster : DistributedRedisCluster) (labels : Labels)
    (w : World σ) : Option Error × World σ :=
  if d.IsRestoreFromBackup cluster then
    let restoreCmName := d.RestoreConfigMapName cluster.Name
    let got := callGetConfigMap r cluster.Namespace restoreCmName w
    match got.1 with
    | Except.error err =>
      if IsNotFound err then
        let cm := d.NewConfigMapForRestore cluster labels
        callCreateConfigMap r cm got.2
      else (some err, got.2)
    | Except.ok restoreCm =>
      if (restoreCm.Data d.RestoreSucceeded).getD "" ≠
          Itoa cluster.Status.Restore.RestoreSucceeded then
        let cm := d.NewConfigMapForRestore cluster labels
        callUpdateConfigMap r cm got.2
      else (none, got.2)
  else (none, w)

/-- Go `EnsureRedisConfigMap` (lines 198-232). -/
def EnsureRedisConfigMap (cluster : DistributedRedisCluster) (labels : Labels)
    (w : World σ) : Option Error × World σ :=
  let cmName := d.RedisConfigMapName cluster.Name
  let got := callGetConfigMap r cluster.Namespace cmName w
  match got.1 with
  | Except.error err =>
    if IsNotFound err then
      let cm := d.NewConfigMapForCR cluster labels
      let crt := callCreateConfigMap r cm got.2
      match crt.1 with
      | some err2 => (some err2, crt.2)
      | none => ensureRestoreConfigMap d r cluster labels crt.2
    else (some err, got.2)
  | Except.ok _ => ensureRestoreConfigMap d r cluster labels got.2

/-- Go `EnsureRedisOSMSecret` (lines 234-247). -/
def EnsureRedisOSMSecret (cluster : DistributedRedisCluster) (_labels : Labels)
    (w : World σ) : Option Error × World σ :=
  if !d.IsRestoreFromBackup cluster || d.IsRestored cluster then (none, w)
  else
    let backup := cluster.Status.Restore.Backup
    let got := callNewCephSecret r (d.OSMSecretName backup) cluster.Namespace
      backup.Spec.Backend w
    match got.1 with
    | Except.error err => (some err, got.2)
    | Except.ok secret =>
      let crt := callCreateSecret r secret got.2
      match crt.1 with
      | some err => (some err, crt.2)
      | none => (none, crt.2)

end Ensure

/-! ## Reading a trace -/

/-- The calls issued between the world `w` and a later world `w1`. -/
def newCalls {σ : Type} (w w1 : World σ) : List Call :=
  w1.trace.drop w.trace.length

/-- A create call, of any resource kind. -/
def Call.isCreate : Call → Bool
  | Call.CreateStatefulSet _ _ => true
  | Call.CreateService _ _ => true
  | Call.CreateConfigMap _ _ => true
  | Call.CreatePodDisruptionBudget _ _ => true
  | Call.CreateSecret _ _ => true
  | _ => false

/-- An update call, of any resource kind. -/
def Call.isUpdate : Call → Bool
  | Call.UpdateStatefulSet _ _ => true
  | Call.UpdateConfigMap _ _ => true
  | _ => false

/-- A write call: a create or an update. -/
def Call.isWrite (c : Call) : Bool :=
  c.isCreate || c.isUpdate

/-- A create or an update of a workload group. -/
def Call.isStatefulSetWrite : Call → Bool
  | Call.CreateStatefulSet _ _ => true
  | Call.UpdateStatefulSet _ _ => true
  | _ => false

/-- A get, create or update of a workload group. -/
def Call.isStatefulSetCall : Call → Bool
  | Call.GetStatefulSet _ _ _ => true
  | Call.CreateStatefulSet _ _ => true
  | Call.UpdateStatefulSet _ _ => true
  | _ => false

/-- The call `c` confirms the disruption budget `name` of the cluster: a get of that
name that succeeded, or a create of the budget built for that name that succeeded. -/
def budgetConfirmed (d : Collaborators) (cluster : DistributedRedisCluster) (name : String)
    (labels : Labels) (c : Call) : Prop :=
  (∃ pdb, c = Call.GetPodDisruptionBudget cluster.Namespace name (Except.ok pdb)) ∨
    c = Call.CreatePodDisruptionBudget (d.NewPodDisruptionBudgetForCR cluster name labels) none

/-- The `updated` flag of a per-shard result (`false` when it panicked). -/
def shardUpdated : Res (Bool × Option Error) → Bool
  | Res.ret (u, _) => u
  | Res.panic => false

section Shards

variable {σ : Type} (d : Collaborators) (r : realEnsureResource σ)

/-- The world in which the iteration for shard `i` starts when every shard is ensured in
turn, in increasing order, each exactly once: shard `0` starts in `w`, shard `i + 1`
where the ensure of shard `i` ended. -/
def shardStart (cluster : DistributedRedisCluster) (labels : Labels) (w : World σ) :
    Nat → World σ
  | 0 => w
  | i + 1 =>
    (ensureRedisStatefulset d r cluster (d.ClusterStatefulSetName cluster.Name i)
      (d.ClusterHeadlessSvcName cluster.Spec.ServiceName i)
      (shardLabels d cluster labels i) (shardStart cluster labels w i)).2

/-- The workload-group ensure of shard `i` in that sequence. -/
def shardRun (cluster : DistributedRedisCluster) (labels : Labels) (w : World σ) (i : Nat) :
    Res (Bool × Option Error) × World σ :=
  ensureRedisStatefulset d r cluster (d.ClusterStatefulSetName cluster.Name i)
    (d.ClusterHeadlessSvcName cluster.Spec.ServiceName i)
    (shardLabels d cluster labels i) (shardStart d r cluster labels w i)

end Shards

/-! ## An object store

A store in which a successful create or update stores the written object under its
namespace and name. Any call may fail with an injected error instead (`faults`, one entry
consumed per call); such a failure is never a not-found error and leaves the objects as
they are. -/

/-- The objects of the store, by kind, namespace and name. -/
structure Objects where
  statefulSets : String → String → Option StatefulSet
  services : String → String → Option Service
  configMaps : String → String → Option ConfigMap
  pdbs : String → String → Option PodDisruptionBudget
  secrets : String → String → Option Secret

structure Store where
  objects : Objects
  faults : List (Option String)

/-- The error injected into the next call, if any. -/
def Store.nextFault (s : Store) : Option Error :=
  match s.faults with
  | some msg :: _ => some ⟨"InternalError", msg⟩
  | _ => none

/-- The store after one call that wrote nothing. -/
def Store.step (s : Store) : Store :=
  { s with faults := s.faults.tail }

def Objects.putStatefulSet (o : Objects) (ss : StatefulSet) : Objects :=
  { o with statefulSets := fun ns name =>
      if ns = ss.Namespace ∧ name = ss.Name then some ss else o.statefulSets ns name }

def Objects.putService (o : Objects) (svc : Service) : Objects :=
  { o with services := fun ns name =>
      if ns = svc.Namespace ∧ name = svc.Name then some svc else o.services ns name }

def Objects.putConfigMap (o : Objects) (cm : ConfigMap) : Objects :=
  { o with configMaps := fun ns name =>
      if ns = cm.Namespace ∧ name = cm.Name then some cm else o.configMaps ns name }

def Objects.putPdb (o : Objects) (pdb : PodDisruptionBudget) : Objects :=
  { o with pdbs := fun ns name =>
      if ns = pdb.Namespace ∧ name = pdb.Name then some pdb else o.pdbs ns name }

def Objects.putSecret (o : Objects) (secret : Secret) : Objects :=
  { o with secrets := fun ns name =>
      if ns = secret.Namespace ∧ name = secret.Name then some secret else o.secrets ns name }

/-- A get: the injected error, or the object found, or a not-found error. -/
def storeGet {α : Type} (found : Option α) (name : String) (s : Store) :
    Except Error α × Store :=
  match s.nextFault with
  | some err => (Except.error err, s.step)
  | none =>
    match found with
    | some o => (Except.ok o, s.step)
    | none => (Except.error ⟨"NotFound", name⟩, s.step)

/-- A create of an object that is `present` or not: the injected error, or an
already-exists error, or success with the objects `stored`. -/
def storeCreate (present : Bool) (name : String) (stored : Objects) (s : Store) :
    Option Error × Store :=
  match s.nextFault with
  | some err => (some err, s.step)
  | none =>
    if present then (some ⟨"AlreadyExists", name⟩, s.step)
    else (none, { s.step with objects := stored })

/-- An update of an object that is `present` or not: the injected error, or a not-found
error, or success with the objects `stored`. -/
def storeUpdate (present : Bool) (name : String) (stored : Objects) (s : Store) :
    Option Error × Store :=
  match s.nextFault with
  | some err => (some err, s.step)
  | none =>
    if present then (none, { s.step with objects := stored })
    else (some ⟨"NotFound", name⟩, s.step)

/-- The clients over the object store; the secret collaborators are left open. -/
def storeClient (sc : SecretClient Store) : realEnsureResource Store where
  statefulSetClient :=
    { GetStatefulSet := fun ns name s => storeGet (s.objects.statefulSets ns name) name s
      CreateStatefulSet := fun ss s =>
        storeCreate (s.objects.statefulSets ss.Namespace ss.Name).isSome ss.Name
          (s.objects.putStatefulSet ss) s
      UpdateStatefulSet := fun ss s =>
        storeUpdate (s.objects.statefulSets ss.Namespace ss.Name).isSome ss.Name
          (s.objects.putStatefulSet ss) s }
  svcClient :=
    { GetService := fun ns name s => storeGet (s.objects.services ns name) name s
      CreateService := fun svc s =>
        storeCreate (s.objects.services svc.Namespace svc.Name).isSome svc.Name
          (s.objects.putService svc) s }
  configMapClient :=
    { GetConfigMap := fun ns name s => storeGet (s.objects.configMaps ns name) name s
      CreateConfigMap := fun cm s =>
        storeCreate (s.objects.configMaps cm.Namespace cm.Name).isSome cm.Name
          (s.objects.putConfigMap cm) s
      UpdateConfigMap := fun cm s =>
        storeUpdate (s.objects.configMaps cm.Namespace cm.Name).isSome cm.Name
          (s.objects.putConfigMap cm) s }
  pdbClient :=
    { GetPodDisruptionBudget := fun ns name s => storeGet (s.objects.pdbs ns name) name s
      CreatePodDisruptionBudget := fun pdb s =>
        storeCreate (s.objects.pdbs pdb.Namespace pdb.Name).isSome pdb.Name
          (s.objects.putPdb pdb) s }
  client := sc

/-- A secret collaborator over the store: derivation returns the credential object for
the given name and namespace, creation stores it unless one is present already. -/
def storeSecretClient : SecretClient Store where
  NewCephSecret := fun name ns backend s =>
    (Except.ok ⟨ns, name, fun k => if k = "backend" then some backend else none⟩, s.step)
  CreateSecret := fun secret s =>
    match s.objects.secrets secret.Namespace secret.Name with
    | some _ => (none, s.step)
    | none => (none, { s.step with objects := s.objects.putSecret secret })

/-- An empty store in which no call fails. -/
def emptyStore : Store where
  objects :=
    { statefulSets := fun _ _ => none
      services := fun _ _ => none
      configMaps := fun _ _ => none
      pdbs := fun _ _ => none
      secrets := fun _ _ => none }
  faults := []

/-- What the idempotence of the ensure operations asks of the builders: each names its
object as the ensurer queries it, the workload group built for a cluster is not stale,
and the restore configuration built for a cluster records its restore count. -/
structure BuildersAgree (d : Collaborators) (cluster : DistributedRedisCluster) : Prop where
  statefulSet_key : ∀ name svcName labels ss,
    d.NewStatefulSetForCR cluster name svcName labels = Except.ok ss →
      ss.Namespace = cluster.Namespace ∧ ss.Name = name
  statefulSet_fresh : ∀ name svcName labels ss,
    d.NewStatefulSetForCR cluster name svcName labels = Except.ok ss →
      shouldUpdateRedis d cluster ss = Res.ret false
  pdb_key : ∀ name labels,
    (d.NewPodDisruptionBudgetForCR cluster name labels).Namespace = cluster.Namespace ∧
      (d.NewPodDisruptionBudgetForCR cluster name labels).Name = name
  headless_key : ∀ name labels,
    (d.NewHeadLessSvcForCR cluster name labels).Namespace = cluster.Namespace ∧
      (d.NewHeadLessSvcForCR cluster name labels).Name = name
  svc_key : ∀ name labels,
    (d.NewSvcForCR cluster name labels).Namespace = cluster.Namespace ∧
      (d.NewSvcForCR cluster name labels).Name = name
  configMap_key : ∀ labels,
    (d.NewConfigMapForCR cluster labels).Namespace = cluster.Namespace ∧
      (d.NewConfigMapForCR cluster labels).Name = d.RedisConfigMapName cluster.Name
  restore_key : ∀ labels,
    (d.NewConfigMapForRestore cluster labels).Namespace = cluster.Namespace ∧
      (d.NewConfigMapForRestore cluster labels).Name = d.RestoreConfigMapName cluster.Name
  restore_count : ∀ labels,
    ((d.NewConfigMapForRestore cluster labels).Data d.RestoreSucceeded).getD "" =
      Itoa cluster.Status.Restore.RestoreSucceeded

/-- Shard `name` of the cluster has converged in the objects `o`: its budget is present,
and its workload group is present and not stale. -/
def shardConverged (d : Collaborators) (cluster : DistributedRedisCluster) (o : Objects)
    (name : String) : Prop :=
  (∃ pdb, o.pdbs cluster.Namespace name = some pdb) ∧
    ∃ ss, o.statefulSets cluster.Namespace name = some ss ∧
      shouldUpdateRedis d cluster ss = Res.ret false

/-- The configuration of the cluster has converged in the objects `o`: the primary
configuration is present and, when the cluster restores from a backup, the restore
configuration is present and records the cluster's restore count. -/
def configConverged (d : Collaborators) (cluster : DistributedRedisCluster) (o : Objects) :
    Prop :=
  (∃ cm, o.configMaps cluster.Namespace (d.RedisConfigMapName cluster.Name) = some cm) ∧
    (d.IsRestoreFromBackup cluster = true →
      ∃ cm, o.configMaps cluster.Namespace (d.RestoreConfigMapName cluster.Name) = some cm ∧
        (cm.Data d.RestoreSucceeded).getD "" = Itoa cluster.Status.Restore.RestoreSucceeded)

/-! ## Concrete inputs -/

/-- Collaborators with the simplest builders: every object gets the queried namespace and
name and the labels handed in; the workload group copies the diffed fields of the
cluster. -/
def exampleCollaborators : Collaborators where
  StatefulSetLabel := "statefulSet"
  PasswordENV := "REDIS_PASSWORD"
  RestoreSucceeded := "restore-succeeded"
  ClusterStatefulSetName := fun name i => "drc-" ++ name ++ "-" ++ Itoa (Int.ofNat i)
  ClusterHeadlessSvcName := fun name i => name ++ "-" ++ Itoa (Int.ofNat i)
  RedisConfigMapName := fun name => "redis-cluster-" ++ name
  RestoreConfigMapName := fun name => "rediscluster-restore-" ++ name
  IsRestoreFromBackup := fun c => c.Status.Restore.Backup.Name != ""
  IsRestored := fun _ => false
  OSMSecretName := fun b => "osmconfig-" ++ b.Name
  NewStatefulSetForCR := fun c name _ labels =>
    Except.ok ⟨c.Namespace, name, labels,
      ⟨some (wrapInt32 (c.Spec.ClusterReplicas + 1)),
        ⟨⟨[⟨c.Spec.Image,
          match c.Spec.PasswordSecret with
          | some ref => [⟨"REDIS_PASSWORD", "", some ⟨some ⟨ref.Name, "password"⟩⟩⟩]
          | none => [],
          c.Spec.Resources⟩]⟩⟩⟩⟩
  NewPodDisruptionBudgetForCR := fun c name labels => ⟨c.Namespace, name, labels⟩
  NewHeadLessSvcForCR := fun c name labels => ⟨c.Namespace, name, labels⟩
  NewSvcForCR := fun c name labels => ⟨c.Namespace, name, labels⟩
  NewConfigMapForCR := fun c labels =>
    ⟨c.Namespace, "redis-cluster-" ++ c.Name, labels, fun _ => none⟩
  NewConfigMapForRestore := fun c labels =>
    ⟨c.Namespace, "rediscluster-restore-" ++ c.Name, labels,
      fun k => if k = "restore-succeeded" then some (Itoa c.Status.Restore.RestoreSucceeded)
        else none⟩

/-- No requests and no limits. -/
def noResources : ResourceRequirements :=
  ⟨fun _ => none, fun _ => none⟩

/-- Cluster `x`: three shards, one replica per shard, not restoring. -/
def exampleCluster : DistributedRedisCluster where
  Namespace := "default"
  Name := "x"
  Spec := ⟨"redis:5.0.4", 3, 1, "x", noResources, none⟩
  Status := ⟨⟨0, ⟨"default", "", ⟨"s3"⟩⟩⟩⟩

/-- Cluster `x` while it restores from the backup `b`. -/
def restoringCluster : DistributedRedisCluster :=
  { exampleCluster with Status := ⟨⟨3, ⟨"default", "b", ⟨"s3"⟩⟩⟩⟩ }

/-- A workload group of cluster `x` with the given replica count, matching the cluster in
every other diffed field. -/
def exampleSts (replicas : Int) : StatefulSet :=
  ⟨"default", "drc-x-0", fun _ => none,
    ⟨some replicas, ⟨⟨[⟨"redis:5.0.4", [], noResources⟩]⟩⟩⟩⟩

/-- No labels. -/
def noLabels : Labels :=
  fun _ => none

/-- The empty store with the workload group `ss` in it. -/
def storeWith (ss : StatefulSet) : Store :=
  { emptyStore with objects := emptyStore.objects.putStatefulSet ss }

/-- The world of a store before any call. -/
def freshWorld (s : Store) : World Store :=
  ⟨s, []⟩

/-! ## Further notions and inputs -/

/-- The first variable of `envSet` that is named `key` and bound to a secret key reference
is bound to the secret `name`. -/
def firstSecretRef (key : String) (envSet : List EnvVar) (name : String) : Prop :=
  ∃ pre v post ref, envSet = pre ++ v :: post ∧ v.Name = key ∧
    v.ValueFrom = some ⟨some ref⟩ ∧ ref.Name = name ∧
    ∀ u ∈ pre, ¬ (u.Name = key ∧ ∃ r, u.ValueFrom = some ⟨some r⟩)

/-- Cluster `x` with the credential secret `redis-secret` configured. -/
def passwordCluster : DistributedRedisCluster :=
  { exampleCluster with
    Spec := ⟨"redis:5.0.4", 3, 1, "x", noResources, some ⟨"redis-secret"⟩⟩ }

/-- An environment variable bound to the key `password` of a secret. -/
def secretEnv (name secret : String) : EnvVar :=
  ⟨name, "", some ⟨some ⟨secret, "password"⟩⟩⟩

/-- A workload group of cluster `x` that matches it in replica count, image and
resources, with the given environment in its first container. -/
def stsWithEnv (env : List EnvVar) : StatefulSet :=
  ⟨"default", "drc-x-0", fun _ => none,
    ⟨some 2, ⟨⟨[⟨"redis:5.0.4", env, noResources⟩]⟩⟩⟩⟩

section Headless

variable {σ : Type} (d : Collaborators) (r : realEnsureResource σ)

/-- The world in which the headless-endpoint iteration for shard `i` starts when every
shard is ensured in turn, in increasing order, each exactly once. -/
def headlessStart (cluster : DistributedRedisCluster) (labels : Labels) (w : World σ) :
    Nat → World σ
  | 0 => w
  | i + 1 =>
    (ensureRedisHeadLessSvc d r cluster (d.ClusterHeadlessSvcName cluster.Spec.ServiceName i)
      (shardLabels d cluster labels i) (headlessStart cluster labels w i)).2

/-- The headless-endpoint ensure of shard `i` in that sequence. -/
def headlessRun (cluster : DistributedRedisCluster) (labels : Labels) (w : World σ)
    (i : Nat) : Option Error × World σ :=
  ensureRedisHeadLessSvc d r cluster (d.ClusterHeadlessSvcName cluster.Spec.ServiceName i)
    (shardLabels d cluster labels i) (headlessStart d r cluster labels w i)

end Headless

/-- The object written by the call `c`, if it is a per-shard write, was built for shard
`i` from the label mapping `shardLabels d cluster labels i`. -/
def builtForShard (d : Collaborators) (cluster : DistributedRedisCluster) (labels : Labels)
    (i : Nat) (c : Call) : Prop :=
  match c with
  | Call.CreatePodDisruptionBudget pdb _ =>
    pdb = d.NewPodDisruptionBudgetForCR cluster (d.ClusterStatefulSetName cluster.Name i)
      (shardLabels d cluster labels i)
  | Call.CreateStatefulSet ss _ =>
    d.NewStatefulSetForCR cluster (d.ClusterStatefulSetName cluster.Name i)
      (d.ClusterHeadlessSvcName cluster.Spec.ServiceName i)
      (shardLabels d cluster labels i) = Except.ok ss
  | Call.UpdateStatefulSet ss _ =>
    d.NewStatefulSetForCR cluster (d.ClusterStatefulSetName cluster.Name i)
      (d.ClusterHeadlessSvcName cluster.Spec.ServiceName i)
      (shardLabels d cluster labels i) = Except.ok ss
  | Call.CreateService svc _ =>
    svc = d.NewHeadLessSvcForCR cluster (d.ClusterHeadlessSvcName cluster.Spec.ServiceName i)
      (shardLabels d cluster labels i)
  | _ => True

/-- The error a write call returned (`none` for a get and for a write that succeeded). -/
def Call.writeResult : Call → Option Error
  | Call.CreateStatefulSet _ res => res
  | Call.UpdateStatefulSet _ res => res
  | Call.CreateService _ res => res
  | Call.CreateConfigMap _ res => res
  | Call.UpdateConfigMap _ res => res
  | Call.CreatePodDisruptionBudget _ res => res
  | Call.CreateSecret _ res => res
  | _ => none

/-- The error `err` is the result of a write call among `calls`. -/
def writtenIn (err : Error) (calls : List Call) : Prop :=
  ∃ c ∈ calls, c.isWrite = true ∧ c.writeResult = some err

/-- The not-found error an API server answers with when the namespace of the request does
not exist. -/
def namespaceMissing : Error :=
  ⟨"NotFound", "namespace default not found"⟩

/-- Clients of a cluster whose namespace does not exist: every get and every write is
answered with the not-found error of the namespace. -/
def namespaceMissingClient : realEnsureResource Unit where
  statefulSetClient :=
    { GetStatefulSet := fun _ _ s => (Except.error namespaceMissing, s)
      CreateStatefulSet := fun _ s => (some namespaceMissing, s)
      UpdateStatefulSet := fun _ s => (some namespaceMissing, s) }
  svcClient :=
    { GetService := fun _ _ s => (Except.error namespaceMissing, s)
      CreateService := fun _ s => (some namespaceMissing, s) }
  configMapClient :=
    { GetConfigMap := fun _ _ s => (Except.error namespaceMissing, s)
      CreateConfigMap := fun _ s => (some namespaceMissing, s)
      UpdateConfigMap := fun _ s => (some namespaceMissing, s) }
  pdbClient :=
    { GetPodDisruptionBudget := fun _ _ s => (Except.error namespaceMissing, s)
      CreatePodDisruptionBudget := fun _ s => (some namespaceMissing, s) }
  client :=
    { NewCephSecret := fun _ _ _ s => (Except.error namespaceMissing, s)
      CreateSecret := fun _ s => (some namespaceMissing, s) }

/-- The primary configuration of cluster `x`. -/
def primaryConfig : ConfigMap :=
  ⟨"default", "redis-cluster-x", noLabels, fun _ => none⟩

/-- The restore configuration of cluster `x` recording `observed` as its count. -/
def restoreConfig (observed : String) : ConfigMap :=
  ⟨"default", "rediscluster-restore-x", noLabels,
    fun k => if k = "restore-succeeded" then some observed else none⟩

/-- A store that holds the restore configuration of cluster `x` with the count `observed`
and, when `primary` is set, its primary configuration. -/
def configStore (primary : Bool) (observed : String) : Store :=
  { emptyStore with
    objects :=
      (if primary then emptyStore.objects.putConfigMap primaryConfig
        else emptyStore.objects).putConfigMap (restoreConfig observed) }

/-- A store that holds the stale workload group `drc-x-0` (three replicas) and fails the
fifth call made to it. -/
def faultyStore : Store :=
  { storeWith (exampleSts 3) with faults := [none, none, none, none, some "boom"] }

/-! ## The staleness predicate -/

theorem wrapInt32_succ (x : Int) (hlo : -2147483648 ≤ x) (hhi : x < 2147483647) :
    wrapInt32 (x + 1) = x + 1 := by
  unfold wrapInt32
  omega

theorem passwordSecretDiffers_iff (d : Collaborators) (cluster : DistributedRedisCluster)
    (c0 : Container) :
    passwordSecretDiffers d cluster c0 = true ↔
      ∃ passwordSecret, cluster.Spec.PasswordSecret = some passwordSecret ∧
        (getSecretKeyRefByKey d.PasswordENV c0.Env = ""
          ∨ getSecretKeyRefByKey d.PasswordENV c0.Env ≠ passwordSecret.Name) := by
  unfold passwordSecretDiffers
  cases hps : cluster.Spec.PasswordSecret with
  | none => simp
  | some ps =>
    by_cases h1 : getSecretKeyRefByKey d.PasswordENV c0.Env = ""
    · simp [h1]
    · by_cases h2 : getSecretKeyRefByKey d.PasswordENV c0.Env = ps.Name
      · simp [h1, h2]
      · simp [h1, h2]

/-- C1. For an observed workload group with a replica count and a first container,
`shouldUpdateRedis` returns a boolean, and that boolean is `true` exactly when the
`int32` sum `ClusterReplicas + 1` differs from the observed replica count, or the image
differs from the first container's, or a password secret is configured and
`getSecretKeyRefByKey PasswordENV` of the first container's environment is empty or is
not the configured name, or one of the four quantity comparisons is non-zero. -/
theorem shouldUpdateRedis_iff (d : Collaborators) (cluster : DistributedRedisCluster)
    (sts : StatefulSet) (replicas : Int) (c0 : Container) (rest : List Container)
    (hrep : sts.Spec.Replicas = some replicas)
    (hcs : sts.Spec.Template.Spec.Containers = c0 :: rest) :
    ∃ b : Bool, shouldUpdateRedis d cluster sts = Res.ret b ∧
      (b = true ↔
        (wrapInt32 (cluster.Spec.ClusterReplicas + 1) ≠ replicas
          ∨ cluster.Spec.Image ≠ c0.Image
          ∨ (∃ passwordSecret, cluster.Spec.PasswordSecret = some passwordSecret ∧
              (getSecretKeyRefByKey d.PasswordENV c0.Env = ""
                ∨ getSecretKeyRefByKey d.PasswordENV c0.Env ≠ passwordSecret.Name))
          ∨ (cluster.Spec.Resources.Requests.Memory.Cmp c0.Resources.Requests.Memory ≠ 0
              ∨ cluster.Spec.Resources.Requests.Cpu.Cmp c0.Resources.Requests.Cpu ≠ 0
              ∨ cluster.Spec.Resources.Limits.Memory.Cmp c0.Resources.Limits.Memory ≠ 0
              ∨ cluster.Spec.Resources.Limits.Cpu.Cmp c0.Resources.Limits.Cpu ≠ 0))) := by
  have hpw := passwordSecretDiffers_iff d cluster c0
  unfold shouldUpdateRedis
  rw [hrep]
  simp only [hcs]
  by_cases h1 : wrapInt32 (cluster.Spec.ClusterReplicas + 1) = replicas
  · by_cases h2 : cluster.Spec.Image = c0.Image
    · by_cases h3 : passwordSecretDiffers d cluster c0 = true
      · refine ⟨true, by simp [h1, h2, h3], ?_⟩
        simp only [true_iff]
        exact Or.inr (Or.inr (Or.inl (hpw.mp h3)))
      · have h3n : ¬ ∃ passwordSecret, cluster.Spec.PasswordSecret = some passwordSecret ∧
            (getSecretKeyRefByKey d.PasswordENV c0.Env = ""
              ∨ getSecretKeyRefByKey d.PasswordENV c0.Env ≠ passwordSecret.Name) :=
          fun h => h3 (hpw.mpr h)
        by_cases h4 :
            cluster.Spec.Resources.Requests.Memory.Cmp c0.Resources.Requests.Memory = 0
        · by_cases h5 :
              cluster.Spec.Resources.Requests.Cpu.Cmp c0.Resources.Requests.Cpu = 0
          · by_cases h6 :
                cluster.Spec.Resources.Limits.Memory.Cmp c0.Resources.Limits.Memory = 0
            · by_cases h7 :
                  cluster.Spec.Resources.Limits.Cpu.Cmp c0.Resources.Limits.Cpu = 0
              · refine ⟨false, by simp [h1, h2, h3, h4, h5, h6, h7], ?_⟩
                simp [h1, h2, h3n, h4, h5, h6, h7]
              · refine ⟨true, by simp [h1, h2, h3, h4, h5, h6, h7], ?_⟩
                simp [h7]
            · refine ⟨true, by simp [h1, h2, h3, h4, h5, h6], ?_⟩
              simp [h6]
          · refine ⟨true, by simp [h1, h2, h3, h4, h5], ?_⟩
            simp [h5]
        · refine ⟨true, by simp [h1, h2, h3, h4], ?_⟩
          simp [h4]
    · refine ⟨true, by simp [h1, h2], ?_⟩
      simp [h2]
  · refine ⟨true, by simp [h1], ?_⟩
    simp [h1]

/-- C1 at cluster `x` (one replica per shard) and an observed group with three
replicas. -/
theorem shouldUpdateRedis_iff_witness :
    ∃ b : Bool, shouldUpdateRedis exampleCollaborators exampleCluster (exampleSts 3)
        = Res.ret b ∧
      (b = true ↔
        (wrapInt32 (exampleCluster.Spec.ClusterReplicas + 1) ≠ 3
          ∨ exampleCluster.Spec.Image ≠ "redis:5.0.4"
          ∨ (∃ passwordSecret, exampleCluster.Spec.PasswordSecret = some passwordSecret ∧
              (getSecretKeyRefByKey exampleCollaborators.PasswordENV [] = ""
                ∨ getSecretKeyRefByKey exampleCollaborators.PasswordENV []
                  ≠ passwordSecret.Name))
          ∨ (exampleCluster.Spec.Resources.Requests.Memory.Cmp noResources.Requests.Memory ≠ 0
              ∨ exampleCluster.Spec.Resources.Requests.Cpu.Cmp noResources.Requests.Cpu ≠ 0
              ∨ exampleCluster.Spec.Resources.Limits.Memory.Cmp noResources.Limits.Memory ≠ 0
              ∨ exampleCluster.Spec.Resources.Limits.Cpu.Cmp noResources.Limits.Cpu ≠ 0))) :=
  shouldUpdateRedis_iff exampleCollaborators exampleCluster (exampleSts 3) 3
    ⟨"redis:5.0.4", [], noResources⟩ [] rfl rfl

/-! ## Traces -/

section TraceLemmas

variable {σ : Type} (d : Collaborators) (r : realEnsureResource σ)

theorem newCalls_of_append (w w1 : World σ) (delta : List Call)
    (h : w1.trace = w.trace ++ delta) : newCalls w w1 = delta := by
  unfold newCalls
  rw [h, List.drop_left]

theorem newCalls_self (w : World σ) : newCalls w w = [] := by
  simp [newCalls]

/-- The three outcomes of `ensureRedisPDB`: budget found, budget absent, fetch failed. -/
theorem ensureRedisPDB_found (cluster : DistributedRedisCluster) (name : String)
    (labels : Labels) (w : World σ) (pdb : PodDisruptionBudget)
    (h : (r.pdbClient.GetPodDisruptionBudget cluster.Namespace name w.state).1
      = Except.ok pdb) :
    ensureRedisPDB d r cluster name labels w =
      (none, ⟨(r.pdbClient.GetPodDisruptionBudget cluster.Namespace name w.state).2,
        w.trace ++ [Call.GetPodDisruptionBudget cluster.Namespace name (Except.ok pdb)]⟩) := by
  simp [ensureRedisPDB, callGetPodDisruptionBudget, h]

theorem ensureRedisPDB_absent (cluster : DistributedRedisCluster) (name : String)
    (labels : Labels) (w : World σ) (err : Error)
    (h : (r.pdbClient.GetPodDisruptionBudget cluster.Namespace name w.state).1
      = Except.error err)
    (hnf : IsNotFound err = true) :
    ensureRedisPDB d r cluster name labels w =
      ((r.pdbClient.CreatePodDisruptionBudget
          (d.NewPodDisruptionBudgetForCR cluster name labels)
          (r.pdbClient.GetPodDisruptionBudget cluster.Namespace name w.state).2).1,
        ⟨(r.pdbClient.CreatePodDisruptionBudget
            (d.NewPodDisruptionBudgetForCR cluster name labels)
            (r.pdbClient.GetPodDisruptionBudget cluster.Namespace name w.state).2).2,
          w.trace ++
            [Call.GetPodDisruptionBudget cluster.Namespace name (Except.error err),
              Call.CreatePodDisruptionBudget
                (d.NewPodDisruptionBudgetForCR cluster name labels)
                (r.pdbClient.CreatePodDisruptionBudget
                  (d.NewPodDisruptionBudgetForCR cluster name labels)
                  (r.pdbClient.GetPodDisruptionBudget cluster.Namespace name
                    w.state).2).1]⟩) := by
  simp [ensureRedisPDB, callGetPodDisruptionBudget, callCreatePodDisruptionBudget, h, hnf]

theorem ensureRedisPDB_failed (cluster : DistributedRedisCluster) (name : String)
    (labels : Labels) (w : World σ) (err : Error)
    (h : (r.pdbClient.GetPodDisruptionBudget cluster.Namespace name w.state).1
      = Except.error err)
    (hnf : IsNotFound err = false) :
    ensureRedisPDB d r cluster name labels w =
      (some err, ⟨(r.pdbClient.GetPodDisruptionBudget cluster.Namespace name w.state).2,
        w.trace ++
          [Call.GetPodDisruptionBudget cluster.Namespace name (Except.error err)]⟩) := by
  simp [ensureRedisPDB, callGetPodDisruptionBudget, h, hnf]

theorem ensureRedisHeadLessSvc_found (cluster : DistributedRedisCluster) (name : String)
    (labels : Labels) (w : World σ) (svc : Service)
    (h : (r.svcClient.GetService cluster.Namespace name w.state).1 = Except.ok svc) :
    ensureRedisHeadLessSvc d r cluster name labels w =
      (none, ⟨(r.svcClient.GetService cluster.Namespace name w.state).2,
        w.trace ++ [Call.GetService cluster.Namespace name (Except.ok svc)]⟩) := by
  simp [ensureRedisHeadLessSvc, callGetService, h]

theorem ensureRedisHeadLessSvc_absent (cluster : DistributedRedisCluster) (name : String)
    (labels : Labels) (w : World σ) (err : Error)
    (h : (r.svcClient.GetService cluster.Namespace name w.state).1 = Except.error err)
    (hnf : IsNotFound err = true) :
    ensureRedisHeadLessSvc d r cluster name labels w =
      ((r.svcClient.CreateService (d.NewHeadLessSvcForCR cluster name labels)
          (r.svcClient.GetService cluster.Namespace name w.state).2).1,
        ⟨(r.svcClient.CreateService (d.NewHeadLessSvcForCR cluster name labels)
            (r.svcClient.GetService cluster.Namespace name w.state).2).2,
          w.trace ++
            [Call.GetService cluster.Namespace name (Except.error err),
              Call.CreateService (d.NewHeadLessSvcForCR cluster name labels)
                (r.svcClient.CreateService (d.NewHeadLessSvcForCR cluster name labels)
                  (r.svcClient.GetService cluster.Namespace name w.state).2).1]⟩) := by
  simp [ensureRedisHeadLessSvc, callGetService, callCreateService, h, hnf]

theorem ensureRedisHeadLessSvc_failed (cluster : DistributedRedisCluster) (name : String)
    (labels : Labels) (w : World σ) (err : Error)
    (h : (r.svcClient.GetService cluster.Namespace name w.state).1 = Except.error err)
    (hnf : IsNotFound err = false) :
    ensureRedisHeadLessSvc d r cluster name labels w =
      (some err, ⟨(r.svcClient.GetService cluster.Namespace name w.state).2,
        w.trace ++ [Call.GetService cluster.Namespace name (Except.error err)]⟩) := by
  simp [ensureRedisHeadLessSvc, callGetService, h, hnf]

theorem isStatefulSetCall_of_write (c : Call) (h : c.isStatefulSetWrite = true) :
    c.isStatefulSetCall = true := by
  cases c <;> simp_all [Call.isStatefulSetWrite, Call.isStatefulSetCall]

theorem isWrite_of_statefulSetWrite (c : Call) (h : c.isStatefulSetWrite = true) :
    c.isWrite = true := by
  cases c <;> simp_all [Call.isStatefulSetWrite, Call.isWrite, Call.isCreate, Call.isUpdate]

/-- The calls of `ensureRedisPDB`: a get of the budget, then at most a create of the
built budget; when it returns no error, one of them confirms the budget. -/
theorem ensureRedisPDB_calls (cluster : DistributedRedisCluster) (name : String)
    (labels : Labels) (w : World σ) :
    ∃ delta : List Call,
      (ensureRedisPDB d r cluster name labels w).2.trace = w.trace ++ delta ∧
      (∀ c ∈ delta, c.isStatefulSetCall = false) ∧
      ((ensureRedisPDB d r cluster name labels w).1 = none →
        ∃ c ∈ delta, budgetConfirmed d cluster name labels c) ∧
      (∀ c ∈ delta, c.isWrite = true →
        c = Call.CreatePodDisruptionBudget (d.NewPodDisruptionBudgetForCR cluster name labels)
          (ensureRedisPDB d r cluster name labels w).1) ∧
      ((∃ pdb, (r.pdbClient.GetPodDisruptionBudget cluster.Namespace name w.state).1
          = Except.ok pdb) → ∀ c ∈ delta, c.isWrite = false) := by
  cases h : (r.pdbClient.GetPodDisruptionBudget cluster.Namespace name w.state).1 with
  | ok pdb =>
    rw [ensureRedisPDB_found d r cluster name labels w pdb h]
    refine ⟨_, rfl, ?_, ?_, ?_, ?_⟩
    · intro c hc
      simp at hc
      subst hc
      rfl
    · intro _
      exact ⟨_, List.mem_singleton_self _, Or.inl ⟨pdb, rfl⟩⟩
    · intro c hc hw
      simp at hc
      subst hc
      simp [Call.isWrite, Call.isCreate, Call.isUpdate] at hw
    · intro _ c hc
      simp at hc
      subst hc
      rfl
  | error err =>
    cases hnf : IsNotFound err with
    | true =>
      rw [ensureRedisPDB_absent d r cluster name labels w err h hnf]
      refine ⟨_, rfl, ?_, ?_, ?_, ?_⟩
      · intro c hc
        simp at hc
        rcases hc with hc | hc <;> subst hc <;> rfl
      · intro hnone
        simp only at hnone
        refine ⟨_, List.mem_cons_of_mem _ (List.mem_singleton_self _), Or.inr ?_⟩
        rw [hnone]
      · intro c hc hw
        simp at hc
        rcases hc with hc | hc
        · subst hc
          simp [Call.isWrite, Call.isCreate, Call.isUpdate] at hw
        · exact hc
      · rintro ⟨pdb, hpdb⟩
        cases hpdb
    | false =>
      rw [ensureRedisPDB_failed d r cluster name labels w err h hnf]
      refine ⟨_, rfl, ?_, ?_, ?_, ?_⟩
      · intro c hc
        simp at hc
        subst hc
        rfl
      · intro hnone
        cases hnone
      · intro c hc hw
        simp at hc
        subst hc
        simp [Call.isWrite, Call.isCreate, Call.isUpdate] at hw
      · rintro ⟨pdb, hpdb⟩
        cases hpdb

end TraceLemmas

section StatefulsetLemmas

variable {σ : Type} (d : Collaborators) (r : realEnsureResource σ)

/-- When the budget ensure fails, `ensureRedisStatefulset` stops there. -/
theorem ensureRedisStatefulset_of_pdb_error (cluster : DistributedRedisCluster)
    (ssName svcName : String) (labels : Labels) (w : World σ) (err : Error)
    (hpdb : (ensureRedisPDB d r cluster ssName labels w).1 = some err) :
    ensureRedisStatefulset d r cluster ssName svcName labels w =
      (Res.ret (false, some err), (ensureRedisPDB d r cluster ssName labels w).2) := by
  simp [ensureRedisStatefulset, hpdb]

/-- Found and stale, build succeeded: one update. -/
theorem ensureRedisStatefulset_of_stale (cluster : DistributedRedisCluster)
    (ssName svcName : String) (labels : Labels) (w : World σ) (ss newSS : StatefulSet)
    (hpdb : (ensureRedisPDB d r cluster ssName labels w).1 = none)
    (hget : (r.statefulSetClient.GetStatefulSet cluster.Namespace ssName
      (ensureRedisPDB d r cluster ssName labels w).2.state).1 = Except.ok ss)
    (hstale : shouldUpdateRedis d cluster ss = Res.ret true)
    (hbuild : d.NewStatefulSetForCR cluster ssName svcName labels = Except.ok newSS) :
    ensureRedisStatefulset d r cluster ssName svcName labels w =
      (Res.ret (true, (r.statefulSetClient.UpdateStatefulSet newSS
          (r.statefulSetClient.GetStatefulSet cluster.Namespace ssName
            (ensureRedisPDB d r cluster ssName labels w).2.state).2).1),
        ⟨(r.statefulSetClient.UpdateStatefulSet newSS
          (r.statefulSetClient.GetStatefulSet cluster.Namespace ssName
            (ensureRedisPDB d r cluster ssName labels w).2.state).2).2,
          (ensureRedisPDB d r cluster ssName labels w).2.trace ++
            [Call.GetStatefulSet cluster.Namespace ssName (Except.ok ss),
              Call.UpdateStatefulSet newSS (r.statefulSetClient.UpdateStatefulSet newSS
                (r.statefulSetClient.GetStatefulSet cluster.Namespace ssName
                  (ensureRedisPDB d r cluster ssName labels w).2.state).2).1]⟩) := by
  simp [ensureRedisStatefulset, callGetStatefulSet, callUpdateStatefulSet, hpdb, hget,
    hstale, hbuild]

/-- Found and not stale: nothing after the get. -/
theorem ensureRedisStatefulset_of_fresh (cluster : DistributedRedisCluster)
    (ssName svcName : String) (labels : Labels) (w : World σ) (ss : StatefulSet)
    (hpdb : (ensureRedisPDB d r cluster ssName labels w).1 = none)
    (hget : (r.statefulSetClient.GetStatefulSet cluster.Namespace ssName
      (ensureRedisPDB d r cluster ssName labels w).2.state).1 = Except.ok ss)
    (hfresh : shouldUpdateRedis d cluster ss = Res.ret false) :
    ensureRedisStatefulset d r cluster ssName svcName labels w =
      (Res.ret (false, none),
        ⟨(r.statefulSetClient.GetStatefulSet cluster.Namespace ssName
            (ensureRedisPDB d r cluster ssName labels w).2.state).2,
          (ensureRedisPDB d r cluster ssName labels w).2.trace ++
            [Call.GetStatefulSet cluster.Namespace ssName (Except.ok ss)]⟩) := by
  simp [ensureRedisStatefulset, callGetStatefulSet, hpdb, hget, hfresh]

/-- Absent, build succeeded: one create. -/
theorem ensureRedisStatefulset_of_absent (cluster : DistributedRedisCluster)
    (ssName svcName : String) (labels : Labels) (w : World σ) (err : Error)
    (newSS : StatefulSet)
    (hpdb : (ensureRedisPDB d r cluster ssName labels w).1 = none)
    (hget : (r.statefulSetClient.GetStatefulSet cluster.Namespace ssName
      (ensureRedisPDB d r cluster ssName labels w).2.state).1 = Except.error err)
    (hnf : IsNotFound err = true)
    (hbuild : d.NewStatefulSetForCR cluster ssName svcName labels = Except.ok newSS) :
    ensureRedisStatefulset d r cluster ssName svcName labels w =
      (Res.ret (false, (r.statefulSetClient.CreateStatefulSet newSS
          (r.statefulSetClient.GetStatefulSet cluster.Namespace ssName
            (ensureRedisPDB d r cluster ssName labels w).2.state).2).1),
        ⟨(r.statefulSetClient.CreateStatefulSet newSS
          (r.statefulSetClient.GetStatefulSet cluster.Namespace ssName
            (ensureRedisPDB d r cluster ssName labels w).2.state).2).2,
          (ensureRedisPDB d r cluster ssName labels w).2.trace ++
            [Call.GetStatefulSet cluster.Namespace ssName (Except.error err),
              Call.CreateStatefulSet newSS (r.statefulSetClient.CreateStatefulSet newSS
                (r.statefulSetClient.GetStatefulSet cluster.Namespace ssName
                  (ensureRedisPDB d r cluster ssName labels w).2.state).2).1]⟩) := by
  simp [ensureRedisStatefulset, callGetStatefulSet, callCreateStatefulSet, hpdb, hget,
    hnf, hbuild]

/-- The calls of `ensureRedisStatefulset` are those of the budget ensure followed by the
workload-group calls, and there are workload-group calls only after the budget ensure
returned no error. -/
theorem ensureRedisStatefulset_calls (cluster : DistributedRedisCluster)
    (ssName svcName : String) (labels : Labels) (w : World σ) :
    ∃ delta : List Call,
      (ensureRedisStatefulset d r cluster ssName svcName labels w).2.trace =
        (ensureRedisPDB d r cluster ssName labels w).2.trace ++ delta ∧
      ((ensureRedisPDB d r cluster ssName labels w).1 ≠ none → delta = []) := by
  cases hpdb : (ensureRedisPDB d r cluster ssName labels w).1 with
  | some err => exact ⟨[], by simp [ensureRedisStatefulset, hpdb], fun _ => rfl⟩
  | none =>
    simp only [ne_eq, not_true_eq_false, false_implies, and_true]
    cases hget : (r.statefulSetClient.GetStatefulSet cluster.Namespace ssName
        (ensureRedisPDB d r cluster ssName labels w).2.state).1 with
    | ok ss =>
      cases hs : shouldUpdateRedis d cluster ss with
      | panic =>
        simp [ensureRedisStatefulset, callGetStatefulSet, hpdb, hget, hs]
      | ret b =>
        cases b with
        | false =>
          simp [ensureRedisStatefulset, callGetStatefulSet, hpdb, hget, hs]
        | true =>
          cases hb : d.NewStatefulSetForCR cluster ssName svcName labels with
          | error e =>
            simp [ensureRedisStatefulset, callGetStatefulSet, hpdb, hget, hs, hb]
          | ok newSS =>
            simp [ensureRedisStatefulset, callGetStatefulSet, callUpdateStatefulSet,
              hpdb, hget, hs, hb]
    | error err =>
      cases hnf : IsNotFound err with
      | false =>
        simp [ensureRedisStatefulset, callGetStatefulSet, hpdb, hget, hnf]
      | true =>
        cases hb : d.NewStatefulSetForCR cluster ssName svcName labels with
        | error e =>
          simp [ensureRedisStatefulset, callGetStatefulSet, hpdb, hget, hnf, hb]
        | ok newSS =>
          simp [ensureRedisStatefulset, callGetStatefulSet, callCreateStatefulSet,
            hpdb, hget, hnf, hb]

end StatefulsetLemmas

section AbstractClaims

variable {σ : Type}

theorem shouldUpdateRedis_of_replicas (d : Collaborators) (cluster : DistributedRedisCluster)
    (ss : StatefulSet) (replicas : Int) (hrep : ss.Spec.Replicas = some replicas)
    (hne : wrapInt32 (cluster.Spec.ClusterReplicas + 1) ≠ replicas) :
    shouldUpdateRedis d cluster ss = Res.ret true := by
  simp [shouldUpdateRedis, hrep, hne]

/-- C2. When the budget ensure returns no error, the observed workload group has a replica
count other than the `int32` sum `ClusterReplicas + 1`, and the builder succeeds,
`ensureRedisStatefulset` returns `updated = true`, and the workload-group writes it issues
are exactly one `UpdateStatefulSet`, carrying the object that
`NewStatefulSetForCR cluster ssName svcName labels` built (so no `CreateStatefulSet`). -/
theorem ensureRedisStatefulset_replicas_differ (d : Collaborators)
    (r : realEnsureResource σ) (cluster : DistributedRedisCluster)
    (ssName svcName : String) (labels : Labels) (w : World σ) (ss newSS : StatefulSet)
    (replicas : Int)
    (hpdb : (ensureRedisPDB d r cluster ssName labels w).1 = none)
    (hget : (r.statefulSetClient.GetStatefulSet cluster.Namespace ssName
      (ensureRedisPDB d r cluster ssName labels w).2.state).1 = Except.ok ss)
    (hrep : ss.Spec.Replicas = some replicas)
    (hne : wrapInt32 (cluster.Spec.ClusterReplicas + 1) ≠ replicas)
    (hbuild : d.NewStatefulSetForCR cluster ssName svcName labels = Except.ok newSS) :
    (∃ err, (ensureRedisStatefulset d r cluster ssName svcName labels w).1
        = Res.ret (true, err)) ∧
      (∃ res,
        (newCalls w (ensureRedisStatefulset d r cluster ssName svcName labels w).2).filter
            Call.isStatefulSetWrite
          = [Call.UpdateStatefulSet newSS res]) := by
  have hstale := shouldUpdateRedis_of_replicas d cluster ss replicas hrep hne
  obtain ⟨delta, htrace, hnosts, -, -, -⟩ := ensureRedisPDB_calls d r cluster ssName labels w
  rw [ensureRedisStatefulset_of_stale d r cluster ssName svcName labels w ss newSS hpdb hget
    hstale hbuild]
  have hfilter : delta.filter Call.isStatefulSetWrite = [] := by
    rw [List.filter_eq_nil_iff]
    intro c hc hw
    have := hnosts c hc
    rw [isStatefulSetCall_of_write c hw] at this
    cases this
  refine ⟨⟨_, rfl⟩, ?_⟩
  rw [newCalls_of_append w _ _ (by rw [htrace, List.append_assoc])]
  rw [List.filter_append, hfilter]
  exact ⟨_, rfl⟩

/-- C3, as amended. When the budget ensure returns no error and the observed workload
group is not stale, `ensureRedisStatefulset` returns `updated = false` and no error; it
issues no create and no update of a workload group; the only write it may issue is the
create of the disruption budget built for the shard (issued when the budget was absent),
and it issues no write at all when the budget was found. -/
theorem ensureRedisStatefulset_fresh (d : Collaborators)
    (r : realEnsureResource σ) (cluster : DistributedRedisCluster)
    (ssName svcName : String) (labels : Labels) (w : World σ) (ss : StatefulSet)
    (hpdb : (ensureRedisPDB d r cluster ssName labels w).1 = none)
    (hget : (r.statefulSetClient.GetStatefulSet cluster.Namespace ssName
      (ensureRedisPDB d r cluster ssName labels w).2.state).1 = Except.ok ss)
    (hfresh : shouldUpdateRedis d cluster ss = Res.ret false) :
    (ensureRedisStatefulset d r cluster ssName svcName labels w).1 = Res.ret (false, none) ∧
      (∀ c ∈ newCalls w (ensureRedisStatefulset d r cluster ssName svcName labels w).2,
        c.isStatefulSetWrite = false) ∧
      (∀ c ∈ newCalls w (ensureRedisStatefulset d r cluster ssName svcName labels w).2,
        c.isWrite = true →
          c = Call.CreatePodDisruptionBudget
            (d.NewPodDisruptionBudgetForCR cluster ssName labels) none) ∧
      ((∃ pdb, (r.pdbClient.GetPodDisruptionBudget cluster.Namespace ssName w.state).1
          = Except.ok pdb) →
        ∀ c ∈ newCalls w (ensureRedisStatefulset d r cluster ssName svcName labels w).2,
          c.isWrite = false) := by
  obtain ⟨delta, htrace, hnosts, -, hwrites, hfound⟩ :=
    ensureRedisPDB_calls d r cluster ssName labels w
  rw [hpdb] at hwrites
  rw [ensureRedisStatefulset_of_fresh d r cluster ssName svcName labels w ss hpdb hget hfresh]
  rw [newCalls_of_append w _ _ (by rw [htrace, List.append_assoc])]
  refine ⟨rfl, ?_, ?_, ?_⟩
  · intro c hc
    rcases List.mem_append.mp hc with hc | hc
    · cases hw : c.isStatefulSetWrite with
      | false => rfl
      | true =>
        have := hnosts c hc
        rw [isStatefulSetCall_of_write c hw] at this
        cases this
    · simp at hc
      subst hc
      rfl
  · intro c hc hw
    rcases List.mem_append.mp hc with hc | hc
    · exact hwrites c hc hw
    · simp at hc
      subst hc
      simp [Call.isWrite, Call.isCreate, Call.isUpdate] at hw
  · intro hpdbFound c hc
    rcases List.mem_append.mp hc with hc | hc
    · exact hfound hpdbFound c hc
    · simp at hc
      subst hc
      rfl

/-- C6. In the calls of one `ensureRedisStatefulset`, every create or update of the
workload group comes after a call that confirms the shard's disruption budget (a get of
that name that succeeded, or a create of the built budget that succeeded); and when the
budget ensure fails there is no get, create or update of a workload group at all. -/
theorem ensureRedisStatefulset_budget_first (d : Collaborators)
    (r : realEnsureResource σ) (cluster : DistributedRedisCluster)
    (ssName svcName : String) (labels : Labels) (w : World σ) :
    (∀ pre c post,
      newCalls w (ensureRedisStatefulset d r cluster ssName svcName labels w).2
          = pre ++ c :: post →
        c.isStatefulSetWrite = true →
          ∃ p ∈ pre, budgetConfirmed d cluster ssName labels p) ∧
      ((ensureRedisPDB d r cluster ssName labels w).1 ≠ none →
        ∀ c ∈ newCalls w (ensureRedisStatefulset d r cluster ssName svcName labels w).2,
          c.isStatefulSetCall = false) := by
  obtain ⟨delta1, htrace1, hnosts, hconf, -, -⟩ :=
    ensureRedisPDB_calls d r cluster ssName labels w
  obtain ⟨delta2, htrace2, hfail⟩ :=
    ensureRedisStatefulset_calls d r cluster ssName svcName labels w
  have hnew : newCalls w (ensureRedisStatefulset d r cluster ssName svcName labels w).2
      = delta1 ++ delta2 :=
    newCalls_of_append w _ _ (by rw [htrace2, htrace1, List.append_assoc])
  rw [hnew]
  constructor
  · intro pre c post hsplit hw
    have hcall := isStatefulSetCall_of_write c hw
    have hpdbNone : (ensureRedisPDB d r cluster ssName labels w).1 = none := by
      by_contra hne
      rw [hfail hne, List.append_nil] at hsplit
      have hmem : c ∈ delta1 := by
        rw [hsplit]
        simp
      rw [hnosts c hmem] at hcall
      cases hcall
    obtain ⟨p, hp, hpc⟩ := hconf hpdbNone
    refine ⟨p, ?_, hpc⟩
    rcases List.append_eq_append_iff.mp hsplit with ⟨a, hpre, -⟩ | ⟨a, hd1, hrest⟩
    · rw [hpre]
      exact List.mem_append_left _ hp
    · cases a with
      | nil =>
        rw [List.append_nil] at hd1
        rw [← hd1]
        exact hp
      | cons x xs =>
        simp only [List.cons_append, List.cons.injEq] at hrest
        have hmem : c ∈ delta1 := by
          rw [hd1, hrest.1]
          simp
        rw [hnosts c hmem] at hcall
        cases hcall
  · intro hne c hc
    rw [hfail hne, List.append_nil] at hc
    exact hnosts c hc

/-- C7. Both create-if-absent ensurers that take a name: when the fetch succeeds the only
call is the get and the result is no error; when the fetch fails with a not-found error
the calls are the get and one create of the object built from the cluster, the name and
the labels, and the result is that create's result; when the fetch fails with any other
error the only call is the get and that error is returned. -/
theorem ensure_create_if_absent (d : Collaborators) (r : realEnsureResource σ)
    (cluster : DistributedRedisCluster) (name : String) (labels : Labels) (w : World σ) :
    ((∀ pdb, (r.pdbClient.GetPodDisruptionBudget cluster.Namespace name w.state).1
          = Except.ok pdb →
        (ensureRedisPDB d r cluster name labels w).1 = none ∧
          newCalls w (ensureRedisPDB d r cluster name labels w).2
            = [Call.GetPodDisruptionBudget cluster.Namespace name (Except.ok pdb)]) ∧
      (∀ err, (r.pdbClient.GetPodDisruptionBudget cluster.Namespace name w.state).1
          = Except.error err → IsNotFound err = true →
        (ensureRedisPDB d r cluster name labels w).1
            = (r.pdbClient.CreatePodDisruptionBudget
                (d.NewPodDisruptionBudgetForCR cluster name labels)
                (r.pdbClient.GetPodDisruptionBudget cluster.Namespace name w.state).2).1 ∧
          newCalls w (ensureRedisPDB d r cluster name labels w).2
            = [Call.GetPodDisruptionBudget cluster.Namespace name (Except.error err),
                Call.CreatePodDisruptionBudget
                  (d.NewPodDisruptionBudgetForCR cluster name labels)
                  (ensureRedisPDB d r cluster name labels w).1]) ∧
      (∀ err, (r.pdbClient.GetPodDisruptionBudget cluster.Namespace name w.state).1
          = Except.error err → IsNotFound err = false →
        (ensureRedisPDB d r cluster name labels w).1 = some err ∧
          newCalls w (ensureRedisPDB d r cluster name labels w).2
            = [Call.GetPodDisruptionBudget cluster.Namespace name (Except.error err)])) ∧
    ((∀ svc, (r.svcClient.GetService cluster.Namespace name w.state).1 = Except.ok svc →
        (ensureRedisHeadLessSvc d r cluster name labels w).1 = none ∧
          newCalls w (ensureRedisHeadLessSvc d r cluster name labels w).2
            = [Call.GetService cluster.Namespace name (Except.ok svc)]) ∧
      (∀ err, (r.svcClient.GetService cluster.Namespace name w.state).1
          = Except.error err → IsNotFound err = true →
        (ensureRedisHeadLessSvc d r cluster name labels w).1
            = (r.svcClient.CreateService (d.NewHeadLessSvcForCR cluster name labels)
                (r.svcClient.GetService cluster.Namespace name w.state).2).1 ∧
          newCalls w (ensureRedisHeadLessSvc d r cluster name labels w).2
            = [Call.GetService cluster.Namespace name (Except.error err),
                Call.CreateService (d.NewHeadLessSvcForCR cluster name labels)
                  (ensureRedisHeadLessSvc d r cluster name labels w).1]) ∧
      (∀ err, (r.svcClient.GetService cluster.Namespace name w.state).1
          = Except.error err → IsNotFound err = false →
        (ensureRedisHeadLessSvc d r cluster name labels w).1 = some err ∧
          newCalls w (ensureRedisHeadLessSvc d r cluster name labels w).2
            = [Call.GetService cluster.Namespace name (Except.error err)])) := by
  refine ⟨⟨?_, ?_, ?_⟩, ⟨?_, ?_, ?_⟩⟩
  · intro pdb h
    rw [ensureRedisPDB_found d r cluster name labels w pdb h]
    exact ⟨rfl, newCalls_of_append _ _ _ rfl⟩
  · intro err h hnf
    rw [ensureRedisPDB_absent d r cluster name labels w err h hnf]
    exact ⟨rfl, newCalls_of_append _ _ _ rfl⟩
  · intro err h hnf
    rw [ensureRedisPDB_failed d r cluster name labels w err h hnf]
    exact ⟨rfl, newCalls_of_append _ _ _ rfl⟩
  · intro svc h
    rw [ensureRedisHeadLessSvc_found d r cluster name labels w svc h]
    exact ⟨rfl, newCalls_of_append _ _ _ rfl⟩
  · intro err h hnf
    rw [ensureRedisHeadLessSvc_absent d r cluster name labels w err h hnf]
    exact ⟨rfl, newCalls_of_append _ _ _ rfl⟩
  · intro err h hnf
    rw [ensureRedisHeadLessSvc_failed d r cluster name labels w err h hnf]
    exact ⟨rfl, newCalls_of_append _ _ _ rfl⟩

end AbstractClaims

/-! ## The claims at concrete inputs -/

/-- C2 at cluster `x` over a store that holds the workload group `drc-x-0` with three
replicas (the cluster asks for two) and no disruption budget. -/
theorem ensureRedisStatefulset_replicas_differ_witness :
    (∃ err, (ensureRedisStatefulset exampleCollaborators (storeClient storeSecretClient)
        exampleCluster "drc-x-0" "x-0" noLabels (freshWorld (storeWith (exampleSts 3)))).1
        = Res.ret (true, err)) ∧
      (∃ res,
        (newCalls (freshWorld (storeWith (exampleSts 3)))
            (ensureRedisStatefulset exampleCollaborators (storeClient storeSecretClient)
              exampleCluster "drc-x-0" "x-0" noLabels
              (freshWorld (storeWith (exampleSts 3)))).2).filter Call.isStatefulSetWrite
          = [Call.UpdateStatefulSet
              ⟨"default", "drc-x-0", noLabels,
                ⟨some 2, ⟨⟨[⟨"redis:5.0.4", [], noResources⟩]⟩⟩⟩⟩ res]) :=
  ensureRedisStatefulset_replicas_differ exampleCollaborators
    (storeClient storeSecretClient) exampleCluster "drc-x-0" "x-0" noLabels
    (freshWorld (storeWith (exampleSts 3))) (exampleSts 3) _ 3 rfl rfl rfl (by decide) rfl

/-- C3 fails as stated: over a store that holds the fully matching workload group
`drc-x-0` and no disruption budget, the workload group is observed and is not stale, yet
`ensureRedisStatefulset` issues a write call, the create of the budget. -/
theorem ensureRedisStatefulset_fresh_still_writes :
    shouldUpdateRedis exampleCollaborators exampleCluster (exampleSts 2) = Res.ret false ∧
      (ensureRedisStatefulset exampleCollaborators (storeClient storeSecretClient)
        exampleCluster "drc-x-0" "x-0" noLabels (freshWorld (storeWith (exampleSts 2)))).1
        = Res.ret (false, none) ∧
      (newCalls (freshWorld (storeWith (exampleSts 2)))
          (ensureRedisStatefulset exampleCollaborators (storeClient storeSecretClient)
            exampleCluster "drc-x-0" "x-0" noLabels
            (freshWorld (storeWith (exampleSts 2)))).2).filter Call.isWrite
        = [Call.CreatePodDisruptionBudget ⟨"default", "drc-x-0", noLabels⟩ none] :=
  ⟨rfl, rfl, rfl⟩

/-- C3 as amended, at the same input. -/
theorem ensureRedisStatefulset_fresh_witness :
    (ensureRedisStatefulset exampleCollaborators (storeClient storeSecretClient)
        exampleCluster "drc-x-0" "x-0" noLabels (freshWorld (storeWith (exampleSts 2)))).1
        = Res.ret (false, none) ∧
      (∀ c ∈ newCalls (freshWorld (storeWith (exampleSts 2)))
          (ensureRedisStatefulset exampleCollaborators (storeClient storeSecretClient)
            exampleCluster "drc-x-0" "x-0" noLabels
            (freshWorld (storeWith (exampleSts 2)))).2,
        c.isStatefulSetWrite = false) ∧
      (∀ c ∈ newCalls (freshWorld (storeWith (exampleSts 2)))
          (ensureRedisStatefulset exampleCollaborators (storeClient storeSecretClient)
            exampleCluster "drc-x-0" "x-0" noLabels
            (freshWorld (storeWith (exampleSts 2)))).2,
        c.isWrite = true →
          c = Call.CreatePodDisruptionBudget
            (exampleCollaborators.NewPodDisruptionBudgetForCR exampleCluster "drc-x-0"
              noLabels) none) ∧
      ((∃ pdb, ((storeClient storeSecretClient).pdbClient.GetPodDisruptionBudget
          exampleCluster.Namespace "drc-x-0"
          (freshWorld (storeWith (exampleSts 2))).state).1 = Except.ok pdb) →
        ∀ c ∈ newCalls (freshWorld (storeWith (exampleSts 2)))
          (ensureRedisStatefulset exampleCollaborators (storeClient storeSecretClient)
            exampleCluster "drc-x-0" "x-0" noLabels
            (freshWorld (storeWith (exampleSts 2)))).2,
          c.isWrite = false) :=
  ensureRedisStatefulset_fresh exampleCollaborators (storeClient storeSecretClient)
    exampleCluster "drc-x-0" "x-0" noLabels (freshWorld (storeWith (exampleSts 2)))
    (exampleSts 2) rfl rfl rfl

/-! ## Decimal rendering of shard indices -/

/-- A decimal digit character stands for its digit. -/
theorem digitChar_toNat (m : Nat) (h : m < 10) : (Nat.digitChar m).toNat - 48 = m := by
  interval_cases m <;> rfl

theorem foldl_toDigitsCore (fuel : Nat) : ∀ (n : Nat) (ds : List Char), n < fuel →
    List.foldl (fun a c => 10 * a + (c.toNat - 48)) 0 (Nat.toDigitsCore 10 fuel n ds)
      = List.foldl (fun a c => 10 * a + (c.toNat - 48)) n ds := by
  induction fuel with
  | zero => intro n ds h; omega
  | succ fuel ih =>
    intro n ds h
    unfold Nat.toDigitsCore
    by_cases h0 : n / 10 = 0
    · simp only [h0, if_true, List.foldl_cons, Nat.mul_zero, Nat.zero_add]
      rw [digitChar_toNat _ (Nat.mod_lt _ (by decide))]
      congr 1
      omega
    · simp only [h0, if_false]
      rw [ih (n / 10) _ (by omega)]
      simp only [List.foldl_cons]
      rw [digitChar_toNat _ (Nat.mod_lt _ (by decide))]
      congr 1
      omega

theorem Nat_repr_injective (m n : Nat) (h : Nat.repr m = Nat.repr n) : m = n := by
  have hm := foldl_toDigitsCore (m + 1) m [] (Nat.lt_succ_self m)
  have hn := foldl_toDigitsCore (n + 1) n [] (Nat.lt_succ_self n)
  simp only [List.foldl_nil] at hm hn
  have hd : Nat.toDigits 10 m = Nat.toDigits 10 n := by
    have := congrArg String.data h
    simpa [Nat.repr, List.asString] using this
  unfold Nat.toDigits at hd
  rw [← hm, ← hn, hd]

theorem shard_component_injective (i j : Nat)
    (h : "shard-" ++ Itoa (Int.ofNat i) = "shard-" ++ Itoa (Int.ofNat j)) : i = j := by
  have h1 := congrArg String.data h
  simp only [String.data_append, List.append_cancel_left_eq] at h1
  apply Nat_repr_injective
  simp only [Itoa] at h1
  exact String.ext h1

/-! ## Shard labels and the shard loop -/

theorem shardLabels_component (d : Collaborators) (cluster : DistributedRedisCluster)
    (labels : Labels) (i : Nat) :
    shardLabels d cluster labels i "app.kubernetes.io/component"
      = some ("shard-" ++ Itoa (Int.ofNat i)) := by
  simp [shardLabels, Labels.set]

/-- The two assignments overwrite what an earlier iteration assigned. -/
theorem shardLabels_shardLabels (d : Collaborators) (cluster : DistributedRedisCluster)
    (labels : Labels) (i j : Nat) :
    shardLabels d cluster (shardLabels d cluster labels j) i
      = shardLabels d cluster labels i := by
  funext k
  simp only [shardLabels, Labels.set]
  split_ifs <;> rfl

/-- C10. For shard indices `i ≠ j`, the label mapping handed to the per-shard ensurers for
shard `i` differs from the one handed for shard `j`, whatever the mappings the two
iterations start from (the caller's mapping, or the one an earlier iteration left). -/
theorem shardLabels_ne (d : Collaborators) (cluster : DistributedRedisCluster)
    (labels labels1 : Labels) (i j : Nat) (hij : i ≠ j) :
    shardLabels d cluster labels i ≠ shardLabels d cluster labels1 j := by
  intro h
  have hc := congrFun h "app.kubernetes.io/component"
  rw [shardLabels_component, shardLabels_component] at hc
  exact hij (shard_component_injective i j (Option.some.inj hc))

/-- C10 at shards 2 and 3 of cluster `x`. -/
theorem shardLabels_ne_witness :
    shardLabels exampleCollaborators exampleCluster noLabels 2
      ≠ shardLabels exampleCollaborators exampleCluster noLabels 3 :=
  shardLabels_ne exampleCollaborators exampleCluster noLabels noLabels 2 3 (by decide)

section LoopLemmas

variable {σ : Type} (d : Collaborators) (r : realEnsureResource σ)

theorem EnsureRedisStatefulsetsLoop_spec (cluster : DistributedRedisCluster)
    (labels : Labels) (w : World σ) :
    ∀ (k i : Nat) (updated : Bool) (labels1 : Labels) (b : Bool),
      (∀ j, shardLabels d cluster labels1 j = shardLabels d cluster labels j) →
      (EnsureRedisStatefulsetsLoop d r cluster i k updated labels1
          (shardStart d r cluster labels w i)).1 = Res.ret (b, none) →
      (∀ j, i ≤ j → j < i + k →
          ∃ u, (shardRun d r cluster labels w j).1 = Res.ret (u, none)) ∧
        b = (updated || (List.range' i k).any
          (fun j => shardUpdated (shardRun d r cluster labels w j).1)) ∧
        (EnsureRedisStatefulsetsLoop d r cluster i k updated labels1
          (shardStart d r cluster labels w i)).2.2 = shardStart d r cluster labels w (i + k) := by
  intro k
  induction k with
  | zero =>
    intro i updated labels1 b _ h
    simp only [EnsureRedisStatefulsetsLoop, Res.ret.injEq, Prod.mk.injEq, and_true] at h
    refine ⟨fun j h1 h2 => by omega, ?_, rfl⟩
    simp [h]
  | succ k ih =>
    intro i updated labels1 b hL h
    have hrun : ensureRedisStatefulset d r cluster (d.ClusterStatefulSetName cluster.Name i)
        (d.ClusterHeadlessSvcName cluster.Spec.ServiceName i)
        (shardLabels d cluster labels1 i) (shardStart d r cluster labels w i)
        = shardRun d r cluster labels w i := by
      rw [hL i]
      rfl
    simp only [EnsureRedisStatefulsetsLoop, hrun] at h ⊢
    cases hres : (shardRun d r cluster labels w i).1 with
    | panic =>
      rw [hres] at h
      cases h
    | ret p =>
      obtain ⟨u, e⟩ := p
      cases e with
      | some err =>
        rw [hres] at h
        simp at h
      | none =>
        rw [hres] at h
        simp only [hres]
        have hstart : (shardRun d r cluster labels w i).2
            = shardStart d r cluster labels w (i + 1) := rfl
        rw [hstart] at h ⊢
        have hL1 : ∀ j, shardLabels d cluster (shardLabels d cluster labels1 i) j
            = shardLabels d cluster labels j := by
          intro j
          rw [shardLabels_shardLabels, hL j]
        obtain ⟨h1, h2, h3⟩ := ih (i + 1) (if u = true then u else updated)
          (shardLabels d cluster labels1 i) b hL1 h
        refine ⟨?_, ?_, ?_⟩
        · intro j hj1 hj2
          rcases Nat.eq_or_lt_of_le hj1 with hj | hj
          · subst hj
            exact ⟨u, hres⟩
          · exact h1 j hj (by omega)
        · rw [h2, List.range'_succ, List.any_cons, hres]
          cases u <;> cases updated <;> simp [shardUpdated]
        · rw [h3]
          congr 1
          omega

end LoopLemmas

section LoopClaims

variable {σ : Type}

/-- C8. When `EnsureRedisStatefulsets` returns without error, every shard index below
`MasterSize` was ensured without error, each once and in increasing order (the world it
ends in is the one reached by ensuring shards `0, 1, ...` in turn), and the boolean it
returns is the disjunction of the per-shard `updated` results. -/
theorem EnsureRedisStatefulsets_updated_is_or (d : Collaborators)
    (r : realEnsureResource σ) (cluster : DistributedRedisCluster) (labels : Labels)
    (w : World σ) (b : Bool)
    (h : (EnsureRedisStatefulsets d r cluster labels w).1 = Res.ret (b, none)) :
    (∀ i, i < Int.toNat cluster.Spec.MasterSize →
        ∃ u, (shardRun d r cluster labels w i).1 = Res.ret (u, none)) ∧
      b = (List.range (Int.toNat cluster.Spec.MasterSize)).any
        (fun i => shardUpdated (shardRun d r cluster labels w i).1) ∧
      (EnsureRedisStatefulsets d r cluster labels w).2.2
        = shardStart d r cluster labels w (Int.toNat cluster.Spec.MasterSize) := by
  obtain ⟨h1, h2, h3⟩ := EnsureRedisStatefulsetsLoop_spec d r cluster labels w
    (Int.toNat cluster.Spec.MasterSize) 0 false labels b (fun _ => rfl) h
  refine ⟨fun i hi => h1 i (Nat.zero_le i) (by omega), ?_, ?_⟩
  · rw [h2, List.range_eq_range']
    simp
  · have h0 : 0 + Int.toNat cluster.Spec.MasterSize = Int.toNat cluster.Spec.MasterSize :=
      Nat.zero_add _
    rw [h0] at h3
    exact h3

/-- C9. The mapping `EnsureRedisSvc` leaves in the caller's hands has neither the
`StatefulSetLabel` key nor the component key and agrees with the input mapping on every
other key; and every service it creates is the one `NewSvcForCR` builds from that
mapping. -/
theorem EnsureRedisSvc_labels (d : Collaborators) (r : realEnsureResource σ)
    (cluster : DistributedRedisCluster) (labels : Labels) (w : World σ) :
    (EnsureRedisSvc d r cluster labels w).2.1 d.StatefulSetLabel = none ∧
      (EnsureRedisSvc d r cluster labels w).2.1 "app.kubernetes.io/component" = none ∧
      (∀ k, k ≠ d.StatefulSetLabel → k ≠ "app.kubernetes.io/component" →
        (EnsureRedisSvc d r cluster labels w).2.1 k = labels k) ∧
      (∀ svc res, Call.CreateService svc res
          ∈ newCalls w (EnsureRedisSvc d r cluster labels w).2.2 →
        svc = d.NewSvcForCR cluster cluster.Spec.ServiceName
          (EnsureRedisSvc d r cluster labels w).2.1) := by
  have hlabels : (EnsureRedisSvc d r cluster labels w).2.1
      = (labels.delete d.StatefulSetLabel).delete "app.kubernetes.io/component" := by
    unfold EnsureRedisSvc
    simp only []
    split
    · split <;> rfl
    · rfl
  refine ⟨?_, ?_, ?_, ?_⟩
  · rw [hlabels]
    simp [Labels.delete]
  · rw [hlabels]
    simp [Labels.delete]
  · intro k h1 h2
    rw [hlabels]
    simp [Labels.delete, h1, h2]
  · intro svc res hmem
    rw [hlabels]
    cases hget : (r.svcClient.GetService cluster.Namespace cluster.Spec.ServiceName
        w.state).1 with
    | ok found =>
      rw [newCalls_of_append w _ [Call.GetService cluster.Namespace cluster.Spec.ServiceName
        (Except.ok found)] (by simp [EnsureRedisSvc, callGetService, hget])] at hmem
      simp at hmem
    | error err =>
      cases hnf : IsNotFound err with
      | false =>
        rw [newCalls_of_append w _ [Call.GetService cluster.Namespace
          cluster.Spec.ServiceName (Except.error err)]
          (by simp [EnsureRedisSvc, callGetService, hget, hnf])] at hmem
        simp at hmem
      | true =>
        rw [newCalls_of_append w _ [Call.GetService cluster.Namespace
          cluster.Spec.ServiceName (Except.error err),
          Call.CreateService (d.NewSvcForCR cluster cluster.Spec.ServiceName
            ((labels.delete d.StatefulSetLabel).delete "app.kubernetes.io/component"))
            (r.svcClient.CreateService (d.NewSvcForCR cluster cluster.Spec.ServiceName
              ((labels.delete d.StatefulSetLabel).delete "app.kubernetes.io/component"))
              (r.svcClient.GetService cluster.Namespace cluster.Spec.ServiceName
                w.state).2).1]
          (by simp [EnsureRedisSvc, callGetService, callCreateService, hget, hnf])] at hmem
        simp at hmem
        exact hmem.1

end LoopClaims

/-- C8 at cluster `x` (three shards) over the empty store: all three shards are created,
none is updated. -/
theorem EnsureRedisStatefulsets_updated_is_or_witness :
    (∀ i, i < Int.toNat exampleCluster.Spec.MasterSize →
        ∃ u, (shardRun exampleCollaborators (storeClient storeSecretClient) exampleCluster
          noLabels (freshWorld emptyStore) i).1 = Res.ret (u, none)) ∧
      false = (List.range (Int.toNat exampleCluster.Spec.MasterSize)).any
        (fun i => shardUpdated (shardRun exampleCollaborators
          (storeClient storeSecretClient) exampleCluster noLabels
          (freshWorld emptyStore) i).1) ∧
      (EnsureRedisStatefulsets exampleCollaborators (storeClient storeSecretClient)
          exampleCluster noLabels (freshWorld emptyStore)).2.2
        = shardStart exampleCollaborators (storeClient storeSecretClient) exampleCluster
          noLabels (freshWorld emptyStore) (Int.toNat exampleCluster.Spec.MasterSize) :=
  EnsureRedisStatefulsets_updated_is_or exampleCollaborators
    (storeClient storeSecretClient) exampleCluster noLabels (freshWorld emptyStore) false rfl

/-! ## The object store -/

theorem isNotFound_fault (msg : String) : IsNotFound ⟨"InternalError", msg⟩ = false := by
  simp [IsNotFound]

theorem isNotFound_notFound (msg : String) : IsNotFound ⟨"NotFound", msg⟩ = true := by
  simp [IsNotFound]

theorem nextFault_not_notFound (s : Store) (err : Error) (h : s.nextFault = some err) :
    IsNotFound err = false := by
  unfold Store.nextFault at h
  split at h
  · cases h
    exact isNotFound_fault _
  · cases h

theorem nextFault_of_no_faults (s : Store) (h : s.faults = []) : s.nextFault = none := by
  simp [Store.nextFault, h]

/-- What a get of the store returns. -/
theorem storeGet_spec {α : Type} (found : Option α) (name : String) (s : Store) :
    (storeGet found name s).2 = s.step ∧
      (∀ o, (storeGet found name s).1 = Except.ok o → found = some o) ∧
      (∀ err, (storeGet found name s).1 = Except.error err →
        IsNotFound err = true → found = none) ∧
      (∀ o, found = some o → ∀ err, (storeGet found name s).1 = Except.error err →
        IsNotFound err = false) ∧
      (s.nextFault = none → ∀ o, found = some o → (storeGet found name s).1 = Except.ok o) ∧
      (s.nextFault = none → found = none →
        (storeGet found name s).1 = Except.error ⟨"NotFound", name⟩) := by
  unfold storeGet
  cases hf : s.nextFault with
  | some e =>
    have hnf := nextFault_not_notFound s e hf
    refine ⟨rfl, ?_, ?_, ?_, ?_, ?_⟩
    · intro o h; cases h
    · intro err h hn
      simp only [Except.error.injEq] at h
      subst h
      rw [hnf] at hn
      cases hn
    · intro o _ err h
      simp only [Except.error.injEq] at h
      subst h
      exact hnf
    · intro h; cases h
    · intro h; cases h
  | none =>
    cases found with
    | some o =>
      refine ⟨rfl, ?_, ?_, ?_, ?_, ?_⟩
      · intro o1 h
        simp only [Except.ok.injEq] at h
        rw [h]
      · intro err h; cases h
      · intro o1 _ err h; cases h
      · intro _ o1 h
        simp only [Option.some.injEq] at h
        rw [h]
      · intro _ h; cases h
    | none =>
      refine ⟨rfl, ?_, ?_, ?_, ?_, ?_⟩
      · intro o h; cases h
      · intro err _ _; rfl
      · intro o h; cases h
      · intro _ o h; cases h
      · intro _ _; rfl

/-- What a create of the store does. -/
theorem storeCreate_spec (present : Bool) (name : String) (stored : Objects) (s : Store) :
    ((storeCreate present name stored s).1 = none →
        (storeCreate present name stored s).2.objects = stored) ∧
      ((storeCreate present name stored s).1 ≠ none →
        (storeCreate present name stored s).2.objects = s.objects) ∧
      (storeCreate present name stored s).2.faults = s.faults.tail ∧
      (s.nextFault = none → present = false → (storeCreate present name stored s).1 = none) := by
  unfold storeCreate
  cases hf : s.nextFault with
  | some e => simp [Store.step]
  | none => cases present <;> simp [Store.step]

/-- What an update of the store does. -/
theorem storeUpdate_spec (present : Bool) (name : String) (stored : Objects) (s : Store) :
    ((storeUpdate present name stored s).1 = none →
        (storeUpdate present name stored s).2.objects = stored) ∧
      ((storeUpdate present name stored s).1 ≠ none →
        (storeUpdate present name stored s).2.objects = s.objects) ∧
      (storeUpdate present name stored s).2.faults = s.faults.tail := by
  unfold storeUpdate
  cases hf : s.nextFault with
  | some e => simp [Store.step]
  | none => cases present <;> simp [Store.step]

section StoreCreates

variable (d : Collaborators) (sc : SecretClient Store)

/-- Over a store without injected failures that holds neither the budget nor the
workload group of a shard, `ensureRedisStatefulset` creates both. -/
theorem store_ensureRedisStatefulset_absent (cluster : DistributedRedisCluster)
    (ssName svcName : String) (labels : Labels) (w : World Store) (newSS : StatefulSet)
    (hfaults : w.state.faults = [])
    (hpdb : w.state.objects.pdbs cluster.Namespace ssName = none)
    (hsts : w.state.objects.statefulSets cluster.Namespace ssName = none)
    (hpdbKey : (d.NewPodDisruptionBudgetForCR cluster ssName labels).Namespace
        = cluster.Namespace ∧
      (d.NewPodDisruptionBudgetForCR cluster ssName labels).Name = ssName)
    (hbuild : d.NewStatefulSetForCR cluster ssName svcName labels = Except.ok newSS)
    (hkey : newSS.Namespace = cluster.Namespace ∧ newSS.Name = ssName) :
    ensureRedisStatefulset d (storeClient sc) cluster ssName svcName labels w =
      (Res.ret (false, none),
        ⟨⟨(w.state.objects.putPdb (d.NewPodDisruptionBudgetForCR cluster ssName
            labels)).putStatefulSet newSS, []⟩,
          w.trace ++
            [Call.GetPodDisruptionBudget cluster.Namespace ssName
                (Except.error ⟨"NotFound", ssName⟩),
              Call.CreatePodDisruptionBudget
                (d.NewPodDisruptionBudgetForCR cluster ssName labels) none,
              Call.GetStatefulSet cluster.Namespace ssName
                (Except.error ⟨"NotFound", ssName⟩),
              Call.CreateStatefulSet newSS none]⟩) := by
  have hnf : IsNotFound ⟨"NotFound", ssName⟩ = true := isNotFound_notFound ssName
  simp [ensureRedisStatefulset, ensureRedisPDB, callGetPodDisruptionBudget,
    callCreatePodDisruptionBudget, callGetStatefulSet, callCreateStatefulSet, storeClient,
    storeGet, storeCreate, Store.nextFault, Store.step, hfaults, hpdb, hsts, hpdbKey.1,
    hpdbKey.2, hkey.1, hkey.2, hbuild, hnf, Objects.putPdb]

end StoreCreates

section StoreLoop

variable (d : Collaborators) (sc : SecretClient Store)

theorem store_loop_creates (cluster : DistributedRedisCluster) (labels : Labels)
    (built : Nat → StatefulSet) (n : Nat)
    (hinj : ∀ i j, i < n → j < n →
      d.ClusterStatefulSetName cluster.Name i = d.ClusterStatefulSetName cluster.Name j →
        i = j)
    (hpdbKey : ∀ name labels1,
      (d.NewPodDisruptionBudgetForCR cluster name labels1).Namespace = cluster.Namespace ∧
        (d.NewPodDisruptionBudgetForCR cluster name labels1).Name = name)
    (hbuild : ∀ i, i < n →
      d.NewStatefulSetForCR cluster (d.ClusterStatefulSetName cluster.Name i)
        (d.ClusterHeadlessSvcName cluster.Spec.ServiceName i)
        (shardLabels d cluster labels i) = Except.ok (built i))
    (hkey : ∀ i, i < n → (built i).Namespace = cluster.Namespace ∧
      (built i).Name = d.ClusterStatefulSetName cluster.Name i) :
    ∀ (k i : Nat) (updated : Bool) (labels1 : Labels) (w : World Store),
      i + k = n →
      (∀ j, shardLabels d cluster labels1 j = shardLabels d cluster labels j) →
      w.state.faults = [] →
      (∀ j, i ≤ j → j < n →
        w.state.objects.pdbs cluster.Namespace (d.ClusterStatefulSetName cluster.Name j)
            = none ∧
          w.state.objects.statefulSets cluster.Namespace
            (d.ClusterStatefulSetName cluster.Name j) = none) →
      (EnsureRedisStatefulsetsLoop d (storeClient sc) cluster i k updated labels1 w).1
          = Res.ret (updated, none) ∧
        ∃ delta,
          (EnsureRedisStatefulsetsLoop d (storeClient sc) cluster i k updated labels1
            w).2.2.trace = w.trace ++ delta ∧
          delta.filter Call.isStatefulSetWrite
            = (List.range' i k).map (fun j => Call.CreateStatefulSet (built j) none) := by
  intro k
  induction k with
  | zero =>
    intro i updated labels1 w _ _ _ _
    exact ⟨rfl, [], by simp [EnsureRedisStatefulsetsLoop], rfl⟩
  | succ k ih =>
    intro i updated labels1 w hik hL hfaults habsent
    have hi : i < n := by omega
    have hb := hbuild i hi
    rw [← hL i] at hb
    have hstep := store_ensureRedisStatefulset_absent d sc cluster
      (d.ClusterStatefulSetName cluster.Name i)
      (d.ClusterHeadlessSvcName cluster.Spec.ServiceName i)
      (shardLabels d cluster labels1 i) w (built i) hfaults
      (habsent i (Nat.le_refl i) hi).1 (habsent i (Nat.le_refl i) hi).2
      (hpdbKey _ _) hb (hkey i hi)
    have hL1 : ∀ j, shardLabels d cluster (shardLabels d cluster labels1 i) j
        = shardLabels d cluster labels j := by
      intro j
      rw [shardLabels_shardLabels, hL j]
    have hout1 := congrArg Prod.fst hstep
    have hout2 := congrArg Prod.snd hstep
    simp only [] at hout1 hout2
    have habsent1 : ∀ j, i + 1 ≤ j → j < n →
        (ensureRedisStatefulset d (storeClient sc) cluster
            (d.ClusterStatefulSetName cluster.Name i)
            (d.ClusterHeadlessSvcName cluster.Spec.ServiceName i)
            (shardLabels d cluster labels1 i) w).2.state.objects.pdbs
            cluster.Namespace (d.ClusterStatefulSetName cluster.Name j) = none ∧
          (ensureRedisStatefulset d (storeClient sc) cluster
            (d.ClusterStatefulSetName cluster.Name i)
            (d.ClusterHeadlessSvcName cluster.Spec.ServiceName i)
            (shardLabels d cluster labels1 i) w).2.state.objects.statefulSets
            cluster.Namespace (d.ClusterStatefulSetName cluster.Name j) = none := by
      intro j hj1 hj2
      have hne : d.ClusterStatefulSetName cluster.Name j
          ≠ d.ClusterStatefulSetName cluster.Name i := by
        intro heq
        have := hinj j i hj2 hi heq
        omega
      have hold := habsent j (by omega) hj2
      rw [hout2]
      simp [Objects.putPdb, Objects.putStatefulSet, (hpdbKey _ _).2, (hkey i hi).2, hne,
        hold.1, hold.2]
    obtain ⟨h1, delta, h2, h3⟩ := ih (i + 1) updated
      (shardLabels d cluster labels1 i)
      (ensureRedisStatefulset d (storeClient sc) cluster
        (d.ClusterStatefulSetName cluster.Name i)
        (d.ClusterHeadlessSvcName cluster.Spec.ServiceName i)
        (shardLabels d cluster labels1 i) w).2 (by omega) hL1 (by rw [hout2]) habsent1
    simp only [EnsureRedisStatefulsetsLoop, hout1, Bool.false_eq_true, if_false]
    obtain ⟨calls, hcalls, hfilter⟩ : ∃ l,
        (ensureRedisStatefulset d (storeClient sc) cluster
          (d.ClusterStatefulSetName cluster.Name i)
          (d.ClusterHeadlessSvcName cluster.Spec.ServiceName i)
          (shardLabels d cluster labels1 i) w).2.trace = w.trace ++ l ∧
        l.filter Call.isStatefulSetWrite = [Call.CreateStatefulSet (built i) none] := by
      rw [hout2]
      exact ⟨_, rfl, by simp [Call.isStatefulSetWrite]⟩
    refine ⟨h1, calls ++ delta, ?_, ?_⟩
    · rw [h2, hcalls, List.append_assoc]
    · rw [List.filter_append, hfilter, h3, List.range'_succ, List.map_cons]
      rfl

end StoreLoop

/-- C5. Over a store without injected failures that holds neither a budget nor a workload
group under any of the cluster's shard names, with distinct shard names, builders that
name their objects as asked and every workload-group build succeeding,
`EnsureRedisStatefulsets` returns `(false, nil)` and its workload-group writes are exactly
one `CreateStatefulSet` per shard index below `MasterSize`, in increasing order, each
carrying the object built for that index (so no `UpdateStatefulSet`). -/
theorem EnsureRedisStatefulsets_creates_all (d : Collaborators) (sc : SecretClient Store)
    (cluster : DistributedRedisCluster) (labels : Labels) (w : World Store)
    (built : Nat → StatefulSet)
    (hfaults : w.state.faults = [])
    (habsent : ∀ i, i < Int.toNat cluster.Spec.MasterSize →
      w.state.objects.pdbs cluster.Namespace (d.ClusterStatefulSetName cluster.Name i)
          = none ∧
        w.state.objects.statefulSets cluster.Namespace
          (d.ClusterStatefulSetName cluster.Name i) = none)
    (hinj : ∀ i j, i < Int.toNat cluster.Spec.MasterSize →
      j < Int.toNat cluster.Spec.MasterSize →
      d.ClusterStatefulSetName cluster.Name i = d.ClusterStatefulSetName cluster.Name j →
        i = j)
    (hpdbKey : ∀ name labels1,
      (d.NewPodDisruptionBudgetForCR cluster name labels1).Namespace = cluster.Namespace ∧
        (d.NewPodDisruptionBudgetForCR cluster name labels1).Name = name)
    (hbuild : ∀ i, i < Int.toNat cluster.Spec.MasterSize →
      d.NewStatefulSetForCR cluster (d.ClusterStatefulSetName cluster.Name i)
        (d.ClusterHeadlessSvcName cluster.Spec.ServiceName i)
        (shardLabels d cluster labels i) = Except.ok (built i))
    (hkey : ∀ i, i < Int.toNat cluster.Spec.MasterSize →
      (built i).Namespace = cluster.Namespace ∧
        (built i).Name = d.ClusterStatefulSetName cluster.Name i) :
    (EnsureRedisStatefulsets d (storeClient sc) cluster labels w).1 = Res.ret (false, none) ∧
      (newCalls w (EnsureRedisStatefulsets d (storeClient sc) cluster labels w).2.2).filter
          Call.isStatefulSetWrite
        = (List.range (Int.toNat cluster.Spec.MasterSize)).map
            (fun i => Call.CreateStatefulSet (built i) none) := by
  obtain ⟨h1, delta, h2, h3⟩ := store_loop_creates d sc cluster labels built
    (Int.toNat cluster.Spec.MasterSize) hinj hpdbKey hbuild hkey
    (Int.toNat cluster.Spec.MasterSize) 0 false labels w (Nat.zero_add _) (fun _ => rfl)
    hfaults (fun j _ hj => habsent j hj)
  refine ⟨h1, ?_⟩
  unfold EnsureRedisStatefulsets
  rw [newCalls_of_append w _ delta h2, h3, List.range_eq_range']

/-- C5 at cluster `x` (`MasterSize = 3`, `ClusterReplicas = 1`) over the empty store:
three creates, for `drc-x-0`, `drc-x-1`, `drc-x-2`, each with two replicas, and
`updated = false`. -/
theorem EnsureRedisStatefulsets_creates_all_witness :
    (EnsureRedisStatefulsets exampleCollaborators (storeClient storeSecretClient)
        exampleCluster noLabels (freshWorld emptyStore)).1 = Res.ret (false, none) ∧
      (newCalls (freshWorld emptyStore)
          (EnsureRedisStatefulsets exampleCollaborators (storeClient storeSecretClient)
            exampleCluster noLabels (freshWorld emptyStore)).2.2).filter
          Call.isStatefulSetWrite
        = (List.range 3).map (fun i => Call.CreateStatefulSet
            ⟨"default", "drc-x-" ++ Itoa (Int.ofNat i),
              shardLabels exampleCollaborators exampleCluster noLabels i,
              ⟨some 2, ⟨⟨[⟨"redis:5.0.4", [], noResources⟩]⟩⟩⟩⟩ none) :=
  EnsureRedisStatefulsets_creates_all exampleCollaborators storeSecretClient exampleCluster
    noLabels (freshWorld emptyStore)
    (fun i => ⟨"default", "drc-x-" ++ Itoa (Int.ofNat i),
      shardLabels exampleCollaborators exampleCluster noLabels i,
      ⟨some 2, ⟨⟨[⟨"redis:5.0.4", [], noResources⟩]⟩⟩⟩⟩)
    rfl (fun _ _ => ⟨rfl, rfl⟩)
    (fun i j _ _ h => shard_component_injective i j (by
      have h1 := congrArg String.data h
      simp only [exampleCollaborators, String.data_append, List.append_cancel_left_eq] at h1
      exact congrArg (fun t => "shard-" ++ t) (String.ext h1)))
    (fun _ _ => ⟨rfl, rfl⟩) (fun _ _ => rfl) (fun _ _ => ⟨rfl, rfl⟩)

section StatefulsetLemmas2

variable {σ : Type} (d : Collaborators) (r : realEnsureResource σ)

/-- The branches of `ensureRedisStatefulset` that end after the get of the workload
group: a panic of the staleness check, a failed build, a failed get. -/
theorem ensureRedisStatefulset_of_panic (cluster : DistributedRedisCluster)
    (ssName svcName : String) (labels : Labels) (w : World σ) (ss : StatefulSet)
    (hpdb : (ensureRedisPDB d r cluster ssName labels w).1 = none)
    (hget : (r.statefulSetClient.GetStatefulSet cluster.Namespace ssName
      (ensureRedisPDB d r cluster ssName labels w).2.state).1 = Except.ok ss)
    (hpanic : shouldUpdateRedis d cluster ss = Res.panic) :
    ensureRedisStatefulset d r cluster ssName svcName labels w =
      (Res.panic,
        ⟨(r.statefulSetClient.GetStatefulSet cluster.Namespace ssName
            (ensureRedisPDB d r cluster ssName labels w).2.state).2,
          (ensureRedisPDB d r cluster ssName labels w).2.trace ++
            [Call.GetStatefulSet cluster.Namespace ssName (Except.ok ss)]⟩) := by
  simp [ensureRedisStatefulset, callGetStatefulSet, hpdb, hget, hpanic]

theorem ensureRedisStatefulset_of_stale_build_error (cluster : DistributedRedisCluster)
    (ssName svcName : String) (labels : Labels) (w : World σ) (ss : StatefulSet)
    (err : Error)
    (hpdb : (ensureRedisPDB d r cluster ssName labels w).1 = none)
    (hget : (r.statefulSetClient.GetStatefulSet cluster.Namespace ssName
      (ensureRedisPDB d r cluster ssName labels w).2.state).1 = Except.ok ss)
    (hstale : shouldUpdateRedis d cluster ss = Res.ret true)
    (hbuild : d.NewStatefulSetForCR cluster ssName svcName labels = Except.error err) :
    ensureRedisStatefulset d r cluster ssName svcName labels w =
      (Res.ret (false, some err),
        ⟨(r.statefulSetClient.GetStatefulSet cluster.Namespace ssName
            (ensureRedisPDB d r cluster ssName labels w).2.state).2,
          (ensureRedisPDB d r cluster ssName labels w).2.trace ++
            [Call.GetStatefulSet cluster.Namespace ssName (Except.ok ss)]⟩) := by
  simp [ensureRedisStatefulset, callGetStatefulSet, hpdb, hget, hstale, hbuild]

theorem ensureRedisStatefulset_of_get_failed (cluster : DistributedRedisCluster)
    (ssName svcName : String) (labels : Labels) (w : World σ) (err : Error)
    (hpdb : (ensureRedisPDB d r cluster ssName labels w).1 = none)
    (hget : (r.statefulSetClient.GetStatefulSet cluster.Namespace ssName
      (ensureRedisPDB d r cluster ssName labels w).2.state).1 = Except.error err)
    (hnf : IsNotFound err = false) :
    ensureRedisStatefulset d r cluster ssName svcName labels w =
      (Res.ret (false, some err),
        ⟨(r.statefulSetClient.GetStatefulSet cluster.Namespace ssName
            (ensureRedisPDB d r cluster ssName labels w).2.state).2,
          (ensureRedisPDB d r cluster ssName labels w).2.trace ++
            [Call.GetStatefulSet cluster.Namespace ssName (Except.error err)]⟩) := by
  simp [ensureRedisStatefulset, callGetStatefulSet, hpdb, hget, hnf]

theorem ensureRedisStatefulset_of_absent_build_error (cluster : DistributedRedisCluster)
    (ssName svcName : String) (labels : Labels) (w : World σ) (err berr : Error)
    (hpdb : (ensureRedisPDB d r cluster ssName labels w).1 = none)
    (hget : (r.statefulSetClient.GetStatefulSet cluster.Namespace ssName
      (ensureRedisPDB d r cluster ssName labels w).2.state).1 = Except.error err)
    (hnf : IsNotFound err = true)
    (hbuild : d.NewStatefulSetForCR cluster ssName svcName labels = Except.error berr) :
    ensureRedisStatefulset d r cluster ssName svcName labels w =
      (Res.ret (false, some berr),
        ⟨(r.statefulSetClient.GetStatefulSet cluster.Namespace ssName
            (ensureRedisPDB d r cluster ssName labels w).2.state).2,
          (ensureRedisPDB d r cluster ssName labels w).2.trace ++
            [Call.GetStatefulSet cluster.Namespace ssName (Except.error err)]⟩) := by
  simp [ensureRedisStatefulset, callGetStatefulSet, hpdb, hget, hnf, hbuild]

end StatefulsetLemmas2

/-! ## The ensurers over the object store -/

section StoreEnsure

variable (d : Collaborators) (sc : SecretClient Store)

theorem storeClient_getPdb (ns name : String) (s : Store) :
    (storeClient sc).pdbClient.GetPodDisruptionBudget ns name s
      = storeGet (s.objects.pdbs ns name) name s := rfl

theorem storeClient_createPdb (pdb : PodDisruptionBudget) (s : Store) :
    (storeClient sc).pdbClient.CreatePodDisruptionBudget pdb s
      = storeCreate (s.objects.pdbs pdb.Namespace pdb.Name).isSome pdb.Name
          (s.objects.putPdb pdb) s := rfl

theorem storeClient_getSts (ns name : String) (s : Store) :
    (storeClient sc).statefulSetClient.GetStatefulSet ns name s
      = storeGet (s.objects.statefulSets ns name) name s := rfl

theorem storeClient_createSts (ss : StatefulSet) (s : Store) :
    (storeClient sc).statefulSetClient.CreateStatefulSet ss s
      = storeCreate (s.objects.statefulSets ss.Namespace ss.Name).isSome ss.Name
          (s.objects.putStatefulSet ss) s := rfl

theorem storeClient_updateSts (ss : StatefulSet) (s : Store) :
    (storeClient sc).statefulSetClient.UpdateStatefulSet ss s
      = storeUpdate (s.objects.statefulSets ss.Namespace ss.Name).isSome ss.Name
          (s.objects.putStatefulSet ss) s := rfl

theorem storeClient_getSvc (ns name : String) (s : Store) :
    (storeClient sc).svcClient.GetService ns name s
      = storeGet (s.objects.services ns name) name s := rfl

theorem storeClient_createSvc (svc : Service) (s : Store) :
    (storeClient sc).svcClient.CreateService svc s
      = storeCreate (s.objects.services svc.Namespace svc.Name).isSome svc.Name
          (s.objects.putService svc) s := rfl

theorem storeClient_getCm (ns name : String) (s : Store) :
    (storeClient sc).configMapClient.GetConfigMap ns name s
      = storeGet (s.objects.configMaps ns name) name s := rfl

theorem storeClient_createCm (cm : ConfigMap) (s : Store) :
    (storeClient sc).configMapClient.CreateConfigMap cm s
      = storeCreate (s.objects.configMaps cm.Namespace cm.Name).isSome cm.Name
          (s.objects.putConfigMap cm) s := rfl

theorem storeClient_updateCm (cm : ConfigMap) (s : Store) :
    (storeClient sc).configMapClient.UpdateConfigMap cm s
      = storeUpdate (s.objects.configMaps cm.Namespace cm.Name).isSome cm.Name
          (s.objects.putConfigMap cm) s := rfl

/-- The outcomes of the budget ensure over the store: the budget is found; or the get
fails; or the budget is absent and created; or it is absent and the create fails. -/
theorem store_ensureRedisPDB_cases (cluster : DistributedRedisCluster) (name : String)
    (labels : Labels) (w : World Store) :
    ((∃ pdb, w.state.objects.pdbs cluster.Namespace name = some pdb) ∧
        (ensureRedisPDB d (storeClient sc) cluster name labels w).1 = none ∧
        (ensureRedisPDB d (storeClient sc) cluster name labels w).2.state.objects
          = w.state.objects ∧
        ∀ c ∈ newCalls w (ensureRedisPDB d (storeClient sc) cluster name labels w).2,
          c.isWrite = false) ∨
      ((ensureRedisPDB d (storeClient sc) cluster name labels w).1 ≠ none ∧
        (ensureRedisPDB d (storeClient sc) cluster name labels w).2.state.objects
          = w.state.objects ∧
        ∀ c ∈ newCalls w (ensureRedisPDB d (storeClient sc) cluster name labels w).2,
          c.isWrite = false) ∨
      (w.state.objects.pdbs cluster.Namespace name = none ∧
        (ensureRedisPDB d (storeClient sc) cluster name labels w).1 = none ∧
        (ensureRedisPDB d (storeClient sc) cluster name labels w).2.state.objects
          = w.state.objects.putPdb (d.NewPodDisruptionBudgetForCR cluster name labels)) ∨
      (w.state.objects.pdbs cluster.Namespace name = none ∧
        (ensureRedisPDB d (storeClient sc) cluster name labels w).1 ≠ none ∧
        (ensureRedisPDB d (storeClient sc) cluster name labels w).2.state.objects
          = w.state.objects) := by
  obtain ⟨hstep, hok, hnf, -, -, -⟩ :=
    storeGet_spec (w.state.objects.pdbs cluster.Namespace name) name w.state
  cases h : ((storeClient sc).pdbClient.GetPodDisruptionBudget cluster.Namespace name
      w.state).1 with
  | ok pdb =>
    rw [ensureRedisPDB_found d (storeClient sc) cluster name labels w pdb h]
    rw [storeClient_getPdb] at h ⊢
    refine Or.inl ⟨⟨pdb, hok pdb h⟩, rfl, by rw [hstep]; rfl, ?_⟩
    rw [newCalls_of_append _ _ _ rfl]
    intro c hc
    simp at hc
    subst hc
    rfl
  | error err =>
    cases hn : IsNotFound err with
    | false =>
      rw [ensureRedisPDB_failed d (storeClient sc) cluster name labels w err h hn]
      rw [storeClient_getPdb] at h ⊢
      refine Or.inr (Or.inl ⟨by simp, by rw [hstep]; rfl, ?_⟩)
      rw [newCalls_of_append _ _ _ rfl]
      intro c hc
      simp at hc
      subst hc
      rfl
    | true =>
      rw [ensureRedisPDB_absent d (storeClient sc) cluster name labels w err h hn]
      rw [storeClient_getPdb] at h
      have habs := hnf err h hn
      simp only [storeClient_getPdb, storeClient_createPdb, hstep]
      obtain ⟨hc1, hc2, -, -⟩ := storeCreate_spec
        (w.state.step.objects.pdbs (d.NewPodDisruptionBudgetForCR cluster name labels).Namespace
          (d.NewPodDisruptionBudgetForCR cluster name labels).Name).isSome
        (d.NewPodDisruptionBudgetForCR cluster name labels).Name
        (w.state.step.objects.putPdb (d.NewPodDisruptionBudgetForCR cluster name labels))
        w.state.step
      cases hcr : (storeCreate
          (w.state.step.objects.pdbs (d.NewPodDisruptionBudgetForCR cluster name labels).Namespace
            (d.NewPodDisruptionBudgetForCR cluster name labels).Name).isSome
          (d.NewPodDisruptionBudgetForCR cluster name labels).Name
          (w.state.step.objects.putPdb (d.NewPodDisruptionBudgetForCR cluster name labels))
          w.state.step).1 with
      | none => exact Or.inr (Or.inr (Or.inl ⟨habs, rfl, hc1 hcr⟩))
      | some e =>
        exact Or.inr (Or.inr (Or.inr ⟨habs, by simp, hc2 (by rw [hcr]; simp)⟩))

end StoreEnsure

section StoreSts

variable (d : Collaborators) (sc : SecretClient Store)

theorem putStatefulSet_lookup (o : Objects) (ss : StatefulSet) :
    (o.putStatefulSet ss).statefulSets ss.Namespace ss.Name = some ss := by
  simp [Objects.putStatefulSet]

/-- The workload-group part of `ensureRedisStatefulset` over the store, after a budget
ensure that returned no error: how the objects change, what a return without error
leaves behind, and what happens when the workload group is present and not stale. -/
theorem store_ensureRedisStatefulset_part (cluster : DistributedRedisCluster)
    (hB : BuildersAgree d cluster) (ssName svcName : String) (labels : Labels)
    (w : World Store)
    (hpdb : (ensureRedisPDB d (storeClient sc) cluster ssName labels w).1 = none) :
    ((ensureRedisStatefulset d (storeClient sc) cluster ssName svcName labels w).2.state.objects
          = (ensureRedisPDB d (storeClient sc) cluster ssName labels w).2.state.objects ∨
        ∃ newSS, d.NewStatefulSetForCR cluster ssName svcName labels = Except.ok newSS ∧
          (ensureRedisStatefulset d (storeClient sc) cluster ssName svcName labels
              w).2.state.objects
            = (ensureRedisPDB d (storeClient sc) cluster ssName labels
                w).2.state.objects.putStatefulSet newSS) ∧
      (∀ u, (ensureRedisStatefulset d (storeClient sc) cluster ssName svcName labels w).1
          = Res.ret (u, none) →
        ∃ ss, (ensureRedisStatefulset d (storeClient sc) cluster ssName svcName labels
            w).2.state.objects.statefulSets cluster.Namespace ssName = some ss ∧
          shouldUpdateRedis d cluster ss = Res.ret false) ∧
      ((∃ ss, (ensureRedisPDB d (storeClient sc) cluster ssName labels
            w).2.state.objects.statefulSets cluster.Namespace ssName = some ss ∧
          shouldUpdateRedis d cluster ss = Res.ret false) →
        (∃ e, (ensureRedisStatefulset d (storeClient sc) cluster ssName svcName labels w).1
            = Res.ret (false, e)) ∧
          (ensureRedisStatefulset d (storeClient sc) cluster ssName svcName labels
              w).2.state.objects
            = (ensureRedisPDB d (storeClient sc) cluster ssName labels w).2.state.objects ∧
          ∀ c ∈ newCalls (ensureRedisPDB d (storeClient sc) cluster ssName labels w).2
              (ensureRedisStatefulset d (storeClient sc) cluster ssName svcName labels w).2,
            c.isWrite = false) := by
  obtain ⟨hstep, hok, hnf, hpresent, -, -⟩ := storeGet_spec
    ((ensureRedisPDB d (storeClient sc) cluster ssName labels w).2.state.objects.statefulSets
      cluster.Namespace ssName) ssName
    (ensureRedisPDB d (storeClient sc) cluster ssName labels w).2.state
  have hnowrite : ∀ res : Except Error StatefulSet, ∀ c ∈
      newCalls (ensureRedisPDB d (storeClient sc) cluster ssName labels w).2
        (⟨(storeGet ((ensureRedisPDB d (storeClient sc) cluster ssName labels
              w).2.state.objects.statefulSets cluster.Namespace ssName) ssName
            (ensureRedisPDB d (storeClient sc) cluster ssName labels w).2.state).2,
          (ensureRedisPDB d (storeClient sc) cluster ssName labels w).2.trace ++
            [Call.GetStatefulSet cluster.Namespace ssName res]⟩ : World Store),
      c.isWrite = false := by
    intro res c hc
    rw [newCalls_of_append _ _ _ rfl] at hc
    simp at hc
    subst hc
    rfl
  cases hget : ((storeClient sc).statefulSetClient.GetStatefulSet cluster.Namespace ssName
      (ensureRedisPDB d (storeClient sc) cluster ssName labels w).2.state).1 with
  | ok ss =>
    have hfound := hok ss (by rw [← storeClient_getSts sc]; exact hget)
    cases hs : shouldUpdateRedis d cluster ss with
    | panic =>
      rw [ensureRedisStatefulset_of_panic d (storeClient sc) cluster ssName svcName labels w
        ss hpdb hget hs, storeClient_getSts]
      refine ⟨Or.inl (by rw [hstep]; rfl), (fun u h => by cases h), ?_⟩
      rintro ⟨ss1, h1, h2⟩
      rw [hfound] at h1
      cases h1
      rw [hs] at h2
      cases h2
    | ret b =>
      cases b with
      | false =>
        rw [ensureRedisStatefulset_of_fresh d (storeClient sc) cluster ssName svcName labels
          w ss hpdb hget hs, storeClient_getSts]
        refine ⟨Or.inl (by rw [hstep]; rfl), fun u _ => ⟨ss, by rw [hstep]; exact hfound, hs⟩,
          fun _ => ⟨⟨none, rfl⟩, by rw [hstep]; rfl, hnowrite _⟩⟩
      | true =>
        have hstaleAbsurd : (∃ ss1, (ensureRedisPDB d (storeClient sc) cluster ssName labels
              w).2.state.objects.statefulSets cluster.Namespace ssName = some ss1 ∧
            shouldUpdateRedis d cluster ss1 = Res.ret false) → False := by
          rintro ⟨ss1, h1, h2⟩
          rw [hfound] at h1
          cases h1
          rw [hs] at h2
          cases h2
        cases hb : d.NewStatefulSetForCR cluster ssName svcName labels with
        | error e =>
          rw [ensureRedisStatefulset_of_stale_build_error d (storeClient sc) cluster ssName
            svcName labels w ss e hpdb hget hs hb, storeClient_getSts]
          exact ⟨Or.inl (by rw [hstep]; rfl), (fun u h => by simp at h),
            fun h => (hstaleAbsurd h).elim⟩
        | ok newSS =>
          rw [ensureRedisStatefulset_of_stale d (storeClient sc) cluster ssName svcName labels
            w ss newSS hpdb hget hs hb]
          simp only [storeClient_getSts, storeClient_updateSts, hstep]
          obtain ⟨hu1, hu2, -⟩ := storeUpdate_spec
            ((ensureRedisPDB d (storeClient sc) cluster ssName labels
              w).2.state.step.objects.statefulSets newSS.Namespace newSS.Name).isSome
            newSS.Name
            ((ensureRedisPDB d (storeClient sc) cluster ssName labels
              w).2.state.step.objects.putStatefulSet newSS)
            (ensureRedisPDB d (storeClient sc) cluster ssName labels w).2.state.step
          have hkey := hB.statefulSet_key ssName svcName labels newSS hb
          refine ⟨?_, ?_, fun h => (hstaleAbsurd h).elim⟩
          · cases hres : (storeUpdate
                ((ensureRedisPDB d (storeClient sc) cluster ssName labels
                  w).2.state.step.objects.statefulSets newSS.Namespace newSS.Name).isSome
                newSS.Name
                ((ensureRedisPDB d (storeClient sc) cluster ssName labels
                  w).2.state.step.objects.putStatefulSet newSS)
                (ensureRedisPDB d (storeClient sc) cluster ssName labels
                  w).2.state.step).1 with
            | none => exact Or.inr ⟨newSS, rfl, hu1 hres⟩
            | some e => exact Or.inl (hu2 (by rw [hres]; simp))
          · intro u h
            simp only [Res.ret.injEq, Prod.mk.injEq] at h
            refine ⟨newSS, ?_, hB.statefulSet_fresh ssName svcName labels newSS hb⟩
            rw [hu1 h.2, ← hkey.1, ← hkey.2]
            exact putStatefulSet_lookup _ newSS
  | error err =>
    cases hn : IsNotFound err with
    | false =>
      rw [ensureRedisStatefulset_of_get_failed d (storeClient sc) cluster ssName svcName
        labels w err hpdb hget hn, storeClient_getSts]
      exact ⟨Or.inl (by rw [hstep]; rfl), (fun u h => by simp at h),
        fun _ => ⟨⟨some err, rfl⟩, by rw [hstep]; rfl, hnowrite _⟩⟩
    | true =>
      have habs := hnf err (by rw [← storeClient_getSts sc]; exact hget) hn
      have habsentAbsurd : (∃ ss1, (ensureRedisPDB d (storeClient sc) cluster ssName labels
            w).2.state.objects.statefulSets cluster.Namespace ssName = some ss1 ∧
          shouldUpdateRedis d cluster ss1 = Res.ret false) → False := by
        rintro ⟨ss1, h1, -⟩
        rw [habs] at h1
        cases h1
      cases hb : d.NewStatefulSetForCR cluster ssName svcName labels with
      | error e =>
        rw [ensureRedisStatefulset_of_absent_build_error d (storeClient sc) cluster ssName
          svcName labels w err e hpdb hget hn hb, storeClient_getSts]
        exact ⟨Or.inl (by rw [hstep]; rfl), (fun u h => by simp at h),
          fun h => (habsentAbsurd h).elim⟩
      | ok newSS =>
        rw [ensureRedisStatefulset_of_absent d (storeClient sc) cluster ssName svcName labels
          w err newSS hpdb hget hn hb]
        simp only [storeClient_getSts, storeClient_createSts, hstep]
        obtain ⟨hu1, hu2, -, -⟩ := storeCreate_spec
          ((ensureRedisPDB d (storeClient sc) cluster ssName labels
            w).2.state.step.objects.statefulSets newSS.Namespace newSS.Name).isSome
          newSS.Name
          ((ensureRedisPDB d (storeClient sc) cluster ssName labels
            w).2.state.step.objects.putStatefulSet newSS)
          (ensureRedisPDB d (storeClient sc) cluster ssName labels w).2.state.step
        have hkey := hB.statefulSet_key ssName svcName labels newSS hb
        refine ⟨?_, ?_, fun h => (habsentAbsurd h).elim⟩
        · cases hres : (storeCreate
              ((ensureRedisPDB d (storeClient sc) cluster ssName labels
                w).2.state.step.objects.statefulSets newSS.Namespace newSS.Name).isSome
              newSS.Name
              ((ensureRedisPDB d (storeClient sc) cluster ssName labels
                w).2.state.step.objects.putStatefulSet newSS)
              (ensureRedisPDB d (storeClient sc) cluster ssName labels
                w).2.state.step).1 with
          | none => exact Or.inr ⟨newSS, rfl, hu1 hres⟩
          | some e => exact Or.inl (hu2 (by rw [hres]; simp))
        · intro u h
          simp only [Res.ret.injEq, Prod.mk.injEq] at h
          refine ⟨newSS, ?_, hB.statefulSet_fresh ssName svcName labels newSS hb⟩
          rw [hu1 h.2, ← hkey.1, ← hkey.2]
          exact putStatefulSet_lookup _ newSS

end StoreSts

section StoreShard

variable (d : Collaborators) (sc : SecretClient Store)

theorem shardConverged_putPdb (cluster : DistributedRedisCluster) (o : Objects)
    (pdb : PodDisruptionBudget) (name : String) (h : shardConverged d cluster o name) :
    shardConverged d cluster (o.putPdb pdb) name := by
  obtain ⟨⟨p, hp⟩, hs⟩ := h
  refine ⟨?_, hs⟩
  by_cases hk : cluster.Namespace = pdb.Namespace ∧ name = pdb.Name
  · exact ⟨pdb, by simp [Objects.putPdb, hk]⟩
  · exact ⟨p, by simp only [Objects.putPdb, hk, if_false]; exact hp⟩

theorem shardConverged_putStatefulSet (cluster : DistributedRedisCluster) (o : Objects)
    (ss : StatefulSet) (name : String)
    (hfresh : shouldUpdateRedis d cluster ss = Res.ret false)
    (h : shardConverged d cluster o name) :
    shardConverged d cluster (o.putStatefulSet ss) name := by
  obtain ⟨hp, ⟨s0, hs0, hf0⟩⟩ := h
  refine ⟨hp, ?_⟩
  by_cases hk : cluster.Namespace = ss.Namespace ∧ name = ss.Name
  · exact ⟨ss, by simp [Objects.putStatefulSet, hk], hfresh⟩
  · exact ⟨s0, by simp only [Objects.putStatefulSet, hk, if_false]; exact hs0, hf0⟩

/-- The calls of `ensureRedisStatefulset`, split at the end of the budget ensure. -/
theorem ensureRedisStatefulset_trace {σ : Type} (r : realEnsureResource σ)
    (cluster : DistributedRedisCluster) (ssName svcName : String) (labels : Labels)
    (w : World σ) :
    ∃ delta1 delta2,
      (ensureRedisPDB d r cluster ssName labels w).2.trace = w.trace ++ delta1 ∧
      (ensureRedisStatefulset d r cluster ssName svcName labels w).2.trace
        = w.trace ++ (delta1 ++ delta2) ∧
      ((ensureRedisPDB d r cluster ssName labels w).1 ≠ none → delta2 = []) := by
  obtain ⟨delta1, h1, -⟩ := ensureRedisPDB_calls d r cluster ssName labels w
  obtain ⟨delta2, h2, h3⟩ := ensureRedisStatefulset_calls d r cluster ssName svcName labels w
  exact ⟨delta1, delta2, h1, by rw [h2, h1, List.append_assoc], h3⟩

/-- Over the store, one `ensureRedisStatefulset` keeps every converged shard converged. -/
theorem store_ensureRedisStatefulset_preserves (cluster : DistributedRedisCluster)
    (hB : BuildersAgree d cluster) (ssName svcName : String) (labels : Labels)
    (w : World Store) (name : String)
    (h : shardConverged d cluster w.state.objects name) :
    shardConverged d cluster
      (ensureRedisStatefulset d (storeClient sc) cluster ssName svcName labels
        w).2.state.objects name := by
  have hpdbObj : shardConverged d cluster
      (ensureRedisPDB d (storeClient sc) cluster ssName labels w).2.state.objects name := by
    rcases store_ensureRedisPDB_cases d sc cluster ssName labels w with
      ⟨-, -, ho, -⟩ | ⟨-, ho, -⟩ | ⟨-, -, ho⟩ | ⟨-, -, ho⟩
    · rw [ho]; exact h
    · rw [ho]; exact h
    · rw [ho]; exact shardConverged_putPdb d cluster _ _ _ h
    · rw [ho]; exact h
  cases hpdb : (ensureRedisPDB d (storeClient sc) cluster ssName labels w).1 with
  | some err =>
    rw [ensureRedisStatefulset_of_pdb_error d (storeClient sc) cluster ssName svcName labels w
      err hpdb]
    exact hpdbObj
  | none =>
    obtain ⟨hA, -, -⟩ := store_ensureRedisStatefulset_part d sc cluster hB ssName svcName
      labels w hpdb
    rcases hA with ho | ⟨newSS, hb, ho⟩
    · rw [ho]; exact hpdbObj
    · rw [ho]
      exact shardConverged_putStatefulSet d cluster _ _ _
        (hB.statefulSet_fresh ssName svcName labels newSS hb) hpdbObj

/-- Over the store, an `ensureRedisStatefulset` that returns no error leaves its shard
converged. -/
theorem store_ensureRedisStatefulset_establishes (cluster : DistributedRedisCluster)
    (hB : BuildersAgree d cluster) (ssName svcName : String) (labels : Labels)
    (w : World Store) (u : Bool)
    (h : (ensureRedisStatefulset d (storeClient sc) cluster ssName svcName labels w).1
      = Res.ret (u, none)) :
    shardConverged d cluster
      (ensureRedisStatefulset d (storeClient sc) cluster ssName svcName labels
        w).2.state.objects ssName := by
  cases hpdb : (ensureRedisPDB d (storeClient sc) cluster ssName labels w).1 with
  | some err =>
    rw [ensureRedisStatefulset_of_pdb_error d (storeClient sc) cluster ssName svcName labels w
      err hpdb] at h
    simp at h
  | none =>
    obtain ⟨hA, hBs, -⟩ := store_ensureRedisStatefulset_part d sc cluster hB ssName svcName
      labels w hpdb
    have hpdbPresent : ∃ pdb, (ensureRedisPDB d (storeClient sc) cluster ssName labels
        w).2.state.objects.pdbs cluster.Namespace ssName = some pdb := by
      rcases store_ensureRedisPDB_cases d sc cluster ssName labels w with
        ⟨hp, -, ho, -⟩ | ⟨hne, -, -⟩ | ⟨-, -, ho⟩ | ⟨-, hne, -⟩
      · rw [ho]; exact hp
      · exact (hne hpdb).elim
      · rw [ho]
        refine ⟨d.NewPodDisruptionBudgetForCR cluster ssName labels, ?_⟩
        simp [Objects.putPdb, (hB.pdb_key ssName labels).1, (hB.pdb_key ssName labels).2]
      · exact (hne hpdb).elim
    refine ⟨?_, hBs u h⟩
    rcases hA with ho | ⟨newSS, -, ho⟩
    · rw [ho]; exact hpdbPresent
    · rw [ho]; exact hpdbPresent

/-- Over the store, `ensureRedisStatefulset` on a converged shard writes nothing and
reports `updated = false`. -/
theorem store_ensureRedisStatefulset_noop (cluster : DistributedRedisCluster)
    (hB : BuildersAgree d cluster) (ssName svcName : String) (labels : Labels)
    (w : World Store) (h : shardConverged d cluster w.state.objects ssName) :
    (∃ e, (ensureRedisStatefulset d (storeClient sc) cluster ssName svcName labels w).1
        = Res.ret (false, e)) ∧
      (ensureRedisStatefulset d (storeClient sc) cluster ssName svcName labels
          w).2.state.objects = w.state.objects ∧
      ∃ delta, (ensureRedisStatefulset d (storeClient sc) cluster ssName svcName labels
          w).2.trace = w.trace ++ delta ∧ ∀ c ∈ delta, c.isWrite = false := by
  obtain ⟨delta1, delta2, ht1, ht2, hfail⟩ :=
    ensureRedisStatefulset_trace d (storeClient sc) cluster ssName svcName labels w
  obtain ⟨⟨p, hp⟩, hsts⟩ := h
  have hnew1 := newCalls_of_append w _ delta1 ht1
  rcases store_ensureRedisPDB_cases d sc cluster ssName labels w with
    ⟨-, hnone, ho, hw⟩ | ⟨hne, ho, hw⟩ | ⟨habs, -, -⟩ | ⟨habs, -, -⟩
  · obtain ⟨-, -, hC⟩ := store_ensureRedisStatefulset_part d sc cluster hB ssName svcName
      labels w hnone
    rw [ho] at hC
    obtain ⟨he, hobj, hw2⟩ := hC hsts
    rw [newCalls_of_append _ _ delta2 (by rw [ht2, ht1, List.append_assoc])] at hw2
    rw [hnew1] at hw
    refine ⟨he, hobj, delta1 ++ delta2, ht2, ?_⟩
    intro c hc
    rcases List.mem_append.mp hc with hc | hc
    · exact hw c hc
    · exact hw2 c hc
  · cases hpdb : (ensureRedisPDB d (storeClient sc) cluster ssName labels w).1 with
    | none => exact (hne hpdb).elim
    | some err =>
      rw [hnew1] at hw
      rw [ensureRedisStatefulset_of_pdb_error d (storeClient sc) cluster ssName svcName
        labels w err hpdb]
      exact ⟨⟨some err, rfl⟩, ho, delta1, ht1, hw⟩
  · rw [habs] at hp; cases hp
  · rw [habs] at hp; cases hp

/-- The first run of the shard loop: when it returns no error, every shard it went
through has converged. -/
theorem store_loop_establishes (cluster : DistributedRedisCluster)
    (hB : BuildersAgree d cluster) :
    ∀ (k i : Nat) (updated b : Bool) (labels : Labels) (w : World Store),
      (EnsureRedisStatefulsetsLoop d (storeClient sc) cluster i k updated labels w).1
          = Res.ret (b, none) →
      (∀ j, j < i →
        shardConverged d cluster w.state.objects (d.ClusterStatefulSetName cluster.Name j)) →
      ∀ j, j < i + k →
        shardConverged d cluster
          (EnsureRedisStatefulsetsLoop d (storeClient sc) cluster i k updated labels
            w).2.2.state.objects (d.ClusterStatefulSetName cluster.Name j) := by
  intro k
  induction k with
  | zero =>
    intro i updated b labels w _ hprev j hj
    exact hprev j (by omega)
  | succ k ih =>
    intro i updated b labels w h hprev j hj
    simp only [EnsureRedisStatefulsetsLoop] at h ⊢
    cases hres : (ensureRedisStatefulset d (storeClient sc) cluster
        (d.ClusterStatefulSetName cluster.Name i)
        (d.ClusterHeadlessSvcName cluster.Spec.ServiceName i)
        (shardLabels d cluster labels i) w).1 with
    | panic =>
      rw [hres] at h
      cases h
    | ret p =>
      obtain ⟨u, e⟩ := p
      cases e with
      | some err =>
        rw [hres] at h
        simp at h
      | none =>
        rw [hres] at h
        simp only [hres]
        refine ih (i + 1) _ b _ _ h ?_ j (by omega)
        intro j1 hj1
        rcases Nat.lt_succ_iff_lt_or_eq.mp hj1 with hlt | heq
        · exact store_ensureRedisStatefulset_preserves d sc cluster hB _ _ _ w _
            (hprev j1 hlt)
        · rw [heq]
          exact store_ensureRedisStatefulset_establishes d sc cluster hB _ _ _ w u hres

/-- A run of the shard loop over converged shards writes nothing and reports
`updated = false`. -/
theorem store_loop_noop (cluster : DistributedRedisCluster)
    (hB : BuildersAgree d cluster) :
    ∀ (k i : Nat) (labels : Labels) (w : World Store),
      (∀ j, i ≤ j → j < i + k →
        shardConverged d cluster w.state.objects (d.ClusterStatefulSetName cluster.Name j)) →
      (∃ e, (EnsureRedisStatefulsetsLoop d (storeClient sc) cluster i k false labels w).1
          = Res.ret (false, e)) ∧
        ∃ delta, (EnsureRedisStatefulsetsLoop d (storeClient sc) cluster i k false labels
            w).2.2.trace = w.trace ++ delta ∧ ∀ c ∈ delta, c.isWrite = false := by
  intro k
  induction k with
  | zero =>
    intro i labels w _
    exact ⟨⟨none, rfl⟩, [], by simp [EnsureRedisStatefulsetsLoop], by simp⟩
  | succ k ih =>
    intro i labels w hconv
    obtain ⟨⟨e, he⟩, hobj, delta, ht, hw⟩ := store_ensureRedisStatefulset_noop d sc cluster hB
      (d.ClusterStatefulSetName cluster.Name i)
      (d.ClusterHeadlessSvcName cluster.Spec.ServiceName i)
      (shardLabels d cluster labels i) w (hconv i (Nat.le_refl i) (by omega))
    simp only [EnsureRedisStatefulsetsLoop, he]
    cases e with
    | some err => exact ⟨⟨some err, rfl⟩, delta, ht, hw⟩
    | none =>
      simp only [Bool.false_eq_true, if_false]
      obtain ⟨he2, delta2, ht2, hw2⟩ := ih (i + 1) (shardLabels d cluster labels i)
        (ensureRedisStatefulset d (storeClient sc) cluster
          (d.ClusterStatefulSetName cluster.Name i)
          (d.ClusterHeadlessSvcName cluster.Spec.ServiceName i)
          (shardLabels d cluster labels i) w).2
        (by
          intro j hj1 hj2
          rw [hobj]
          exact hconv j (by omega) (by omega))
      refine ⟨he2, delta ++ delta2, by rw [ht2, ht, List.append_assoc], ?_⟩
      intro c hc
      rcases List.mem_append.mp hc with hc | hc
      · exact hw c hc
      · exact hw2 c hc

end StoreShard

section StoreServices

variable (d : Collaborators) (sc : SecretClient Store)

theorem putService_present (o : Objects) (svc : Service) (ns name : String)
    (h : ∃ s, o.services ns name = some s) :
    ∃ s, (o.putService svc).services ns name = some s := by
  obtain ⟨s, hs⟩ := h
  by_cases hk : ns = svc.Namespace ∧ name = svc.Name
  · exact ⟨svc, by simp [Objects.putService, hk]⟩
  · exact ⟨s, by simp only [Objects.putService, hk, if_false]; exact hs⟩

/-- The headless-endpoint ensure over the store: it keeps every service that is present,
a return without error leaves the service of that name present, and on a service that is
present it writes nothing. -/
theorem store_ensureRedisHeadLessSvc_spec (cluster : DistributedRedisCluster)
    (hB : BuildersAgree d cluster) (name : String) (labels : Labels) (w : World Store) :
    (∀ ns1 name1, (∃ s, w.state.objects.services ns1 name1 = some s) →
        ∃ s, (ensureRedisHeadLessSvc d (storeClient sc) cluster name labels
          w).2.state.objects.services ns1 name1 = some s) ∧
      ((ensureRedisHeadLessSvc d (storeClient sc) cluster name labels w).1 = none →
        ∃ s, (ensureRedisHeadLessSvc d (storeClient sc) cluster name labels
          w).2.state.objects.services cluster.Namespace name = some s) ∧
      ((∃ s, w.state.objects.services cluster.Namespace name = some s) →
        (ensureRedisHeadLessSvc d (storeClient sc) cluster name labels w).2.state.objects
            = w.state.objects ∧
          ∃ delta, (ensureRedisHeadLessSvc d (storeClient sc) cluster name labels w).2.trace
              = w.trace ++ delta ∧ ∀ c ∈ delta, c.isWrite = false) := by
  obtain ⟨hstep, hok, hnf, -, -, -⟩ :=
    storeGet_spec (w.state.objects.services cluster.Namespace name) name w.state
  cases h : ((storeClient sc).svcClient.GetService cluster.Namespace name w.state).1 with
  | ok svc =>
    rw [ensureRedisHeadLessSvc_found d (storeClient sc) cluster name labels w svc h]
    rw [storeClient_getSvc] at h ⊢
    refine ⟨fun ns1 name1 hp => by rw [hstep]; exact hp,
      fun _ => ⟨svc, by rw [hstep]; exact hok svc h⟩,
      fun _ => ⟨by rw [hstep]; rfl, _, rfl, ?_⟩⟩
    intro c hc
    simp at hc
    subst hc
    rfl
  | error err =>
    cases hn : IsNotFound err with
    | false =>
      rw [ensureRedisHeadLessSvc_failed d (storeClient sc) cluster name labels w err h hn]
      rw [storeClient_getSvc] at h ⊢
      refine ⟨fun ns1 name1 hp => by rw [hstep]; exact hp, (fun hnone => by simp at hnone),
        fun _ => ⟨by rw [hstep]; rfl, _, rfl, ?_⟩⟩
      intro c hc
      simp at hc
      subst hc
      rfl
    | true =>
      rw [ensureRedisHeadLessSvc_absent d (storeClient sc) cluster name labels w err h hn]
      rw [storeClient_getSvc] at h
      have habs := hnf err h hn
      simp only [storeClient_getSvc, storeClient_createSvc, hstep]
      obtain ⟨hc1, hc2, -, -⟩ := storeCreate_spec
        (w.state.step.objects.services (d.NewHeadLessSvcForCR cluster name labels).Namespace
          (d.NewHeadLessSvcForCR cluster name labels).Name).isSome
        (d.NewHeadLessSvcForCR cluster name labels).Name
        (w.state.step.objects.putService (d.NewHeadLessSvcForCR cluster name labels))
        w.state.step
      have hkey := hB.headless_key name labels
      refine ⟨?_, ?_, ?_⟩
      · intro ns1 name1 hp
        cases hcr : (storeCreate
            (w.state.step.objects.services
              (d.NewHeadLessSvcForCR cluster name labels).Namespace
              (d.NewHeadLessSvcForCR cluster name labels).Name).isSome
            (d.NewHeadLessSvcForCR cluster name labels).Name
            (w.state.step.objects.putService (d.NewHeadLessSvcForCR cluster name labels))
            w.state.step).1 with
        | none =>
          rw [hc1 hcr]
          exact putService_present _ _ _ _ hp
        | some e =>
          rw [hc2 (by rw [hcr]; simp)]
          exact hp
      · intro hnone
        rw [hc1 hnone]
        refine ⟨d.NewHeadLessSvcForCR cluster name labels, ?_⟩
        simp [Objects.putService, hkey.1, hkey.2]
      · rintro ⟨s, hs⟩
        rw [habs] at hs
        cases hs

/-- The first run of the headless-endpoint loop: when it returns no error, every shard
it went through has its service. -/
theorem store_headless_loop_establishes (cluster : DistributedRedisCluster)
    (hB : BuildersAgree d cluster) :
    ∀ (k i : Nat) (labels : Labels) (w : World Store),
      (EnsureRedisHeadLessSvcsLoop d (storeClient sc) cluster i k labels w).1 = none →
      (∀ j, j < i → ∃ s, w.state.objects.services cluster.Namespace
        (d.ClusterHeadlessSvcName cluster.Spec.ServiceName j) = some s) →
      ∀ j, j < i + k →
        ∃ s, (EnsureRedisHeadLessSvcsLoop d (storeClient sc) cluster i k labels
          w).2.2.state.objects.services cluster.Namespace
          (d.ClusterHeadlessSvcName cluster.Spec.ServiceName j) = some s := by
  intro k
  induction k with
  | zero =>
    intro i labels w _ hprev j hj
    exact hprev j (by omega)
  | succ k ih =>
    intro i labels w h hprev j hj
    obtain ⟨hA, hBs, -⟩ := store_ensureRedisHeadLessSvc_spec d sc cluster hB
      (d.ClusterHeadlessSvcName cluster.Spec.ServiceName i) (shardLabels d cluster labels i) w
    simp only [EnsureRedisHeadLessSvcsLoop] at h ⊢
    cases hres : (ensureRedisHeadLessSvc d (storeClient sc) cluster
        (d.ClusterHeadlessSvcName cluster.Spec.ServiceName i)
        (shardLabels d cluster labels i) w).1 with
    | some err =>
      rw [hres] at h
      simp at h
    | none =>
      rw [hres] at h
      simp only [hres]
      refine ih (i + 1) _ _ h ?_ j (by omega)
      intro j1 hj1
      rcases Nat.lt_succ_iff_lt_or_eq.mp hj1 with hlt | heq
      · exact hA _ _ (hprev j1 hlt)
      · rw [heq]
        exact hBs hres

/-- A run of the headless-endpoint loop over shards that have their service writes
nothing. -/
theorem store_headless_loop_noop (cluster : DistributedRedisCluster)
    (hB : BuildersAgree d cluster) :
    ∀ (k i : Nat) (labels : Labels) (w : World Store),
      (∀ j, i ≤ j → j < i + k → ∃ s, w.state.objects.services cluster.Namespace
        (d.ClusterHeadlessSvcName cluster.Spec.ServiceName j) = some s) →
      ∃ delta, (EnsureRedisHeadLessSvcsLoop d (storeClient sc) cluster i k labels
          w).2.2.trace = w.trace ++ delta ∧ ∀ c ∈ delta, c.isWrite = false := by
  intro k
  induction k with
  | zero =>
    intro i labels w _
    exact ⟨[], by simp [EnsureRedisHeadLessSvcsLoop], by simp⟩
  | succ k ih =>
    intro i labels w hconv
    obtain ⟨-, -, hC⟩ := store_ensureRedisHeadLessSvc_spec d sc cluster hB
      (d.ClusterHeadlessSvcName cluster.Spec.ServiceName i) (shardLabels d cluster labels i) w
    obtain ⟨hobj, delta, ht, hw⟩ := hC (hconv i (Nat.le_refl i) (by omega))
    simp only [EnsureRedisHeadLessSvcsLoop]
    cases hres : (ensureRedisHeadLessSvc d (storeClient sc) cluster
        (d.ClusterHeadlessSvcName cluster.Spec.ServiceName i)
        (shardLabels d cluster labels i) w).1 with
    | some err => exact ⟨delta, ht, hw⟩
    | none =>
      simp only []
      obtain ⟨delta2, ht2, hw2⟩ := ih (i + 1) (shardLabels d cluster labels i)
        (ensureRedisHeadLessSvc d (storeClient sc) cluster
          (d.ClusterHeadlessSvcName cluster.Spec.ServiceName i)
          (shardLabels d cluster labels i) w).2
        (by
          intro j hj1 hj2
          rw [hobj]
          exact hconv j (by omega) (by omega))
      refine ⟨delta ++ delta2, by rw [ht2, ht, List.append_assoc], ?_⟩
      intro c hc
      rcases List.mem_append.mp hc with hc | hc
      · exact hw c hc
      · exact hw2 c hc

/-- The client-endpoint ensure over the store: a return without error leaves the client
service present, and on a client service that is present it writes nothing. -/
theorem store_EnsureRedisSvc_spec (cluster : DistributedRedisCluster)
    (hB : BuildersAgree d cluster) (labels : Labels) (w : World Store) :
    ((EnsureRedisSvc d (storeClient sc) cluster labels w).1 = none →
        ∃ s, (EnsureRedisSvc d (storeClient sc) cluster labels
          w).2.2.state.objects.services cluster.Namespace cluster.Spec.ServiceName
            = some s) ∧
      ((∃ s, w.state.objects.services cluster.Namespace cluster.Spec.ServiceName = some s) →
        ∃ delta, (EnsureRedisSvc d (storeClient sc) cluster labels w).2.2.trace
            = w.trace ++ delta ∧ ∀ c ∈ delta, c.isWrite = false) := by
  obtain ⟨hstep, hok, hnf, -, -, -⟩ := storeGet_spec
    (w.state.objects.services cluster.Namespace cluster.Spec.ServiceName)
    cluster.Spec.ServiceName w.state
  cases h : (storeGet (w.state.objects.services cluster.Namespace cluster.Spec.ServiceName)
      cluster.Spec.ServiceName w.state).1 with
  | ok svc =>
    have hout : EnsureRedisSvc d (storeClient sc) cluster labels w
        = (none, (labels.delete d.StatefulSetLabel).delete "app.kubernetes.io/component",
            ⟨w.state.step, w.trace ++ [Call.GetService cluster.Namespace
              cluster.Spec.ServiceName (Except.ok svc)]⟩) := by
      simp [EnsureRedisSvc, callGetService, storeClient_getSvc, h, hstep]
    rw [hout]
    refine ⟨fun _ => ⟨svc, hok svc h⟩, fun _ => ⟨_, rfl, ?_⟩⟩
    intro c hc
    simp at hc
    subst hc
    rfl
  | error err =>
    cases hn : IsNotFound err with
    | false =>
      have hout : EnsureRedisSvc d (storeClient sc) cluster labels w
          = (some err, (labels.delete d.StatefulSetLabel).delete "app.kubernetes.io/component",
              ⟨w.state.step, w.trace ++ [Call.GetService cluster.Namespace
                cluster.Spec.ServiceName (Except.error err)]⟩) := by
        simp [EnsureRedisSvc, callGetService, storeClient_getSvc, h, hstep, hn]
      rw [hout]
      refine ⟨(fun hnone => by simp at hnone), fun _ => ⟨_, rfl, ?_⟩⟩
      intro c hc
      simp at hc
      subst hc
      rfl
    | true =>
      have habs := hnf err h hn
      have hkey := hB.svc_key cluster.Spec.ServiceName
        ((labels.delete d.StatefulSetLabel).delete "app.kubernetes.io/component")
      obtain ⟨hc1, -, -, -⟩ := storeCreate_spec
        (w.state.step.objects.services
          (d.NewSvcForCR cluster cluster.Spec.ServiceName
            ((labels.delete d.StatefulSetLabel).delete
              "app.kubernetes.io/component")).Namespace
          (d.NewSvcForCR cluster cluster.Spec.ServiceName
            ((labels.delete d.StatefulSetLabel).delete
              "app.kubernetes.io/component")).Name).isSome
        (d.NewSvcForCR cluster cluster.Spec.ServiceName
          ((labels.delete d.StatefulSetLabel).delete "app.kubernetes.io/component")).Name
        (w.state.step.objects.putService
          (d.NewSvcForCR cluster cluster.Spec.ServiceName
            ((labels.delete d.StatefulSetLabel).delete "app.kubernetes.io/component")))
        w.state.step
      refine ⟨?_, ?_⟩
      · intro hnone
        simp only [EnsureRedisSvc, callGetService, callCreateService, storeClient_getSvc,
          storeClient_createSvc, h, hstep, hn, if_true] at hnone ⊢
        rw [hc1 hnone]
        refine ⟨d.NewSvcForCR cluster cluster.Spec.ServiceName
          ((labels.delete d.StatefulSetLabel).delete "app.kubernetes.io/component"), ?_⟩
        simp [Objects.putService, hkey.1, hkey.2]
      · rintro ⟨s, hs⟩
        rw [habs] at hs
        cases hs

end StoreServices

section StoreConfig

variable (d : Collaborators) (sc : SecretClient Store)

theorem putConfigMap_present (o : Objects) (cm : ConfigMap) (ns name : String)
    (h : ∃ c, o.configMaps ns name = some c) :
    ∃ c, (o.putConfigMap cm).configMaps ns name = some c := by
  obtain ⟨c, hc⟩ := h
  by_cases hk : ns = cm.Namespace ∧ name = cm.Name
  · exact ⟨cm, by simp [Objects.putConfigMap, hk]⟩
  · exact ⟨c, by simp only [Objects.putConfigMap, hk, if_false]; exact hc⟩

theorem callGetConfigMap_store (ns name : String) (w : World Store) :
    callGetConfigMap (storeClient sc) ns name w
      = ((storeGet (w.state.objects.configMaps ns name) name w.state).1,
          ⟨w.state.step, w.trace ++ [Call.GetConfigMap ns name
            (storeGet (w.state.objects.configMaps ns name) name w.state).1]⟩) := by
  simp [callGetConfigMap, storeClient_getCm, (storeGet_spec _ name w.state).1]

/-- The restore sub-flow over the store: it keeps every configuration that is present; a
return without error leaves, for a restoring cluster, the restore configuration present
with the cluster's count; and when that is already so it writes nothing. -/
theorem store_ensureRestoreConfigMap_spec (cluster : DistributedRedisCluster)
    (hB : BuildersAgree d cluster) (labels : Labels) (w : World Store) :
    (∀ ns1 name1, (∃ c, w.state.objects.configMaps ns1 name1 = some c) →
        ∃ c, (ensureRestoreConfigMap d (storeClient sc) cluster labels
          w).2.state.objects.configMaps ns1 name1 = some c) ∧
      ((ensureRestoreConfigMap d (storeClient sc) cluster labels w).1 = none →
        d.IsRestoreFromBackup cluster = true →
        ∃ c, (ensureRestoreConfigMap d (storeClient sc) cluster labels
            w).2.state.objects.configMaps cluster.Namespace
            (d.RestoreConfigMapName cluster.Name) = some c ∧
          (c.Data d.RestoreSucceeded).getD "" = Itoa cluster.Status.Restore.RestoreSucceeded) ∧
      ((d.IsRestoreFromBackup cluster = true →
          ∃ c, w.state.objects.configMaps cluster.Namespace
              (d.RestoreConfigMapName cluster.Name) = some c ∧
            (c.Data d.RestoreSucceeded).getD "" = Itoa cluster.Status.Restore.RestoreSucceeded) →
        ∃ delta, (ensureRestoreConfigMap d (storeClient sc) cluster labels w).2.trace
            = w.trace ++ delta ∧ ∀ c ∈ delta, c.isWrite = false) := by
  cases hr : d.IsRestoreFromBackup cluster with
  | false =>
    have hout : ensureRestoreConfigMap d (storeClient sc) cluster labels w = (none, w) := by
      simp [ensureRestoreConfigMap, hr]
    rw [hout]
    exact ⟨fun _ _ hp => hp, (fun _ h => by cases h), fun _ => ⟨[], by simp, by simp⟩⟩
  | true =>
    obtain ⟨hstep, hok, hnf, -, -, -⟩ := storeGet_spec
      (w.state.objects.configMaps cluster.Namespace (d.RestoreConfigMapName cluster.Name))
      (d.RestoreConfigMapName cluster.Name) w.state
    have hkey := hB.restore_key labels
    have hcount := hB.restore_count labels
    have hlookup : ∀ o : Objects,
        (o.putConfigMap (d.NewConfigMapForRestore cluster labels)).configMaps
          cluster.Namespace (d.RestoreConfigMapName cluster.Name)
          = some (d.NewConfigMapForRestore cluster labels) := by
      intro o
      simp [Objects.putConfigMap, hkey.1, hkey.2]
    cases h : (storeGet (w.state.objects.configMaps cluster.Namespace
        (d.RestoreConfigMapName cluster.Name)) (d.RestoreConfigMapName cluster.Name)
        w.state).1 with
    | ok cm =>
      have hfound := hok cm h
      by_cases hdata : (cm.Data d.RestoreSucceeded).getD ""
          = Itoa cluster.Status.Restore.RestoreSucceeded
      · have hout : ensureRestoreConfigMap d (storeClient sc) cluster labels w
            = (none, ⟨w.state.step, w.trace ++ [Call.GetConfigMap cluster.Namespace
                (d.RestoreConfigMapName cluster.Name) (Except.ok cm)]⟩) := by
          simp [ensureRestoreConfigMap, hr, callGetConfigMap_store, h, hdata]
        rw [hout]
        refine ⟨fun _ _ hp => hp, fun _ _ => ⟨cm, hfound, hdata⟩, fun _ => ⟨_, rfl, ?_⟩⟩
        intro c hc
        simp at hc
        subst hc
        rfl
      · have hout : ensureRestoreConfigMap d (storeClient sc) cluster labels w
            = callUpdateConfigMap (storeClient sc) (d.NewConfigMapForRestore cluster labels)
                ⟨w.state.step, w.trace ++ [Call.GetConfigMap cluster.Namespace
                  (d.RestoreConfigMapName cluster.Name) (Except.ok cm)]⟩ := by
          simp [ensureRestoreConfigMap, hr, callGetConfigMap_store, h, hdata]
        rw [hout]
        simp only [callUpdateConfigMap, storeClient_updateCm]
        obtain ⟨hu1, hu2, -⟩ := storeUpdate_spec
          (w.state.step.objects.configMaps (d.NewConfigMapForRestore cluster labels).Namespace
            (d.NewConfigMapForRestore cluster labels).Name).isSome
          (d.NewConfigMapForRestore cluster labels).Name
          (w.state.step.objects.putConfigMap (d.NewConfigMapForRestore cluster labels))
          w.state.step
        refine ⟨?_, ?_, ?_⟩
        · intro ns1 name1 hp
          cases hres : (storeUpdate
              (w.state.step.objects.configMaps
                (d.NewConfigMapForRestore cluster labels).Namespace
                (d.NewConfigMapForRestore cluster labels).Name).isSome
              (d.NewConfigMapForRestore cluster labels).Name
              (w.state.step.objects.putConfigMap (d.NewConfigMapForRestore cluster labels))
              w.state.step).1 with
          | none =>
            rw [hu1 hres]
            exact putConfigMap_present _ _ _ _ hp
          | some e =>
            rw [hu2 (by rw [hres]; simp)]
            exact hp
        · intro hnone _
          rw [hu1 hnone]
          exact ⟨_, hlookup _, hcount⟩
        · intro hconv
          obtain ⟨c, hc1, hc2⟩ := hconv trivial
          rw [hfound] at hc1
          cases hc1
          exact (hdata hc2).elim
    | error err =>
      cases hn : IsNotFound err with
      | false =>
        have hout : ensureRestoreConfigMap d (storeClient sc) cluster labels w
            = (some err, ⟨w.state.step, w.trace ++ [Call.GetConfigMap cluster.Namespace
                (d.RestoreConfigMapName cluster.Name) (Except.error err)]⟩) := by
          simp [ensureRestoreConfigMap, hr, callGetConfigMap_store, h, hn]
        rw [hout]
        refine ⟨fun _ _ hp => hp, (fun hnone _ => by simp at hnone), fun _ => ⟨_, rfl, ?_⟩⟩
        intro c hc
        simp at hc
        subst hc
        rfl
      | true =>
        have habs := hnf err h hn
        have hout : ensureRestoreConfigMap d (storeClient sc) cluster labels w
            = callCreateConfigMap (storeClient sc) (d.NewConfigMapForRestore cluster labels)
                ⟨w.state.step, w.trace ++ [Call.GetConfigMap cluster.Namespace
                  (d.RestoreConfigMapName cluster.Name) (Except.error err)]⟩ := by
          simp [ensureRestoreConfigMap, hr, callGetConfigMap_store, h, hn]
        rw [hout]
        simp only [callCreateConfigMap, storeClient_createCm]
        obtain ⟨hu1, hu2, -, -⟩ := storeCreate_spec
          (w.state.step.objects.configMaps (d.NewConfigMapForRestore cluster labels).Namespace
            (d.NewConfigMapForRestore cluster labels).Name).isSome
          (d.NewConfigMapForRestore cluster labels).Name
          (w.state.step.objects.putConfigMap (d.NewConfigMapForRestore cluster labels))
          w.state.step
        refine ⟨?_, ?_, ?_⟩
        · intro ns1 name1 hp
          cases hres : (storeCreate
              (w.state.step.objects.configMaps
                (d.NewConfigMapForRestore cluster labels).Namespace
                (d.NewConfigMapForRestore cluster labels).Name).isSome
              (d.NewConfigMapForRestore cluster labels).Name
              (w.state.step.objects.putConfigMap (d.NewConfigMapForRestore cluster labels))
              w.state.step).1 with
          | none =>
            rw [hu1 hres]
            exact putConfigMap_present _ _ _ _ hp
          | some e =>
            rw [hu2 (by rw [hres]; simp)]
            exact hp
        · intro hnone _
          rw [hu1 hnone]
          exact ⟨_, hlookup _, hcount⟩
        · intro hconv
          obtain ⟨c, hc1, -⟩ := hconv trivial
          rw [habs] at hc1
          cases hc1

/-- The configuration ensure over the store: a return without error leaves the
configuration converged, and on a converged configuration it writes nothing. -/
theorem store_EnsureRedisConfigMap_spec (cluster : DistributedRedisCluster)
    (hB : BuildersAgree d cluster) (labels : Labels) (w : World Store) :
    ((EnsureRedisConfigMap d (storeClient sc) cluster labels w).1 = none →
        configConverged d cluster
          (EnsureRedisConfigMap d (storeClient sc) cluster labels w).2.state.objects) ∧
      (configConverged d cluster w.state.objects →
        ∃ delta, (EnsureRedisConfigMap d (storeClient sc) cluster labels w).2.trace
            = w.trace ++ delta ∧ ∀ c ∈ delta, c.isWrite = false) := by
  obtain ⟨hstep, hok, hnf, -, -, -⟩ := storeGet_spec
    (w.state.objects.configMaps cluster.Namespace (d.RedisConfigMapName cluster.Name))
    (d.RedisConfigMapName cluster.Name) w.state
  cases h : (storeGet (w.state.objects.configMaps cluster.Namespace
      (d.RedisConfigMapName cluster.Name)) (d.RedisConfigMapName cluster.Name)
      w.state).1 with
  | ok cm =>
    have hfound := hok cm h
    have hout : EnsureRedisConfigMap d (storeClient sc) cluster labels w
        = ensureRestoreConfigMap d (storeClient sc) cluster labels
            ⟨w.state.step, w.trace ++ [Call.GetConfigMap cluster.Namespace
              (d.RedisConfigMapName cluster.Name) (Except.ok cm)]⟩ := by
      simp [EnsureRedisConfigMap, callGetConfigMap_store, h]
    rw [hout]
    obtain ⟨hP, hE, hN⟩ := store_ensureRestoreConfigMap_spec d sc cluster hB labels
      ⟨w.state.step, w.trace ++ [Call.GetConfigMap cluster.Namespace
        (d.RedisConfigMapName cluster.Name) (Except.ok cm)]⟩
    refine ⟨fun hnone => ⟨hP _ _ ⟨cm, hfound⟩, hE hnone⟩, ?_⟩
    intro hconv
    obtain ⟨delta, ht, hw⟩ := hN hconv.2
    refine ⟨[Call.GetConfigMap cluster.Namespace (d.RedisConfigMapName cluster.Name)
      (Except.ok cm)] ++ delta, by rw [ht, List.append_assoc], ?_⟩
    intro c hc
    rcases List.mem_append.mp hc with hc | hc
    · simp at hc
      subst hc
      rfl
    · exact hw c hc
  | error err =>
    cases hn : IsNotFound err with
    | false =>
      have hout : EnsureRedisConfigMap d (storeClient sc) cluster labels w
          = (some err, ⟨w.state.step, w.trace ++ [Call.GetConfigMap cluster.Namespace
              (d.RedisConfigMapName cluster.Name) (Except.error err)]⟩) := by
        simp [EnsureRedisConfigMap, callGetConfigMap_store, h, hn]
      rw [hout]
      refine ⟨(fun hnone => by simp at hnone), fun _ => ⟨_, rfl, ?_⟩⟩
      intro c hc
      simp at hc
      subst hc
      rfl
    | true =>
      have habs := hnf err h hn
      have hkey := hB.configMap_key labels
      obtain ⟨hu1, -, -, -⟩ := storeCreate_spec
        (w.state.step.objects.configMaps (d.NewConfigMapForCR cluster labels).Namespace
          (d.NewConfigMapForCR cluster labels).Name).isSome
        (d.NewConfigMapForCR cluster labels).Name
        (w.state.step.objects.putConfigMap (d.NewConfigMapForCR cluster labels))
        w.state.step
      refine ⟨?_, ?_⟩
      · cases hcr : (callCreateConfigMap (storeClient sc) (d.NewConfigMapForCR cluster labels)
            ⟨w.state.step, w.trace ++ [Call.GetConfigMap cluster.Namespace
              (d.RedisConfigMapName cluster.Name) (Except.error err)]⟩).1 with
        | some err2 =>
          have hout : (EnsureRedisConfigMap d (storeClient sc) cluster labels w).1
              = some err2 := by
            simp [EnsureRedisConfigMap, callGetConfigMap_store, h, hn, hcr]
          rw [hout]
          intro hnone
          cases hnone
        | none =>
          have hout : EnsureRedisConfigMap d (storeClient sc) cluster labels w
              = ensureRestoreConfigMap d (storeClient sc) cluster labels
                  (callCreateConfigMap (storeClient sc) (d.NewConfigMapForCR cluster labels)
                    ⟨w.state.step, w.trace ++ [Call.GetConfigMap cluster.Namespace
                      (d.RedisConfigMapName cluster.Name) (Except.error err)]⟩).2 := by
            simp [EnsureRedisConfigMap, callGetConfigMap_store, h, hn, hcr]
          rw [hout]
          obtain ⟨hP, hE, -⟩ := store_ensureRestoreConfigMap_spec d sc cluster hB labels
            (callCreateConfigMap (storeClient sc) (d.NewConfigMapForCR cluster labels)
              ⟨w.state.step, w.trace ++ [Call.GetConfigMap cluster.Namespace
                (d.RedisConfigMapName cluster.Name) (Except.error err)]⟩).2
          intro hnone
          refine ⟨hP _ _ ?_, hE hnone⟩
          simp only [callCreateConfigMap, storeClient_createCm] at hcr ⊢
          rw [hu1 hcr]
          refine ⟨d.NewConfigMapForCR cluster labels, ?_⟩
          simp [Objects.putConfigMap, hkey.1, hkey.2]
      · rintro ⟨⟨c, hc⟩, -⟩
        rw [habs] at hc
        cases hc

end StoreConfig

/-! ## Idempotence -/

/-- The example builders agree with the ensurers on the restoring cluster `x`. -/
theorem exampleBuildersAgree : BuildersAgree exampleCollaborators restoringCluster where
  statefulSet_key := by
    intro name svcName labels ss h
    cases h
    exact ⟨rfl, rfl⟩
  statefulSet_fresh := by
    intro name svcName labels ss h
    cases h
    rfl
  pdb_key := fun _ _ => ⟨rfl, rfl⟩
  headless_key := fun _ _ => ⟨rfl, rfl⟩
  svc_key := fun _ _ => ⟨rfl, rfl⟩
  configMap_key := fun _ => ⟨rfl, rfl⟩
  restore_key := fun _ => ⟨rfl, rfl⟩
  restore_count := fun _ => rfl

/-- C4 fails as stated for `EnsureRedisOSMSecret`: over the store, for cluster `x`
restoring from a backup and not yet restored, the first invocation succeeds and stores
the secret, and the second invocation, with nothing changed in between, issues a create
call again. -/
theorem EnsureRedisOSMSecret_second_call_creates :
    (EnsureRedisOSMSecret exampleCollaborators (storeClient storeSecretClient)
        restoringCluster noLabels (freshWorld emptyStore)).1 = none ∧
      (newCalls
          (EnsureRedisOSMSecret exampleCollaborators (storeClient storeSecretClient)
            restoringCluster noLabels (freshWorld emptyStore)).2
          (EnsureRedisOSMSecret exampleCollaborators (storeClient storeSecretClient)
            restoringCluster noLabels
            (EnsureRedisOSMSecret exampleCollaborators (storeClient storeSecretClient)
              restoringCluster noLabels (freshWorld emptyStore)).2).2).filter Call.isCreate
        = [Call.CreateSecret
            ⟨"default", "osmconfig-b", fun k => if k = "backend" then some "s3" else none⟩
            none] :=
  ⟨rfl, rfl⟩

/-- C4, as amended. Over the object store, with builders that agree with the ensurers:
when a first invocation of `EnsureRedisStatefulsets`, `EnsureRedisHeadLessSvcs`,
`EnsureRedisSvc` or `EnsureRedisConfigMap` returns no error, a second invocation that
starts where the first ended (same store, same mutated label mapping) issues no create
and no update call, and `EnsureRedisStatefulsets` returns `updated = false`.
`EnsureRedisOSMSecret` issues no call when the cluster is not restoring or is restored,
and otherwise issues the create of the derived secret on every invocation whose
derivation succeeds. -/
theorem ensure_twice_no_writes (d : Collaborators) (sc : SecretClient Store)
    (cluster : DistributedRedisCluster) (labels : Labels) (w : World Store)
    (hB : BuildersAgree d cluster) :
    (∀ b, (EnsureRedisStatefulsets d (storeClient sc) cluster labels w).1
          = Res.ret (b, none) →
        (∃ e, (EnsureRedisStatefulsets d (storeClient sc) cluster
            (EnsureRedisStatefulsets d (storeClient sc) cluster labels w).2.1
            (EnsureRedisStatefulsets d (storeClient sc) cluster labels w).2.2).1
            = Res.ret (false, e)) ∧
          ∀ c ∈ newCalls (EnsureRedisStatefulsets d (storeClient sc) cluster labels w).2.2
              (EnsureRedisStatefulsets d (storeClient sc) cluster
                (EnsureRedisStatefulsets d (storeClient sc) cluster labels w).2.1
                (EnsureRedisStatefulsets d (storeClient sc) cluster labels w).2.2).2.2,
            c.isWrite = false) ∧
      ((EnsureRedisHeadLessSvcs d (storeClient sc) cluster labels w).1 = none →
        ∀ c ∈ newCalls (EnsureRedisHeadLessSvcs d (storeClient sc) cluster labels w).2.2
            (EnsureRedisHeadLessSvcs d (storeClient sc) cluster
              (EnsureRedisHeadLessSvcs d (storeClient sc) cluster labels w).2.1
              (EnsureRedisHeadLessSvcs d (storeClient sc) cluster labels w).2.2).2.2,
          c.isWrite = false) ∧
      ((EnsureRedisSvc d (storeClient sc) cluster labels w).1 = none →
        ∀ c ∈ newCalls (EnsureRedisSvc d (storeClient sc) cluster labels w).2.2
            (EnsureRedisSvc d (storeClient sc) cluster
              (EnsureRedisSvc d (storeClient sc) cluster labels w).2.1
              (EnsureRedisSvc d (storeClient sc) cluster labels w).2.2).2.2,
          c.isWrite = false) ∧
      ((EnsureRedisConfigMap d (storeClient sc) cluster labels w).1 = none →
        ∀ c ∈ newCalls (EnsureRedisConfigMap d (storeClient sc) cluster labels w).2
            (EnsureRedisConfigMap d (storeClient sc) cluster labels
              (EnsureRedisConfigMap d (storeClient sc) cluster labels w).2).2,
          c.isWrite = false) ∧
      ((d.IsRestoreFromBackup cluster = false ∨ d.IsRestored cluster = true) →
        EnsureRedisOSMSecret d (storeClient sc) cluster labels w = (none, w)) ∧
      (d.IsRestoreFromBackup cluster = true → d.IsRestored cluster = false →
        ∀ secret, (sc.NewCephSecret (d.OSMSecretName cluster.Status.Restore.Backup)
            cluster.Namespace cluster.Status.Restore.Backup.Spec.Backend w.state).1
            = Except.ok secret →
          ∃ res, Call.CreateSecret secret res
            ∈ newCalls w (EnsureRedisOSMSecret d (storeClient sc) cluster labels w).2) := by
  refine ⟨?_, ?_, ?_, ?_, ?_, ?_⟩
  · intro b h
    have hconv := store_loop_establishes d sc cluster hB
      (Int.toNat cluster.Spec.MasterSize) 0 false b labels w h (fun j hj => by omega)
    obtain ⟨he, delta, ht, hw⟩ := store_loop_noop d sc cluster hB
      (Int.toNat cluster.Spec.MasterSize) 0
      (EnsureRedisStatefulsets d (storeClient sc) cluster labels w).2.1
      (EnsureRedisStatefulsets d (storeClient sc) cluster labels w).2.2
      (fun j _ hj => hconv j hj)
    refine ⟨he, ?_⟩
    intro c hc
    have hnew := newCalls_of_append _ _ delta ht
    exact hw c (by rw [← hnew]; exact hc)
  · intro h
    have hconv := store_headless_loop_establishes d sc cluster hB
      (Int.toNat cluster.Spec.MasterSize) 0 labels w h (fun j hj => by omega)
    obtain ⟨delta, ht, hw⟩ := store_headless_loop_noop d sc cluster hB
      (Int.toNat cluster.Spec.MasterSize) 0
      (EnsureRedisHeadLessSvcs d (storeClient sc) cluster labels w).2.1
      (EnsureRedisHeadLessSvcs d (storeClient sc) cluster labels w).2.2
      (fun j _ hj => hconv j hj)
    intro c hc
    have hnew := newCalls_of_append _ _ delta ht
    exact hw c (by rw [← hnew]; exact hc)
  · intro h
    have hpresent := (store_EnsureRedisSvc_spec d sc cluster hB labels w).1 h
    obtain ⟨delta, ht, hw⟩ := (store_EnsureRedisSvc_spec d sc cluster hB
      (EnsureRedisSvc d (storeClient sc) cluster labels w).2.1
      (EnsureRedisSvc d (storeClient sc) cluster labels w).2.2).2 hpresent
    rw [newCalls_of_append _ _ delta ht]
    exact hw
  · intro h
    have hconv := (store_EnsureRedisConfigMap_spec d sc cluster hB labels w).1 h
    obtain ⟨delta, ht, hw⟩ := (store_EnsureRedisConfigMap_spec d sc cluster hB labels
      (EnsureRedisConfigMap d (storeClient sc) cluster labels w).2).2 hconv
    rw [newCalls_of_append _ _ delta ht]
    exact hw
  · intro h
    rcases h with h | h
    · simp [EnsureRedisOSMSecret, h]
    · simp [EnsureRedisOSMSecret, h]
  · intro h1 h2 secret hs
    have hs1 : ((storeClient sc).client.NewCephSecret
        (d.OSMSecretName cluster.Status.Restore.Backup) cluster.Namespace
        cluster.Status.Restore.Backup.Spec.Backend w.state).1 = Except.ok secret := hs
    refine ⟨((storeClient sc).client.CreateSecret secret
      ((storeClient sc).client.NewCephSecret
        (d.OSMSecretName cluster.Status.Restore.Backup) cluster.Namespace
        cluster.Status.Restore.Backup.Spec.Backend w.state).2).1, ?_⟩
    have ht : (EnsureRedisOSMSecret d (storeClient sc) cluster labels w).2.trace
        = w.trace ++ [Call.NewCephSecret (d.OSMSecretName cluster.Status.Restore.Backup)
            cluster.Namespace cluster.Status.Restore.Backup.Spec.Backend (Except.ok secret),
          Call.CreateSecret secret ((storeClient sc).client.CreateSecret secret
            ((storeClient sc).client.NewCephSecret
              (d.OSMSecretName cluster.Status.Restore.Backup) cluster.Namespace
              cluster.Status.Restore.Backup.Spec.Backend w.state).2).1] := by
      simp only [EnsureRedisOSMSecret, h1, h2, callNewCephSecret, callCreateSecret, hs1]
      cases hc : ((storeClient sc).client.CreateSecret secret
          ((storeClient sc).client.NewCephSecret
            (d.OSMSecretName cluster.Status.Restore.Backup) cluster.Namespace
            cluster.Status.Restore.Backup.Spec.Backend w.state).2).1 <;> simp
    rw [newCalls_of_append _ _ _ ht]
    simp

/-- C4 as amended, at the restoring cluster `x` over the empty store. -/
theorem ensure_twice_no_writes_witness :
    (∀ b, (EnsureRedisStatefulsets exampleCollaborators (storeClient storeSecretClient)
          restoringCluster noLabels (freshWorld emptyStore)).1 = Res.ret (b, none) →
        (∃ e, (EnsureRedisStatefulsets exampleCollaborators (storeClient storeSecretClient)
            restoringCluster
            (EnsureRedisStatefulsets exampleCollaborators (storeClient storeSecretClient)
              restoringCluster noLabels (freshWorld emptyStore)).2.1
            (EnsureRedisStatefulsets exampleCollaborators (storeClient storeSecretClient)
              restoringCluster noLabels (freshWorld emptyStore)).2.2).1
            = Res.ret (false, e)) ∧
          ∀ c ∈ newCalls
              (EnsureRedisStatefulsets exampleCollaborators (storeClient storeSecretClient)
                restoringCluster noLabels (freshWorld emptyStore)).2.2
              (EnsureRedisStatefulsets exampleCollaborators (storeClient storeSecretClient)
                restoringCluster
                (EnsureRedisStatefulsets exampleCollaborators
                  (storeClient storeSecretClient) restoringCluster noLabels
                  (freshWorld emptyStore)).2.1
                (EnsureRedisStatefulsets exampleCollaborators
                  (storeClient storeSecretClient) restoringCluster noLabels
                  (freshWorld emptyStore)).2.2).2.2,
            c.isWrite = false) ∧
      (EnsureRedisStatefulsets exampleCollaborators (storeClient storeSecretClient)
          restoringCluster noLabels (freshWorld emptyStore)).1 = Res.ret (false, none) ∧
      (EnsureRedisConfigMap exampleCollaborators (storeClient storeSecretClient)
          restoringCluster noLabels (freshWorld emptyStore)).1 = none ∧
      ∀ c ∈ newCalls
          (EnsureRedisConfigMap exampleCollaborators (storeClient storeSecretClient)
            restoringCluster noLabels (freshWorld emptyStore)).2
          (EnsureRedisConfigMap exampleCollaborators (storeClient storeSecretClient)
            restoringCluster noLabels
            (EnsureRedisConfigMap exampleCollaborators (storeClient storeSecretClient)
              restoringCluster noLabels (freshWorld emptyStore)).2).2,
        c.isWrite = false :=
  ⟨(ensure_twice_no_writes exampleCollaborators storeSecretClient restoringCluster noLabels
      (freshWorld emptyStore) exampleBuildersAgree).1,
    rfl, rfl,
    (ensure_twice_no_writes exampleCollaborators storeSecretClient restoringCluster noLabels
      (freshWorld emptyStore) exampleBuildersAgree).2.2.2.1 rfl⟩

/-! ## Error paths of the configuration and credential ensurers -/

section ErrorPaths

variable {σ : Type}

/-- C14. In `EnsureRedisConfigMap`: when the fetch of the primary configuration fails with
an error that is not a not-found error, that error is returned and the get is the only
call (no create, no update, no fetch of the restore configuration); when the fetch fails
with a not-found error and the create of the primary configuration fails, the create's
error is returned and the get and the create are the only calls (the restore sub-flow is
not entered). -/
theorem EnsureRedisConfigMap_primary_errors (d : Collaborators) (r : realEnsureResource σ)
    (cluster : DistributedRedisCluster) (labels : Labels) (w : World σ) :
    (∀ err, (r.configMapClient.GetConfigMap cluster.Namespace
          (d.RedisConfigMapName cluster.Name) w.state).1 = Except.error err →
        IsNotFound err = false →
        (EnsureRedisConfigMap d r cluster labels w).1 = some err ∧
          newCalls w (EnsureRedisConfigMap d r cluster labels w).2
            = [Call.GetConfigMap cluster.Namespace (d.RedisConfigMapName cluster.Name)
                (Except.error err)]) ∧
      (∀ err err2, (r.configMapClient.GetConfigMap cluster.Namespace
          (d.RedisConfigMapName cluster.Name) w.state).1 = Except.error err →
        IsNotFound err = true →
        (r.configMapClient.CreateConfigMap (d.NewConfigMapForCR cluster labels)
          (r.configMapClient.GetConfigMap cluster.Namespace
            (d.RedisConfigMapName cluster.Name) w.state).2).1 = some err2 →
        (EnsureRedisConfigMap d r cluster labels w).1 = some err2 ∧
          newCalls w (EnsureRedisConfigMap d r cluster labels w).2
            = [Call.GetConfigMap cluster.Namespace (d.RedisConfigMapName cluster.Name)
                (Except.error err),
              Call.CreateConfigMap (d.NewConfigMapForCR cluster labels) (some err2)]) := by
  constructor
  · intro err hget hnf
    have hout : EnsureRedisConfigMap d r cluster labels w
        = (some err, ⟨(r.configMapClient.GetConfigMap cluster.Namespace
            (d.RedisConfigMapName cluster.Name) w.state).2,
          w.trace ++ [Call.GetConfigMap cluster.Namespace (d.RedisConfigMapName cluster.Name)
            (Except.error err)]⟩) := by
      simp [EnsureRedisConfigMap, callGetConfigMap, hget, hnf]
    rw [hout]
    exact ⟨rfl, newCalls_of_append _ _ _ rfl⟩
  · intro err err2 hget hnf hcreate
    have hout : EnsureRedisConfigMap d r cluster labels w
        = (some err2, ⟨(r.configMapClient.CreateConfigMap (d.NewConfigMapForCR cluster labels)
            (r.configMapClient.GetConfigMap cluster.Namespace
              (d.RedisConfigMapName cluster.Name) w.state).2).2,
          w.trace ++ [Call.GetConfigMap cluster.Namespace (d.RedisConfigMapName cluster.Name)
            (Except.error err),
            Call.CreateConfigMap (d.NewConfigMapForCR cluster labels) (some err2)]⟩) := by
      simp [EnsureRedisConfigMap, callGetConfigMap, callCreateConfigMap, hget, hnf, hcreate]
    rw [hout]
    exact ⟨rfl, newCalls_of_append _ _ _ rfl⟩

/-- C15. `EnsureRedisOSMSecret` returns no error and issues no call (the world is
unchanged) unless the cluster is restoring from a backup and not yet restored; when it
is, an error of the derivation is returned and the derivation is the only call, and
otherwise the result is the result of the one creation call that follows. -/
theorem EnsureRedisOSMSecret_spec (d : Collaborators) (r : realEnsureResource σ)
    (cluster : DistributedRedisCluster) (labels : Labels) (w : World σ) :
    ((d.IsRestoreFromBackup cluster = false ∨ d.IsRestored cluster = true) →
        EnsureRedisOSMSecret d r cluster labels w = (none, w)) ∧
      (d.IsRestoreFromBackup cluster = true → d.IsRestored cluster = false →
        (∀ err, (r.client.NewCephSecret (d.OSMSecretName cluster.Status.Restore.Backup)
              cluster.Namespace cluster.Status.Restore.Backup.Spec.Backend w.state).1
              = Except.error err →
            (EnsureRedisOSMSecret d r cluster labels w).1 = some err ∧
              newCalls w (EnsureRedisOSMSecret d r cluster labels w).2
                = [Call.NewCephSecret (d.OSMSecretName cluster.Status.Restore.Backup)
                    cluster.Namespace cluster.Status.Restore.Backup.Spec.Backend
                    (Except.error err)]) ∧
          (∀ secret, (r.client.NewCephSecret (d.OSMSecretName cluster.Status.Restore.Backup)
              cluster.Namespace cluster.Status.Restore.Backup.Spec.Backend w.state).1
              = Except.ok secret →
            (EnsureRedisOSMSecret d r cluster labels w).1
                = (r.client.CreateSecret secret
                    (r.client.NewCephSecret (d.OSMSecretName cluster.Status.Restore.Backup)
                      cluster.Namespace cluster.Status.Restore.Backup.Spec.Backend
                      w.state).2).1 ∧
              newCalls w (EnsureRedisOSMSecret d r cluster labels w).2
                = [Call.NewCephSecret (d.OSMSecretName cluster.Status.Restore.Backup)
                    cluster.Namespace cluster.Status.Restore.Backup.Spec.Backend
                    (Except.ok secret),
                  Call.CreateSecret secret
                    (r.client.CreateSecret secret
                      (r.client.NewCephSecret
                        (d.OSMSecretName cluster.Status.Restore.Backup)
                        cluster.Namespace cluster.Status.Restore.Backup.Spec.Backend
                        w.state).2).1])) := by
  refine ⟨?_, ?_⟩
  · intro h
    rcases h with h | h
    · simp [EnsureRedisOSMSecret, h]
    · simp [EnsureRedisOSMSecret, h]
  · intro h1 h2
    refine ⟨?_, ?_⟩
    · intro err hd
      have hout : EnsureRedisOSMSecret d r cluster labels w
          = (some err, ⟨(r.client.NewCephSecret
              (d.OSMSecretName cluster.Status.Restore.Backup) cluster.Namespace
              cluster.Status.Restore.Backup.Spec.Backend w.state).2,
            w.trace ++ [Call.NewCephSecret (d.OSMSecretName cluster.Status.Restore.Backup)
              cluster.Namespace cluster.Status.Restore.Backup.Spec.Backend
              (Except.error err)]⟩) := by
        simp [EnsureRedisOSMSecret, callNewCephSecret, h1, h2, hd]
      rw [hout]
      exact ⟨rfl, newCalls_of_append _ _ _ rfl⟩
    · intro secret hd
      have hout : EnsureRedisOSMSecret d r cluster labels w
          = ((r.client.CreateSecret secret
              (r.client.NewCephSecret (d.OSMSecretName cluster.Status.Restore.Backup)
                cluster.Namespace cluster.Status.Restore.Backup.Spec.Backend
                w.state).2).1,
            ⟨(r.client.CreateSecret secret
              (r.client.NewCephSecret (d.OSMSecretName cluster.Status.Restore.Backup)
                cluster.Namespace cluster.Status.Restore.Backup.Spec.Backend
                w.state).2).2,
            w.trace ++ [Call.NewCephSecret (d.OSMSecretName cluster.Status.Restore.Backup)
              cluster.Namespace cluster.Status.Restore.Backup.Spec.Backend
              (Except.ok secret),
              Call.CreateSecret secret
                (r.client.CreateSecret secret
                  (r.client.NewCephSecret (d.OSMSecretName cluster.Status.Restore.Backup)
                    cluster.Namespace cluster.Status.Restore.Backup.Spec.Backend
                    w.state).2).1]⟩) := by
        simp only [EnsureRedisOSMSecret, callNewCephSecret, callCreateSecret, h1, h2, hd]
        cases (r.client.CreateSecret secret
          (r.client.NewCephSecret (d.OSMSecretName cluster.Status.Restore.Backup)
            cluster.Namespace cluster.Status.Restore.Backup.Spec.Backend
            w.state).2).1 <;> simp
      rw [hout]
      exact ⟨rfl, newCalls_of_append _ _ _ rfl⟩

end ErrorPaths

/-! ## Safety and the credential check of the staleness predicate -/

theorem getSecretKeyRefByKey_of_first (key : String) (envSet : List EnvVar) (name : String)
    (h : firstSecretRef key envSet name) : getSecretKeyRefByKey key envSet = name := by
  obtain ⟨pre, v, post, ref, henv, hname, hfrom, href, hpre⟩ := h
  subst henv
  induction pre with
  | nil =>
    simp [getSecretKeyRefByKey, hname, hfrom, href]
  | cons u us ih =>
    have hu := hpre u (List.mem_cons_self _ _)
    have ih1 := ih (fun x hx => hpre x (List.mem_cons_of_mem _ hx))
    simp only [List.cons_append, getSecretKeyRefByKey]
    by_cases hk : key = u.Name
    · simp only [hk, if_true]
      cases hvf : u.ValueFrom with
      | none =>
        simp only []
        rw [← hk]
        exact ih1
      | some vf =>
        cases hsk : vf.SecretKeyRef with
        | none =>
          simp only [hsk]
          rw [← hk]
          exact ih1
        | some r0 =>
          exfalso
          apply hu
          refine ⟨hk.symm, r0, ?_⟩
          rw [hvf]
          cases vf
          simp only at hsk
          rw [hsk]
    · simp only [hk, if_false]
      exact ih1

theorem firstSecretRef_of_getSecretKeyRefByKey (key : String) (envSet : List EnvVar)
    (h : getSecretKeyRefByKey key envSet ≠ "") :
    firstSecretRef key envSet (getSecretKeyRefByKey key envSet) := by
  induction envSet with
  | nil => simp [getSecretKeyRefByKey] at h
  | cons u us ih =>
    have hcons : ∀ n, ¬ (u.Name = key ∧ ∃ r, u.ValueFrom = some ⟨some r⟩) →
        firstSecretRef key us n → firstSecretRef key (u :: us) n := by
      intro n hu ⟨pre, v, post, ref, henv, hname, hfrom, href, hpre⟩
      refine ⟨u :: pre, v, post, ref, by rw [henv]; rfl, hname, hfrom, href, ?_⟩
      intro x hx
      rcases List.mem_cons.mp hx with hx | hx
      · rw [hx]; exact hu
      · exact hpre x hx
    simp only [getSecretKeyRefByKey] at h ⊢
    by_cases hk : key = u.Name
    · simp only [hk, if_true] at h ⊢
      cases hvf : u.ValueFrom with
      | none =>
        simp only [hvf] at h ⊢
        rw [← hk] at h ⊢
        refine hcons _ ?_ (ih h)
        rintro ⟨-, r, hr⟩
        rw [hvf] at hr
        cases hr
      | some vf =>
        cases hsk : vf.SecretKeyRef with
        | none =>
          simp only [hvf, hsk] at h ⊢
          rw [← hk] at h ⊢
          refine hcons _ ?_ (ih h)
          rintro ⟨-, r, hr⟩
          rw [hvf] at hr
          simp only [Option.some.injEq] at hr
          rw [hr] at hsk
          cases hsk
        | some r0 =>
          simp only [hvf, hsk]
          refine ⟨[], u, us, r0, rfl, rfl, ?_, rfl, by simp⟩
          rw [hvf]
          cases vf
          simp only at hsk
          rw [hsk]
    · simp only [hk, if_false] at h ⊢
      refine hcons _ ?_ (ih h)
      rintro ⟨hn, -⟩
      exact hk hn.symm

theorem getSecretKeyRefByKey_mem (key : String) (envSet : List EnvVar)
    (h : getSecretKeyRefByKey key envSet ≠ "") :
    ∃ v ∈ envSet, ∃ ref, v.ValueFrom = some ⟨some ref⟩ ∧
      ref.Name = getSecretKeyRefByKey key envSet := by
  obtain ⟨pre, v, post, ref, henv, -, hfrom, href, -⟩ :=
    firstSecretRef_of_getSecretKeyRefByKey key envSet h
  exact ⟨v, by rw [henv]; simp, ref, hfrom, href⟩

theorem shouldUpdateRedis_of_match (d : Collaborators) (cluster : DistributedRedisCluster)
    (sts : StatefulSet) (replicas : Int) (c0 : Container) (rest : List Container)
    (hrep : sts.Spec.Replicas = some replicas)
    (hcs : sts.Spec.Template.Spec.Containers = c0 :: rest)
    (hreplicas : wrapInt32 (cluster.Spec.ClusterReplicas + 1) = replicas)
    (himage : cluster.Spec.Image = c0.Image)
    (h1 : cluster.Spec.Resources.Requests.Memory.Cmp c0.Resources.Requests.Memory = 0)
    (h2 : cluster.Spec.Resources.Requests.Cpu.Cmp c0.Resources.Requests.Cpu = 0)
    (h3 : cluster.Spec.Resources.Limits.Memory.Cmp c0.Resources.Limits.Memory = 0)
    (h4 : cluster.Spec.Resources.Limits.Cpu.Cmp c0.Resources.Limits.Cpu = 0) :
    shouldUpdateRedis d cluster sts = Res.ret (passwordSecretDiffers d cluster c0) := by
  unfold shouldUpdateRedis
  rw [hrep]
  simp only [hcs]
  cases hp : passwordSecretDiffers d cluster c0 <;> simp [hreplicas, himage, h1, h2, h3, h4]

/-- C12, as amended. For a cluster with a credential secret configured and an observed
workload group whose replica count, image and resources match, `shouldUpdateRedis`
returns `false` exactly when the first variable of the first container's environment
that is named `PasswordENV` and bound to a secret key reference is bound to the
configured secret name and that name is not empty; otherwise it returns `true`, in
particular when no variable is bound to a secret key reference with the configured
name. -/
theorem shouldUpdateRedis_password (d : Collaborators) (cluster : DistributedRedisCluster)
    (sts : StatefulSet) (replicas : Int) (c0 : Container) (rest : List Container)
    (passwordSecret : LocalObjectReference)
    (hps : cluster.Spec.PasswordSecret = some passwordSecret)
    (hrep : sts.Spec.Replicas = some replicas)
    (hcs : sts.Spec.Template.Spec.Containers = c0 :: rest)
    (hreplicas : wrapInt32 (cluster.Spec.ClusterReplicas + 1) = replicas)
    (himage : cluster.Spec.Image = c0.Image)
    (h1 : cluster.Spec.Resources.Requests.Memory.Cmp c0.Resources.Requests.Memory = 0)
    (h2 : cluster.Spec.Resources.Requests.Cpu.Cmp c0.Resources.Requests.Cpu = 0)
    (h3 : cluster.Spec.Resources.Limits.Memory.Cmp c0.Resources.Limits.Memory = 0)
    (h4 : cluster.Spec.Resources.Limits.Cpu.Cmp c0.Resources.Limits.Cpu = 0) :
    (shouldUpdateRedis d cluster sts = Res.ret false ↔
        (passwordSecret.Name ≠ "" ∧
          firstSecretRef d.PasswordENV c0.Env passwordSecret.Name)) ∧
      (shouldUpdateRedis d cluster sts = Res.ret false ∨
        shouldUpdateRedis d cluster sts = Res.ret true) ∧
      ((¬ ∃ v ∈ c0.Env, ∃ ref, v.ValueFrom = some ⟨some ref⟩ ∧
          ref.Name = passwordSecret.Name) →
        shouldUpdateRedis d cluster sts = Res.ret true) := by
  rw [shouldUpdateRedis_of_match d cluster sts replicas c0 rest hrep hcs hreplicas himage
    h1 h2 h3 h4]
  have hdiff : passwordSecretDiffers d cluster c0 = false ↔
      (getSecretKeyRefByKey d.PasswordENV c0.Env ≠ "" ∧
        getSecretKeyRefByKey d.PasswordENV c0.Env = passwordSecret.Name) := by
    unfold passwordSecretDiffers
    rw [hps]
    by_cases e1 : getSecretKeyRefByKey d.PasswordENV c0.Env = ""
    · simp [e1]
    · by_cases e2 : getSecretKeyRefByKey d.PasswordENV c0.Env = passwordSecret.Name
      · simp [e1, e2]
      · simp [e1, e2]
  refine ⟨?_, ?_, ?_⟩
  · constructor
    · intro h
      have hf : passwordSecretDiffers d cluster c0 = false := by
        simpa using h
      obtain ⟨hne, heq⟩ := hdiff.mp hf
      refine ⟨by rw [← heq]; exact hne, ?_⟩
      rw [← heq]
      exact firstSecretRef_of_getSecretKeyRefByKey _ _ hne
    · rintro ⟨hne, hfirst⟩
      have heq := getSecretKeyRefByKey_of_first _ _ _ hfirst
      have hf : passwordSecretDiffers d cluster c0 = false :=
        hdiff.mpr ⟨by rw [heq]; exact hne, heq⟩
      rw [hf]
  · cases passwordSecretDiffers d cluster c0
    · exact Or.inl rfl
    · exact Or.inr rfl
  · intro hnone
    cases hp : passwordSecretDiffers d cluster c0 with
    | true => rfl
    | false =>
      obtain ⟨hne, heq⟩ := hdiff.mp hp
      obtain ⟨v, hv, ref, hfrom, href⟩ := getSecretKeyRefByKey_mem _ _ hne
      exact (hnone ⟨v, hv, ref, hfrom, by rw [href, heq]⟩).elim

/-- C12 fails as stated: the first container's environment holds a variable bound to a
secret key reference whose secret name is the configured one, under another variable
name than `PasswordENV`; replica count, image and resources match; `shouldUpdateRedis`
returns `true`. -/
theorem shouldUpdateRedis_other_variable :
    (∃ v ∈ [secretEnv "OTHER" "redis-secret"], ∃ ref,
        v.ValueFrom = some ⟨some ref⟩ ∧ ref.Name = "redis-secret") ∧
      passwordCluster.Spec.PasswordSecret = some ⟨"redis-secret"⟩ ∧
      shouldUpdateRedis exampleCollaborators passwordCluster
        (stsWithEnv [secretEnv "OTHER" "redis-secret"]) = Res.ret true :=
  ⟨⟨secretEnv "OTHER" "redis-secret", List.mem_singleton_self _, ⟨"redis-secret", "password"⟩,
    rfl, rfl⟩, rfl, rfl⟩

/-- C12 as amended, at cluster `x` with the secret `redis-secret` and an environment
whose `REDIS_PASSWORD` variable is bound to that secret. -/
theorem shouldUpdateRedis_password_witness :
    (shouldUpdateRedis exampleCollaborators passwordCluster
          (stsWithEnv [secretEnv "REDIS_PASSWORD" "redis-secret"]) = Res.ret false ↔
        ((⟨"redis-secret"⟩ : LocalObjectReference).Name ≠ "" ∧
          firstSecretRef exampleCollaborators.PasswordENV
            [secretEnv "REDIS_PASSWORD" "redis-secret"]
            (⟨"redis-secret"⟩ : LocalObjectReference).Name)) ∧
      (shouldUpdateRedis exampleCollaborators passwordCluster
          (stsWithEnv [secretEnv "REDIS_PASSWORD" "redis-secret"]) = Res.ret false ∨
        shouldUpdateRedis exampleCollaborators passwordCluster
          (stsWithEnv [secretEnv "REDIS_PASSWORD" "redis-secret"]) = Res.ret true) ∧
      ((¬ ∃ v ∈ [secretEnv "REDIS_PASSWORD" "redis-secret"], ∃ ref,
          v.ValueFrom = some ⟨some ref⟩ ∧
            ref.Name = (⟨"redis-secret"⟩ : LocalObjectReference).Name) →
        shouldUpdateRedis exampleCollaborators passwordCluster
          (stsWithEnv [secretEnv "REDIS_PASSWORD" "redis-secret"]) = Res.ret true) :=
  shouldUpdateRedis_password exampleCollaborators passwordCluster
    (stsWithEnv [secretEnv "REDIS_PASSWORD" "redis-secret"]) 2
    ⟨"redis:5.0.4", [secretEnv "REDIS_PASSWORD" "redis-secret"], noResources⟩ []
    ⟨"redis-secret"⟩ rfl rfl rfl (by decide) rfl (by decide) (by decide) (by decide)
    (by decide)

/-- C19. For an observed workload group with a replica count and a first container,
`shouldUpdateRedis` returns a boolean (it does not panic); a resource list without a
`memory` or `cpu` entry yields the zero quantity, and when neither the cluster nor the
container has such entries the four comparisons are zero, so that a group matching in
replica count, image and credential is not stale. -/
theorem shouldUpdateRedis_total (d : Collaborators) (cluster : DistributedRedisCluster)
    (sts : StatefulSet) (replicas : Int) (c0 : Container) (rest : List Container)
    (hrep : sts.Spec.Replicas = some replicas)
    (hcs : sts.Spec.Template.Spec.Containers = c0 :: rest) :
    (∃ b : Bool, shouldUpdateRedis d cluster sts = Res.ret b) ∧
      (∀ rl : ResourceList, (rl "memory" = none → rl.Memory = ⟨0⟩) ∧
        (rl "cpu" = none → rl.Cpu = ⟨0⟩)) ∧
      (cluster.Spec.Resources.Requests "memory" = none →
        cluster.Spec.Resources.Requests "cpu" = none →
        cluster.Spec.Resources.Limits "memory" = none →
        cluster.Spec.Resources.Limits "cpu" = none →
        c0.Resources.Requests "memory" = none → c0.Resources.Requests "cpu" = none →
        c0.Resources.Limits "memory" = none → c0.Resources.Limits "cpu" = none →
        wrapInt32 (cluster.Spec.ClusterReplicas + 1) = replicas →
        cluster.Spec.Image = c0.Image →
        passwordSecretDiffers d cluster c0 = false →
        shouldUpdateRedis d cluster sts = Res.ret false) := by
  refine ⟨?_, ?_, ?_⟩
  · unfold shouldUpdateRedis
    rw [hrep]
    simp only [hcs]
    split_ifs <;> exact ⟨_, rfl⟩
  · intro rl
    constructor
    · intro h
      simp [ResourceList.Memory, h]
    · intro h
      simp [ResourceList.Cpu, h]
  · intro a1 a2 a3 a4 b1 b2 b3 b4 hreplicas himage hpw
    rw [shouldUpdateRedis_of_match d cluster sts replicas c0 rest hrep hcs hreplicas himage
      (by simp [ResourceList.Memory, a1, b1, Quantity.Cmp])
      (by simp [ResourceList.Cpu, a2, b2, Quantity.Cmp])
      (by simp [ResourceList.Memory, a3, b3, Quantity.Cmp])
      (by simp [ResourceList.Cpu, a4, b4, Quantity.Cmp]), hpw]

/-- C19 at cluster `x` and a matching workload group, neither with requests or limits. -/
theorem shouldUpdateRedis_total_witness :
    (∃ b : Bool, shouldUpdateRedis exampleCollaborators exampleCluster (exampleSts 2)
        = Res.ret b) ∧
      shouldUpdateRedis exampleCollaborators exampleCluster (exampleSts 2) = Res.ret false :=
  ⟨(shouldUpdateRedis_total exampleCollaborators exampleCluster (exampleSts 2) 2
      ⟨"redis:5.0.4", [], noResources⟩ [] rfl rfl).1,
    (shouldUpdateRedis_total exampleCollaborators exampleCluster (exampleSts 2) 2
      ⟨"redis:5.0.4", [], noResources⟩ [] rfl rfl).2.2 rfl rfl rfl rfl rfl rfl rfl rfl
      (by decide) rfl rfl⟩

/-! ## The label mapping and the fail-fast exit of the shard loops -/

theorem shardLabels_frame (d : Collaborators) (cluster : DistributedRedisCluster)
    (labels : Labels) (i : Nat) :
    (∀ k, k ≠ d.StatefulSetLabel → k ≠ "app.kubernetes.io/component" →
        shardLabels d cluster labels i k = labels k) ∧
      (d.StatefulSetLabel ≠ "app.kubernetes.io/component" →
        shardLabels d cluster labels i d.StatefulSetLabel
          = some (d.ClusterStatefulSetName cluster.Name i)) := by
  constructor
  · intro k h1 h2
    simp [shardLabels, Labels.set, h1, h2]
  · intro h
    simp [shardLabels, Labels.set, h]

section LoopLabels

variable {σ : Type} (d : Collaborators) (r : realEnsureResource σ)

/-- After a shard loop that returned no error, the mapping is the one assigned in the
last iteration. -/
theorem EnsureRedisStatefulsetsLoop_labels (cluster : DistributedRedisCluster) :
    ∀ (k i : Nat) (updated b : Bool) (labels : Labels) (w : World σ),
      (EnsureRedisStatefulsetsLoop d r cluster i (k + 1) updated labels w).1
          = Res.ret (b, none) →
      (EnsureRedisStatefulsetsLoop d r cluster i (k + 1) updated labels w).2.1
        = shardLabels d cluster labels (i + k) := by
  intro k
  induction k with
  | zero =>
    intro i updated b labels w h
    rw [EnsureRedisStatefulsetsLoop]
    cases hres : (ensureRedisStatefulset d r cluster
        (d.ClusterStatefulSetName cluster.Name i)
        (d.ClusterHeadlessSvcName cluster.Spec.ServiceName i)
        (shardLabels d cluster labels i) w).1 with
    | panic => rfl
    | ret p =>
      obtain ⟨u, e⟩ := p
      cases e <;> rfl
  | succ k ih =>
    intro i updated b labels w h
    rw [EnsureRedisStatefulsetsLoop] at h ⊢
    cases hres : (ensureRedisStatefulset d r cluster
        (d.ClusterStatefulSetName cluster.Name i)
        (d.ClusterHeadlessSvcName cluster.Spec.ServiceName i)
        (shardLabels d cluster labels i) w).1 with
    | panic =>
      rw [hres] at h
      cases h
    | ret p =>
      obtain ⟨u, e⟩ := p
      cases e with
      | some err =>
        rw [hres] at h
        simp at h
      | none =>
        rw [hres] at h
        simp only [] at h ⊢
        rw [ih (i + 1) _ b _ _ h, shardLabels_shardLabels,
          show i + 1 + k = i + (k + 1) by omega]

theorem EnsureRedisHeadLessSvcsLoop_labels (cluster : DistributedRedisCluster) :
    ∀ (k i : Nat) (labels : Labels) (w : World σ),
      (EnsureRedisHeadLessSvcsLoop d r cluster i (k + 1) labels w).1 = none →
      (EnsureRedisHeadLessSvcsLoop d r cluster i (k + 1) labels w).2.1
        = shardLabels d cluster labels (i + k) := by
  intro k
  induction k with
  | zero =>
    intro i labels w h
    rw [EnsureRedisHeadLessSvcsLoop]
    cases hres : (ensureRedisHeadLessSvc d r cluster
        (d.ClusterHeadlessSvcName cluster.Spec.ServiceName i)
        (shardLabels d cluster labels i) w).1 <;> rfl
  | succ k ih =>
    intro i labels w h
    rw [EnsureRedisHeadLessSvcsLoop] at h ⊢
    cases hres : (ensureRedisHeadLessSvc d r cluster
        (d.ClusterHeadlessSvcName cluster.Spec.ServiceName i)
        (shardLabels d cluster labels i) w).1 with
    | some err =>
      rw [hres] at h
      simp at h
    | none =>
      rw [hres] at h
      simp only [] at h ⊢
      rw [ih (i + 1) _ _ h, shardLabels_shardLabels,
        show i + 1 + k = i + (k + 1) by omega]

/-- The shard loop stops at the first shard whose ensure returns an error. -/
theorem EnsureRedisStatefulsetsLoop_fail_fast (cluster : DistributedRedisCluster)
    (labels : Labels) (w : World σ) (m : Nat) (u : Bool) (err : Error)
    (herr : (shardRun d r cluster labels w m).1 = Res.ret (u, some err)) :
    ∀ (k i : Nat) (updated : Bool) (labels1 : Labels),
      i ≤ m → m < i + k →
      (∀ j, shardLabels d cluster labels1 j = shardLabels d cluster labels j) →
      (∀ j, i ≤ j → j < m → ∃ v, (shardRun d r cluster labels w j).1 = Res.ret (v, none)) →
      EnsureRedisStatefulsetsLoop d r cluster i k updated labels1
          (shardStart d r cluster labels w i)
        = (Res.ret (false, some err), shardLabels d cluster labels m,
            (shardRun d r cluster labels w m).2) := by
  intro k
  induction k with
  | zero => intro i updated labels1 h1 h2; omega
  | succ k ih =>
    intro i updated labels1 h1 h2 hL hprev
    have hrun : ensureRedisStatefulset d r cluster (d.ClusterStatefulSetName cluster.Name i)
        (d.ClusterHeadlessSvcName cluster.Spec.ServiceName i)
        (shardLabels d cluster labels1 i) (shardStart d r cluster labels w i)
        = shardRun d r cluster labels w i := by
      rw [hL i]
      rfl
    rw [EnsureRedisStatefulsetsLoop]
    simp only [hrun]
    rcases Nat.eq_or_lt_of_le h1 with heq | hlt
    · subst heq
      simp only [herr, hL i]
    · obtain ⟨v, hv⟩ := hprev i (Nat.le_refl i) hlt
      simp only [hv]
      have hstart : (shardRun d r cluster labels w i).2
          = shardStart d r cluster labels w (i + 1) := rfl
      rw [hstart]
      exact ih (i + 1) _ _ hlt (by omega)
        (fun j => by rw [shardLabels_shardLabels, hL j])
        (fun j hj1 hj2 => hprev j (by omega) hj2)

theorem EnsureRedisHeadLessSvcsLoop_fail_fast (cluster : DistributedRedisCluster)
    (labels : Labels) (w : World σ) (m : Nat) (err : Error)
    (herr : (headlessRun d r cluster labels w m).1 = some err) :
    ∀ (k i : Nat) (labels1 : Labels),
      i ≤ m → m < i + k →
      (∀ j, shardLabels d cluster labels1 j = shardLabels d cluster labels j) →
      (∀ j, i ≤ j → j < m → (headlessRun d r cluster labels w j).1 = none) →
      EnsureRedisHeadLessSvcsLoop d r cluster i k labels1
          (headlessStart d r cluster labels w i)
        = (some err, shardLabels d cluster labels m,
            (headlessRun d r cluster labels w m).2) := by
  intro k
  induction k with
  | zero => intro i labels1 h1 h2; omega
  | succ k ih =>
    intro i labels1 h1 h2 hL hprev
    have hrun : ensureRedisHeadLessSvc d r cluster
        (d.ClusterHeadlessSvcName cluster.Spec.ServiceName i)
        (shardLabels d cluster labels1 i) (headlessStart d r cluster labels w i)
        = headlessRun d r cluster labels w i := by
      rw [hL i]
      rfl
    rw [EnsureRedisHeadLessSvcsLoop]
    simp only [hrun]
    rcases Nat.eq_or_lt_of_le h1 with heq | hlt
    · subst heq
      simp only [herr, hL i]
    · have hv := hprev i (Nat.le_refl i) hlt
      simp only [hv]
      have hstart : (headlessRun d r cluster labels w i).2
          = headlessStart d r cluster labels w (i + 1) := rfl
      rw [hstart]
      exact ih (i + 1) _ hlt (by omega)
        (fun j => by rw [shardLabels_shardLabels, hL j])
        (fun j hj1 hj2 => hprev j (by omega) hj2)

end LoopLabels

section LoopFrameClaims

variable {σ : Type}

/-- C17. In both shard loops, when the per-shard ensure of shard `i` is the first to
return an error, the operation returns that error (`EnsureRedisStatefulsets` with
`updated = false`, whatever earlier shards reported) and ends in the world in which the
ensure of shard `i` ended: no call is issued for a later shard. -/
theorem shard_loops_fail_fast (d : Collaborators) (r : realEnsureResource σ)
    (cluster : DistributedRedisCluster) (labels : Labels) (w : World σ) :
    (∀ (i : Nat) (u : Bool) (err : Error), i < Int.toNat cluster.Spec.MasterSize →
        (∀ j, j < i → ∃ v, (shardRun d r cluster labels w j).1 = Res.ret (v, none)) →
        (shardRun d r cluster labels w i).1 = Res.ret (u, some err) →
        EnsureRedisStatefulsets d r cluster labels w
          = (Res.ret (false, some err), shardLabels d cluster labels i,
              (shardRun d r cluster labels w i).2)) ∧
      (∀ (i : Nat) (err : Error), i < Int.toNat cluster.Spec.MasterSize →
        (∀ j, j < i → (headlessRun d r cluster labels w j).1 = none) →
        (headlessRun d r cluster labels w i).1 = some err →
        EnsureRedisHeadLessSvcs d r cluster labels w
          = (some err, shardLabels d cluster labels i,
              (headlessRun d r cluster labels w i).2)) := by
  constructor
  · intro i u err hi hprev herr
    exact EnsureRedisStatefulsetsLoop_fail_fast d r cluster labels w i u err herr
      (Int.toNat cluster.Spec.MasterSize) 0 false labels (Nat.zero_le i) (by omega)
      (fun _ => rfl) (fun j _ hj => hprev j hj)
  · intro i err hi hprev herr
    exact EnsureRedisHeadLessSvcsLoop_fail_fast d r cluster labels w i err herr
      (Int.toNat cluster.Spec.MasterSize) 0 labels (Nat.zero_le i) (by omega)
      (fun _ => rfl) (fun j _ hj => hprev j hj)

/-- C18. After `EnsureRedisStatefulsets` or `EnsureRedisHeadLessSvcs` returns without
error, the caller's mapping agrees with the input on every key other than
`StatefulSetLabel` and the component key; with `MasterSize = m + 1` the component key
holds `shard-m` and the `StatefulSetLabel` key (a key other than the component key)
holds the workload-group name of shard `m`; with no shard the mapping and the world are
unchanged. -/
theorem ensure_labels_frame (d : Collaborators) (r : realEnsureResource σ)
    (cluster : DistributedRedisCluster) (labels : Labels) (w : World σ) :
    (∀ b, (EnsureRedisStatefulsets d r cluster labels w).1 = Res.ret (b, none) →
        (∀ k, k ≠ d.StatefulSetLabel → k ≠ "app.kubernetes.io/component" →
          (EnsureRedisStatefulsets d r cluster labels w).2.1 k = labels k) ∧
        (∀ m, Int.toNat cluster.Spec.MasterSize = m + 1 →
          (EnsureRedisStatefulsets d r cluster labels w).2.1 "app.kubernetes.io/component"
              = some ("shard-" ++ Itoa (Int.ofNat m)) ∧
            (d.StatefulSetLabel ≠ "app.kubernetes.io/component" →
              (EnsureRedisStatefulsets d r cluster labels w).2.1 d.StatefulSetLabel
                = some (d.ClusterStatefulSetName cluster.Name m)))) ∧
      (∀ (_ : (EnsureRedisHeadLessSvcs d r cluster labels w).1 = none),
        (∀ k, k ≠ d.StatefulSetLabel → k ≠ "app.kubernetes.io/component" →
          (EnsureRedisHeadLessSvcs d r cluster labels w).2.1 k = labels k) ∧
        (∀ m, Int.toNat cluster.Spec.MasterSize = m + 1 →
          (EnsureRedisHeadLessSvcs d r cluster labels w).2.1 "app.kubernetes.io/component"
              = some ("shard-" ++ Itoa (Int.ofNat m)) ∧
            (d.StatefulSetLabel ≠ "app.kubernetes.io/component" →
              (EnsureRedisHeadLessSvcs d r cluster labels w).2.1 d.StatefulSetLabel
                = some (d.ClusterStatefulSetName cluster.Name m)))) ∧
      (Int.toNat cluster.Spec.MasterSize = 0 →
        EnsureRedisStatefulsets d r cluster labels w = (Res.ret (false, none), labels, w) ∧
          EnsureRedisHeadLessSvcs d r cluster labels w = (none, labels, w)) := by
  refine ⟨?_, ?_, ?_⟩
  · intro b h
    unfold EnsureRedisStatefulsets at h ⊢
    cases hn : Int.toNat cluster.Spec.MasterSize with
    | zero =>
      rw [hn] at h
      exact ⟨fun _ _ _ => rfl, fun m hm => by omega⟩
    | succ n =>
      rw [hn] at h
      rw [EnsureRedisStatefulsetsLoop_labels d r cluster n 0 false b labels w h, Nat.zero_add]
      refine ⟨(shardLabels_frame d cluster labels n).1, ?_⟩
      intro m hm
      have hmn : n = m := by omega
      subst hmn
      exact ⟨shardLabels_component d cluster labels n, (shardLabels_frame d cluster labels n).2⟩
  · intro h
    unfold EnsureRedisHeadLessSvcs at h ⊢
    cases hn : Int.toNat cluster.Spec.MasterSize with
    | zero =>
      rw [hn] at h
      exact ⟨fun _ _ _ => rfl, fun m hm => by omega⟩
    | succ n =>
      rw [hn] at h
      rw [EnsureRedisHeadLessSvcsLoop_labels d r cluster n 0 labels w h, Nat.zero_add]
      refine ⟨(shardLabels_frame d cluster labels n).1, ?_⟩
      intro m hm
      have hmn : n = m := by omega
      subst hmn
      exact ⟨shardLabels_component d cluster labels n, (shardLabels_frame d cluster labels n).2⟩
  · intro hn
    unfold EnsureRedisStatefulsets EnsureRedisHeadLessSvcs
    rw [hn]
    exact ⟨rfl, rfl⟩

end LoopFrameClaims

/-- C17 at cluster `x` over a store in which shard `0` is stale and the first call of
shard `1` fails: shard `0` reports `updated = true`, the operation returns
`(false, that error)` and ends where the ensure of shard `1` ended. -/
theorem shard_loops_fail_fast_witness :
    (shardRun exampleCollaborators (storeClient storeSecretClient) exampleCluster noLabels
        (freshWorld faultyStore) 0).1 = Res.ret (true, none) ∧
      EnsureRedisStatefulsets exampleCollaborators (storeClient storeSecretClient)
          exampleCluster noLabels (freshWorld faultyStore)
        = (Res.ret (false, some ⟨"InternalError", "boom"⟩),
            shardLabels exampleCollaborators exampleCluster noLabels 1,
            (shardRun exampleCollaborators (storeClient storeSecretClient) exampleCluster
              noLabels (freshWorld faultyStore) 1).2) :=
  ⟨rfl,
    (shard_loops_fail_fast exampleCollaborators (storeClient storeSecretClient)
      exampleCluster noLabels (freshWorld faultyStore)).1 1 false
      ⟨"InternalError", "boom"⟩ (by decide)
      (fun j hj => by
        obtain rfl : j = 0 := by omega
        exact ⟨true, rfl⟩)
      rfl⟩

/-- C18 at cluster `x` (three shards) over the empty store. -/
theorem ensure_labels_frame_witness :
    (EnsureRedisStatefulsets exampleCollaborators (storeClient storeSecretClient)
        exampleCluster noLabels (freshWorld emptyStore)).2.1 "app.kubernetes.io/component"
        = some "shard-2" ∧
      (EnsureRedisStatefulsets exampleCollaborators (storeClient storeSecretClient)
        exampleCluster noLabels (freshWorld emptyStore)).2.1 "statefulSet"
        = some "drc-x-2" ∧
      ∀ k, k ≠ "statefulSet" → k ≠ "app.kubernetes.io/component" →
        (EnsureRedisStatefulsets exampleCollaborators (storeClient storeSecretClient)
          exampleCluster noLabels (freshWorld emptyStore)).2.1 k = noLabels k :=
  ⟨(((ensure_labels_frame exampleCollaborators (storeClient storeSecretClient) exampleCluster
      noLabels (freshWorld emptyStore)).1 false rfl).2 2 rfl).1,
    (((ensure_labels_frame exampleCollaborators (storeClient storeSecretClient)
      exampleCluster noLabels (freshWorld emptyStore)).1 false rfl).2 2 rfl).2 (by decide),
    ((ensure_labels_frame exampleCollaborators (storeClient storeSecretClient) exampleCluster
      noLabels (freshWorld emptyStore)).1 false rfl).1⟩

/-! ## The labels of the objects written for a shard -/

section BuiltForShard

variable {σ : Type} (d : Collaborators) (r : realEnsureResource σ)

theorem builtForShard_congr (cluster : DistributedRedisCluster) (labels labels1 : Labels)
    (i : Nat) (c : Call)
    (hL : shardLabels d cluster labels1 i = shardLabels d cluster labels i)
    (h : builtForShard d cluster labels1 i c) : builtForShard d cluster labels i c := by
  cases c <;> simp only [builtForShard, hL] at h ⊢ <;> exact h

/-- The workload-group calls of `ensureRedisStatefulset`: gets, and writes of the object
the builder returned. -/
theorem ensureRedisStatefulset_written (cluster : DistributedRedisCluster)
    (ssName svcName : String) (labels : Labels) (w : World σ) :
    ∃ delta : List Call,
      (ensureRedisStatefulset d r cluster ssName svcName labels w).2.trace =
        (ensureRedisPDB d r cluster ssName labels w).2.trace ++ delta ∧
      ∀ c ∈ delta, (∃ res, c = Call.GetStatefulSet cluster.Namespace ssName res) ∨
        ∃ newSS res, d.NewStatefulSetForCR cluster ssName svcName labels = Except.ok newSS ∧
          (c = Call.CreateStatefulSet newSS res ∨ c = Call.UpdateStatefulSet newSS res) := by
  cases hpdb : (ensureRedisPDB d r cluster ssName labels w).1 with
  | some err =>
    rw [ensureRedisStatefulset_of_pdb_error d r cluster ssName svcName labels w err hpdb]
    exact ⟨[], by simp, by simp⟩
  | none =>
    cases hget : (r.statefulSetClient.GetStatefulSet cluster.Namespace ssName
        (ensureRedisPDB d r cluster ssName labels w).2.state).1 with
    | ok ss =>
      cases hs : shouldUpdateRedis d cluster ss with
      | panic =>
        rw [ensureRedisStatefulset_of_panic d r cluster ssName svcName labels w ss hpdb hget
          hs]
        refine ⟨_, rfl, ?_⟩
        intro c hc
        simp at hc
        exact Or.inl ⟨_, hc⟩
      | ret b =>
        cases b with
        | false =>
          rw [ensureRedisStatefulset_of_fresh d r cluster ssName svcName labels w ss hpdb
            hget hs]
          refine ⟨_, rfl, ?_⟩
          intro c hc
          simp at hc
          exact Or.inl ⟨_, hc⟩
        | true =>
          cases hb : d.NewStatefulSetForCR cluster ssName svcName labels with
          | error e =>
            rw [ensureRedisStatefulset_of_stale_build_error d r cluster ssName svcName labels
              w ss e hpdb hget hs hb]
            refine ⟨_, rfl, ?_⟩
            intro c hc
            simp at hc
            exact Or.inl ⟨_, hc⟩
          | ok newSS =>
            rw [ensureRedisStatefulset_of_stale d r cluster ssName svcName labels w ss newSS
              hpdb hget hs hb]
            refine ⟨_, rfl, ?_⟩
            intro c hc
            simp at hc
            rcases hc with hc | hc
            · exact Or.inl ⟨_, hc⟩
            · exact Or.inr ⟨newSS, _, rfl, Or.inr hc⟩
    | error err =>
      cases hnf : IsNotFound err with
      | false =>
        rw [ensureRedisStatefulset_of_get_failed d r cluster ssName svcName labels w err hpdb
          hget hnf]
        refine ⟨_, rfl, ?_⟩
        intro c hc
        simp at hc
        exact Or.inl ⟨_, hc⟩
      | true =>
        cases hb : d.NewStatefulSetForCR cluster ssName svcName labels with
        | error e =>
          rw [ensureRedisStatefulset_of_absent_build_error d r cluster ssName svcName labels
            w err e hpdb hget hnf hb]
          refine ⟨_, rfl, ?_⟩
          intro c hc
          simp at hc
          exact Or.inl ⟨_, hc⟩
        | ok newSS =>
          rw [ensureRedisStatefulset_of_absent d r cluster ssName svcName labels w err newSS
            hpdb hget hnf hb]
          refine ⟨_, rfl, ?_⟩
          intro c hc
          simp at hc
          rcases hc with hc | hc
          · exact Or.inl ⟨_, hc⟩
          · exact Or.inr ⟨newSS, _, rfl, Or.inl hc⟩

/-- Every object written by the workload-group ensure of shard `i` was built from the
mapping handed to it. -/
theorem ensureRedisStatefulset_builtForShard (cluster : DistributedRedisCluster)
    (labels : Labels) (i : Nat) (w : World σ) :
    ∃ delta, (ensureRedisStatefulset d r cluster (d.ClusterStatefulSetName cluster.Name i)
        (d.ClusterHeadlessSvcName cluster.Spec.ServiceName i)
        (shardLabels d cluster labels i) w).2.trace = w.trace ++ delta ∧
      ∀ c ∈ delta, builtForShard d cluster labels i c := by
  obtain ⟨delta1, h1, -, -, hwrites, -⟩ := ensureRedisPDB_calls d r cluster
    (d.ClusterStatefulSetName cluster.Name i) (shardLabels d cluster labels i) w
  obtain ⟨delta2, h2, hsts⟩ := ensureRedisStatefulset_written d r cluster
    (d.ClusterStatefulSetName cluster.Name i)
    (d.ClusterHeadlessSvcName cluster.Spec.ServiceName i) (shardLabels d cluster labels i) w
  refine ⟨delta1 ++ delta2, by rw [h2, h1, List.append_assoc], ?_⟩
  intro c hc
  rcases List.mem_append.mp hc with hc | hc
  · cases hw : c.isWrite with
    | true =>
      rw [hwrites c hc hw]
      rfl
    | false =>
      cases c <;> first
        | (exact trivial)
        | (simp [Call.isWrite, Call.isCreate, Call.isUpdate] at hw)
  · rcases hsts c hc with ⟨res, hres⟩ | ⟨newSS, res, hb, hres | hres⟩
    · rw [hres]
      trivial
    · rw [hres]
      exact hb
    · rw [hres]
      exact hb

theorem ensureRedisHeadLessSvc_builtForShard (cluster : DistributedRedisCluster)
    (labels : Labels) (i : Nat) (w : World σ) :
    ∃ delta, (ensureRedisHeadLessSvc d r cluster
        (d.ClusterHeadlessSvcName cluster.Spec.ServiceName i)
        (shardLabels d cluster labels i) w).2.trace = w.trace ++ delta ∧
      ∀ c ∈ delta, builtForShard d cluster labels i c := by
  cases h : (r.svcClient.GetService cluster.Namespace
      (d.ClusterHeadlessSvcName cluster.Spec.ServiceName i) w.state).1 with
  | ok svc =>
    rw [ensureRedisHeadLessSvc_found d r cluster _ _ w svc h]
    refine ⟨_, rfl, ?_⟩
    intro c hc
    simp at hc
    rw [hc]
    trivial
  | error err =>
    cases hnf : IsNotFound err with
    | false =>
      rw [ensureRedisHeadLessSvc_failed d r cluster _ _ w err h hnf]
      refine ⟨_, rfl, ?_⟩
      intro c hc
      simp at hc
      rw [hc]
      trivial
    | true =>
      rw [ensureRedisHeadLessSvc_absent d r cluster _ _ w err h hnf]
      refine ⟨_, rfl, ?_⟩
      intro c hc
      simp at hc
      rcases hc with hc | hc
      · rw [hc]
        trivial
      · rw [hc]
        rfl

theorem EnsureRedisStatefulsetsLoop_builtForShard (cluster : DistributedRedisCluster)
    (labels : Labels) :
    ∀ (k i : Nat) (updated : Bool) (labels1 : Labels) (w : World σ),
      (∀ j, shardLabels d cluster labels1 j = shardLabels d cluster labels j) →
      (∀ j, shardLabels d cluster
          (EnsureRedisStatefulsetsLoop d r cluster i k updated labels1 w).2.1 j
          = shardLabels d cluster labels j) ∧
        ∃ delta, (EnsureRedisStatefulsetsLoop d r cluster i k updated labels1 w).2.2.trace
            = w.trace ++ delta ∧
          ∀ c ∈ delta, ∃ j, j < i + k ∧ builtForShard d cluster labels j c := by
  intro k
  induction k with
  | zero =>
    intro i updated labels1 w hL
    exact ⟨hL, [], by simp [EnsureRedisStatefulsetsLoop], by simp⟩
  | succ k ih =>
    intro i updated labels1 w hL
    obtain ⟨delta, ht, hbuilt⟩ := ensureRedisStatefulset_builtForShard d r cluster labels1 i w
    have hbuilt1 : ∀ c ∈ delta, ∃ j, j < i + (k + 1) ∧ builtForShard d cluster labels j c :=
      fun c hc => ⟨i, by omega, builtForShard_congr d cluster labels labels1 i c (hL i)
        (hbuilt c hc)⟩
    have hL1 : ∀ j, shardLabels d cluster (shardLabels d cluster labels1 i) j
        = shardLabels d cluster labels j := by
      intro j
      rw [shardLabels_shardLabels, hL j]
    rw [EnsureRedisStatefulsetsLoop]
    cases hres : (ensureRedisStatefulset d r cluster
        (d.ClusterStatefulSetName cluster.Name i)
        (d.ClusterHeadlessSvcName cluster.Spec.ServiceName i)
        (shardLabels d cluster labels1 i) w).1 with
    | panic => exact ⟨hL1, delta, ht, hbuilt1⟩
    | ret p =>
      obtain ⟨u, e⟩ := p
      cases e with
      | some err => exact ⟨hL1, delta, ht, hbuilt1⟩
      | none =>
        simp only []
        obtain ⟨hlab, delta2, ht2, hbuilt2⟩ := ih (i + 1) (if u = true then u else updated)
          (shardLabels d cluster labels1 i)
          (ensureRedisStatefulset d r cluster (d.ClusterStatefulSetName cluster.Name i)
            (d.ClusterHeadlessSvcName cluster.Spec.ServiceName i)
            (shardLabels d cluster labels1 i) w).2 hL1
        refine ⟨hlab, delta ++ delta2, by rw [ht2, ht, List.append_assoc], ?_⟩
        intro c hc
        rcases List.mem_append.mp hc with hc | hc
        · exact hbuilt1 c hc
        · obtain ⟨j, hj, hb⟩ := hbuilt2 c hc
          exact ⟨j, by omega, hb⟩

theorem EnsureRedisHeadLessSvcsLoop_builtForShard (cluster : DistributedRedisCluster)
    (labels : Labels) :
    ∀ (k i : Nat) (labels1 : Labels) (w : World σ),
      (∀ j, shardLabels d cluster labels1 j = shardLabels d cluster labels j) →
      ∃ delta, (EnsureRedisHeadLessSvcsLoop d r cluster i k labels1 w).2.2.trace
          = w.trace ++ delta ∧
        ∀ c ∈ delta, ∃ j, j < i + k ∧ builtForShard d cluster labels j c := by
  intro k
  induction k with
  | zero =>
    intro i labels1 w hL
    exact ⟨[], by simp [EnsureRedisHeadLessSvcsLoop], by simp⟩
  | succ k ih =>
    intro i labels1 w hL
    obtain ⟨delta, ht, hbuilt⟩ := ensureRedisHeadLessSvc_builtForShard d r cluster labels1 i w
    have hbuilt1 : ∀ c ∈ delta, ∃ j, j < i + (k + 1) ∧ builtForShard d cluster labels j c :=
      fun c hc => ⟨i, by omega, builtForShard_congr d cluster labels labels1 i c (hL i)
        (hbuilt c hc)⟩
    have hL1 : ∀ j, shardLabels d cluster (shardLabels d cluster labels1 i) j
        = shardLabels d cluster labels j := by
      intro j
      rw [shardLabels_shardLabels, hL j]
    rw [EnsureRedisHeadLessSvcsLoop]
    cases hres : (ensureRedisHeadLessSvc d r cluster
        (d.ClusterHeadlessSvcName cluster.Spec.ServiceName i)
        (shardLabels d cluster labels1 i) w).1 with
    | some err => exact ⟨delta, ht, hbuilt1⟩
    | none =>
      simp only []
      obtain ⟨delta2, ht2, hbuilt2⟩ := ih (i + 1) (shardLabels d cluster labels1 i)
        (ensureRedisHeadLessSvc d r cluster
          (d.ClusterHeadlessSvcName cluster.Spec.ServiceName i)
          (shardLabels d cluster labels1 i) w).2 hL1
      refine ⟨delta ++ delta2, by rw [ht2, ht, List.append_assoc], ?_⟩
      intro c hc
      rcases List.mem_append.mp hc with hc | hc
      · exact hbuilt1 c hc
      · obtain ⟨j, hj, hb⟩ := hbuilt2 c hc
        exact ⟨j, by omega, hb⟩

/-- C13. Every budget and every workload group that `EnsureRedisStatefulsets` writes was
built, for some shard index `i` below `MasterSize`, from the mapping
`shardLabels d cluster labels i`; the mapping it leaves behind assigns every shard the
same labels as the input mapping; and every service that a following
`EnsureRedisHeadLessSvcs` on that mutated mapping creates was built, for some shard index
`i`, from the same mapping `shardLabels d cluster labels i`. -/
theorem shard_labels_agree (cluster : DistributedRedisCluster) (labels : Labels)
    (w : World σ) :
    (∀ c ∈ newCalls w (EnsureRedisStatefulsets d r cluster labels w).2.2,
        ∃ i, i < Int.toNat cluster.Spec.MasterSize ∧ builtForShard d cluster labels i c) ∧
      (∀ i, shardLabels d cluster (EnsureRedisStatefulsets d r cluster labels w).2.1 i
          = shardLabels d cluster labels i) ∧
      (∀ w1 : World σ,
        ∀ c ∈ newCalls w1 (EnsureRedisHeadLessSvcs d r cluster
            (EnsureRedisStatefulsets d r cluster labels w).2.1 w1).2.2,
          ∃ i, i < Int.toNat cluster.Spec.MasterSize ∧
            builtForShard d cluster labels i c) := by
  obtain ⟨hlab, delta, ht, hbuilt⟩ := EnsureRedisStatefulsetsLoop_builtForShard d r cluster
    labels (Int.toNat cluster.Spec.MasterSize) 0 false labels w (fun _ => rfl)
  refine ⟨?_, hlab, ?_⟩
  · intro c hc
    have hnew := newCalls_of_append _ _ delta ht
    obtain ⟨j, hj, hb⟩ := hbuilt c (by rw [← hnew]; exact hc)
    exact ⟨j, by omega, hb⟩
  · intro w1 c hc
    obtain ⟨delta2, ht2, hbuilt2⟩ := EnsureRedisHeadLessSvcsLoop_builtForShard d r cluster
      labels (Int.toNat cluster.Spec.MasterSize) 0
      (EnsureRedisStatefulsets d r cluster labels w).2.1 w1 hlab
    have hnew := newCalls_of_append _ _ delta2 ht2
    obtain ⟨j, hj, hb⟩ := hbuilt2 c (by rw [← hnew]; exact hc)
    exact ⟨j, by omega, hb⟩

end BuiltForShard

/-! ## Restore progression -/

section RestoreFlow

variable {σ : Type} (d : Collaborators) (r : realEnsureResource σ)

/-- The restore sub-flow when the restore configuration is found: an update on a count
mismatch, nothing more than the get on a match. -/
theorem ensureRestoreConfigMap_found (cluster : DistributedRedisCluster) (labels : Labels)
    (w : World σ) (restoreCm : ConfigMap)
    (hmode : d.IsRestoreFromBackup cluster = true)
    (hget : (r.configMapClient.GetConfigMap cluster.Namespace
      (d.RestoreConfigMapName cluster.Name) w.state).1 = Except.ok restoreCm) :
    ((restoreCm.Data d.RestoreSucceeded).getD ""
          ≠ Itoa cluster.Status.Restore.RestoreSucceeded →
        ensureRestoreConfigMap d r cluster labels w
          = ((r.configMapClient.UpdateConfigMap (d.NewConfigMapForRestore cluster labels)
              (r.configMapClient.GetConfigMap cluster.Namespace
                (d.RestoreConfigMapName cluster.Name) w.state).2).1,
            ⟨(r.configMapClient.UpdateConfigMap (d.NewConfigMapForRestore cluster labels)
              (r.configMapClient.GetConfigMap cluster.Namespace
                (d.RestoreConfigMapName cluster.Name) w.state).2).2,
            w.trace ++ [Call.GetConfigMap cluster.Namespace
                (d.RestoreConfigMapName cluster.Name) (Except.ok restoreCm),
              Call.UpdateConfigMap (d.NewConfigMapForRestore cluster labels)
                (r.configMapClient.UpdateConfigMap (d.NewConfigMapForRestore cluster labels)
                  (r.configMapClient.GetConfigMap cluster.Namespace
                    (d.RestoreConfigMapName cluster.Name) w.state).2).1]⟩)) ∧
      ((restoreCm.Data d.RestoreSucceeded).getD ""
          = Itoa cluster.Status.Restore.RestoreSucceeded →
        ensureRestoreConfigMap d r cluster labels w
          = (none, ⟨(r.configMapClient.GetConfigMap cluster.Namespace
              (d.RestoreConfigMapName cluster.Name) w.state).2,
            w.trace ++ [Call.GetConfigMap cluster.Namespace
              (d.RestoreConfigMapName cluster.Name) (Except.ok restoreCm)]⟩)) := by
  constructor
  · intro hne
    simp [ensureRestoreConfigMap, callGetConfigMap, callUpdateConfigMap, hmode, hget, hne]
  · intro heq
    simp [ensureRestoreConfigMap, callGetConfigMap, hmode, hget, heq]

theorem ensureRestoreConfigMap_found_writes (cluster : DistributedRedisCluster)
    (labels : Labels) (w0 w : World σ) (pre : List Call) (restoreCm : ConfigMap)
    (hpre : w.trace = w0.trace ++ pre)
    (hmode : d.IsRestoreFromBackup cluster = true)
    (hget : (r.configMapClient.GetConfigMap cluster.Namespace
      (d.RestoreConfigMapName cluster.Name) w.state).1 = Except.ok restoreCm) :
    ((restoreCm.Data d.RestoreSucceeded).getD ""
          ≠ Itoa cluster.Status.Restore.RestoreSucceeded →
        (newCalls w0 (ensureRestoreConfigMap d r cluster labels w).2).filter Call.isWrite
          = pre.filter Call.isWrite ++
            [Call.UpdateConfigMap (d.NewConfigMapForRestore cluster labels)
              (ensureRestoreConfigMap d r cluster labels w).1]) ∧
      ((restoreCm.Data d.RestoreSucceeded).getD ""
          = Itoa cluster.Status.Restore.RestoreSucceeded →
        (newCalls w0 (ensureRestoreConfigMap d r cluster labels w).2).filter Call.isWrite
            = pre.filter Call.isWrite ∧
          (ensureRestoreConfigMap d r cluster labels w).1 = none) := by
  obtain ⟨hA, hB⟩ := ensureRestoreConfigMap_found d r cluster labels w restoreCm hmode hget
  constructor
  · intro hne
    rw [hA hne]
    rw [newCalls_of_append w0 _ (pre ++ [Call.GetConfigMap cluster.Namespace
        (d.RestoreConfigMapName cluster.Name) (Except.ok restoreCm),
      Call.UpdateConfigMap (d.NewConfigMapForRestore cluster labels)
        (r.configMapClient.UpdateConfigMap (d.NewConfigMapForRestore cluster labels)
          (r.configMapClient.GetConfigMap cluster.Namespace
            (d.RestoreConfigMapName cluster.Name) w.state).2).1])
      (by simp only [hpre, List.append_assoc])]
    simp [List.filter_append, List.filter, Call.isWrite, Call.isCreate, Call.isUpdate]
  · intro heq
    rw [hB heq]
    rw [newCalls_of_append w0 _ (pre ++ [Call.GetConfigMap cluster.Namespace
        (d.RestoreConfigMapName cluster.Name) (Except.ok restoreCm)])
      (by simp only [hpre, List.append_assoc])]
    simp [List.filter_append, List.filter, Call.isWrite, Call.isCreate, Call.isUpdate]

/-- C11, as amended. For a cluster in restore mode whose restore configuration is
fetched successfully: when the primary configuration is found, the writes of
`EnsureRedisConfigMap` are exactly one update, carrying
`NewConfigMapForRestore cluster labels`, if the observed count field differs from the
decimal string of the cluster's count, and there is no write if the two match; when the
primary configuration is absent and its create succeeds, that create comes first, so the
writes are the create and the update on a mismatch, and the create alone on a match. -/
theorem EnsureRedisConfigMap_restore (cluster : DistributedRedisCluster) (labels : Labels)
    (w : World σ) (hmode : d.IsRestoreFromBackup cluster = true) :
    (∀ cm0 restoreCm,
        (r.configMapClient.GetConfigMap cluster.Namespace
          (d.RedisConfigMapName cluster.Name) w.state).1 = Except.ok cm0 →
        (r.configMapClient.GetConfigMap cluster.Namespace
          (d.RestoreConfigMapName cluster.Name)
          (r.configMapClient.GetConfigMap cluster.Namespace
            (d.RedisConfigMapName cluster.Name) w.state).2).1 = Except.ok restoreCm →
        ((restoreCm.Data d.RestoreSucceeded).getD ""
              ≠ Itoa cluster.Status.Restore.RestoreSucceeded →
            (newCalls w (EnsureRedisConfigMap d r cluster labels w).2).filter Call.isWrite
              = [Call.UpdateConfigMap (d.NewConfigMapForRestore cluster labels)
                  (EnsureRedisConfigMap d r cluster labels w).1]) ∧
          ((restoreCm.Data d.RestoreSucceeded).getD ""
              = Itoa cluster.Status.Restore.RestoreSucceeded →
            (newCalls w (EnsureRedisConfigMap d r cluster labels w).2).filter Call.isWrite
                = [] ∧
              (EnsureRedisConfigMap d r cluster labels w).1 = none)) ∧
      (∀ err restoreCm,
        (r.configMapClient.GetConfigMap cluster.Namespace
          (d.RedisConfigMapName cluster.Name) w.state).1 = Except.error err →
        IsNotFound err = true →
        (r.configMapClient.CreateConfigMap (d.NewConfigMapForCR cluster labels)
          (r.configMapClient.GetConfigMap cluster.Namespace
            (d.RedisConfigMapName cluster.Name) w.state).2).1 = none →
        (r.configMapClient.GetConfigMap cluster.Namespace
          (d.RestoreConfigMapName cluster.Name)
          (r.configMapClient.CreateConfigMap (d.NewConfigMapForCR cluster labels)
            (r.configMapClient.GetConfigMap cluster.Namespace
              (d.RedisConfigMapName cluster.Name) w.state).2).2).1 = Except.ok restoreCm →
        ((restoreCm.Data d.RestoreSucceeded).getD ""
              ≠ Itoa cluster.Status.Restore.RestoreSucceeded →
            (newCalls w (EnsureRedisConfigMap d r cluster labels w).2).filter Call.isWrite
              = [Call.CreateConfigMap (d.NewConfigMapForCR cluster labels) none,
                  Call.UpdateConfigMap (d.NewConfigMapForRestore cluster labels)
                    (EnsureRedisConfigMap d r cluster labels w).1]) ∧
          ((restoreCm.Data d.RestoreSucceeded).getD ""
              = Itoa cluster.Status.Restore.RestoreSucceeded →
            (newCalls w (EnsureRedisConfigMap d r cluster labels w).2).filter Call.isWrite
                = [Call.CreateConfigMap (d.NewConfigMapForCR cluster labels) none] ∧
              (EnsureRedisConfigMap d r cluster labels w).1 = none)) := by
  constructor
  · intro cm0 restoreCm hprimary hrestore
    have hout : EnsureRedisConfigMap d r cluster labels w
        = ensureRestoreConfigMap d r cluster labels
            ⟨(r.configMapClient.GetConfigMap cluster.Namespace
              (d.RedisConfigMapName cluster.Name) w.state).2,
            w.trace ++ [Call.GetConfigMap cluster.Namespace
              (d.RedisConfigMapName cluster.Name) (Except.ok cm0)]⟩ := by
      simp [EnsureRedisConfigMap, callGetConfigMap, hprimary]
    obtain ⟨hA, hB⟩ := ensureRestoreConfigMap_found_writes d r cluster labels w
      ⟨(r.configMapClient.GetConfigMap cluster.Namespace
        (d.RedisConfigMapName cluster.Name) w.state).2,
      w.trace ++ [Call.GetConfigMap cluster.Namespace
        (d.RedisConfigMapName cluster.Name) (Except.ok cm0)]⟩
      [Call.GetConfigMap cluster.Namespace (d.RedisConfigMapName cluster.Name)
        (Except.ok cm0)] restoreCm rfl hmode hrestore
    rw [hout]
    constructor
    · intro hne
      rw [hA hne]
      simp [List.filter, Call.isWrite, Call.isCreate, Call.isUpdate]
    · intro heq
      rw [(hB heq).1]
      exact ⟨by simp [List.filter, Call.isWrite, Call.isCreate, Call.isUpdate], (hB heq).2⟩
  · intro err restoreCm hprimary hnf hcreate hrestore
    have hout : EnsureRedisConfigMap d r cluster labels w
        = ensureRestoreConfigMap d r cluster labels
            ⟨(r.configMapClient.CreateConfigMap (d.NewConfigMapForCR cluster labels)
              (r.configMapClient.GetConfigMap cluster.Namespace
                (d.RedisConfigMapName cluster.Name) w.state).2).2,
            w.trace ++ [Call.GetConfigMap cluster.Namespace
                (d.RedisConfigMapName cluster.Name) (Except.error err),
              Call.CreateConfigMap (d.NewConfigMapForCR cluster labels) none]⟩ := by
      simp [EnsureRedisConfigMap, callGetConfigMap, callCreateConfigMap, hprimary, hnf,
        hcreate]
    obtain ⟨hA, hB⟩ := ensureRestoreConfigMap_found_writes d r cluster labels w
      ⟨(r.configMapClient.CreateConfigMap (d.NewConfigMapForCR cluster labels)
        (r.configMapClient.GetConfigMap cluster.Namespace
          (d.RedisConfigMapName cluster.Name) w.state).2).2,
      w.trace ++ [Call.GetConfigMap cluster.Namespace
          (d.RedisConfigMapName cluster.Name) (Except.error err),
        Call.CreateConfigMap (d.NewConfigMapForCR cluster labels) none]⟩
      [Call.GetConfigMap cluster.Namespace (d.RedisConfigMapName cluster.Name)
          (Except.error err),
        Call.CreateConfigMap (d.NewConfigMapForCR cluster labels) none] restoreCm rfl hmode
      hrestore
    rw [hout]
    constructor
    · intro hne
      rw [hA hne]
      simp [List.filter, Call.isWrite, Call.isCreate, Call.isUpdate]
    · intro heq
      rw [(hB heq).1]
      exact ⟨by simp [List.filter, Call.isWrite, Call.isCreate, Call.isUpdate], (hB heq).2⟩

end RestoreFlow

/-- C11 fails as stated: cluster `x` restores with count 3, the store holds its restore
configuration with the matching count `3` but not its primary configuration, and
`EnsureRedisConfigMap` issues a write, the create of the primary configuration. -/
theorem EnsureRedisConfigMap_match_still_writes :
    (configStore false "3").objects.configMaps "default" "rediscluster-restore-x"
        = some (restoreConfig "3") ∧
      ((restoreConfig "3").Data "restore-succeeded").getD ""
        = Itoa restoringCluster.Status.Restore.RestoreSucceeded ∧
      (newCalls (freshWorld (configStore false "3"))
          (EnsureRedisConfigMap exampleCollaborators (storeClient storeSecretClient)
            restoringCluster noLabels (freshWorld (configStore false "3"))).2).filter
          Call.isWrite
        = [Call.CreateConfigMap
            (exampleCollaborators.NewConfigMapForCR restoringCluster noLabels) none] :=
  ⟨rfl, rfl, rfl⟩

/-- C11 as amended, at cluster `x` with count 3 and its primary configuration present:
with `2` observed there is exactly one write, the update; with `3` observed there is
none. -/
theorem EnsureRedisConfigMap_restore_witness :
    (newCalls (freshWorld (configStore true "2"))
          (EnsureRedisConfigMap exampleCollaborators (storeClient storeSecretClient)
            restoringCluster noLabels (freshWorld (configStore true "2"))).2).filter
          Call.isWrite
        = [Call.UpdateConfigMap
            (exampleCollaborators.NewConfigMapForRestore restoringCluster noLabels)
            (EnsureRedisConfigMap exampleCollaborators (storeClient storeSecretClient)
              restoringCluster noLabels (freshWorld (configStore true "2"))).1] ∧
      (newCalls (freshWorld (configStore true "3"))
          (EnsureRedisConfigMap exampleCollaborators (storeClient storeSecretClient)
            restoringCluster noLabels (freshWorld (configStore true "3"))).2).filter
          Call.isWrite = [] :=
  ⟨((EnsureRedisConfigMap_restore exampleCollaborators (storeClient storeSecretClient)
      restoringCluster noLabels (freshWorld (configStore true "2")) rfl).1
      primaryConfig (restoreConfig "2") rfl rfl).1 (by decide),
    (((EnsureRedisConfigMap_restore exampleCollaborators (storeClient storeSecretClient)
      restoringCluster noLabels (freshWorld (configStore true "3")) rfl).1
      primaryConfig (restoreConfig "3") rfl rfl).2 rfl).1⟩

/-! ## Where a returned not-found error comes from -/

theorem writtenIn_append_left (err : Error) (d1 d2 : List Call) (h : writtenIn err d1) :
    writtenIn err (d1 ++ d2) := by
  obtain ⟨c, hc, hw⟩ := h
  exact ⟨c, List.mem_append_left _ hc, hw⟩

theorem writtenIn_append_right (err : Error) (d1 d2 : List Call) (h : writtenIn err d2) :
    writtenIn err (d1 ++ d2) := by
  obtain ⟨c, hc, hw⟩ := h
  exact ⟨c, List.mem_append_right _ hc, hw⟩

section NotFound

variable {σ : Type} (d : Collaborators) (r : realEnsureResource σ)

theorem ensureRedisPDB_notFound (cluster : DistributedRedisCluster) (name : String)
    (labels : Labels) (w : World σ) :
    ∃ delta, (ensureRedisPDB d r cluster name labels w).2.trace = w.trace ++ delta ∧
      ∀ err, (ensureRedisPDB d r cluster name labels w).1 = some err →
        IsNotFound err = true → writtenIn err delta := by
  cases h : (r.pdbClient.GetPodDisruptionBudget cluster.Namespace name w.state).1 with
  | ok pdb =>
    rw [ensureRedisPDB_found d r cluster name labels w pdb h]
    exact ⟨_, rfl, fun err he => by cases he⟩
  | error e =>
    cases hnf : IsNotFound e with
    | false =>
      rw [ensureRedisPDB_failed d r cluster name labels w e h hnf]
      refine ⟨_, rfl, ?_⟩
      intro err he hn
      simp only [Option.some.injEq] at he
      rw [← he, hnf] at hn
      cases hn
    | true =>
      rw [ensureRedisPDB_absent d r cluster name labels w e h hnf]
      refine ⟨_, rfl, ?_⟩
      intro err he _
      exact ⟨_, List.mem_cons_of_mem _ (List.mem_singleton_self _), rfl, he⟩

theorem ensureRedisHeadLessSvc_notFound (cluster : DistributedRedisCluster) (name : String)
    (labels : Labels) (w : World σ) :
    ∃ delta, (ensureRedisHeadLessSvc d r cluster name labels w).2.trace = w.trace ++ delta ∧
      ∀ err, (ensureRedisHeadLessSvc d r cluster name labels w).1 = some err →
        IsNotFound err = true → writtenIn err delta := by
  cases h : (r.svcClient.GetService cluster.Namespace name w.state).1 with
  | ok svc =>
    rw [ensureRedisHeadLessSvc_found d r cluster name labels w svc h]
    exact ⟨_, rfl, fun err he => by cases he⟩
  | error e =>
    cases hnf : IsNotFound e with
    | false =>
      rw [ensureRedisHeadLessSvc_failed d r cluster name labels w e h hnf]
      refine ⟨_, rfl, ?_⟩
      intro err he hn
      simp only [Option.some.injEq] at he
      rw [← he, hnf] at hn
      cases hn
    | true =>
      rw [ensureRedisHeadLessSvc_absent d r cluster name labels w e h hnf]
      refine ⟨_, rfl, ?_⟩
      intro err he _
      exact ⟨_, List.mem_cons_of_mem _ (List.mem_singleton_self _), rfl, he⟩

theorem EnsureRedisSvc_notFound (cluster : DistributedRedisCluster) (labels : Labels)
    (w : World σ) :
    ∃ delta, (EnsureRedisSvc d r cluster labels w).2.2.trace = w.trace ++ delta ∧
      ∀ err, (EnsureRedisSvc d r cluster labels w).1 = some err →
        IsNotFound err = true → writtenIn err delta := by
  cases h : (r.svcClient.GetService cluster.Namespace cluster.Spec.ServiceName w.state).1 with
  | ok svc =>
    refine ⟨[Call.GetService cluster.Namespace cluster.Spec.ServiceName (Except.ok svc)],
      by simp [EnsureRedisSvc, callGetService, h], ?_⟩
    intro err he
    simp [EnsureRedisSvc, callGetService, h] at he
  | error e =>
    cases hnf : IsNotFound e with
    | false =>
      refine ⟨[Call.GetService cluster.Namespace cluster.Spec.ServiceName (Except.error e)],
        by simp [EnsureRedisSvc, callGetService, h, hnf], ?_⟩
      intro err he hn
      simp [EnsureRedisSvc, callGetService, h, hnf] at he
      rw [← he, hnf] at hn
      cases hn
    | true =>
      refine ⟨[Call.GetService cluster.Namespace cluster.Spec.ServiceName (Except.error e),
        Call.CreateService (d.NewSvcForCR cluster cluster.Spec.ServiceName
          ((labels.delete d.StatefulSetLabel).delete "app.kubernetes.io/component"))
          (r.svcClient.CreateService (d.NewSvcForCR cluster cluster.Spec.ServiceName
            ((labels.delete d.StatefulSetLabel).delete "app.kubernetes.io/component"))
            (r.svcClient.GetService cluster.Namespace cluster.Spec.ServiceName
              w.state).2).1],
        by simp [EnsureRedisSvc, callGetService, callCreateService, h, hnf], ?_⟩
      intro err he _
      simp [EnsureRedisSvc, callGetService, callCreateService, h, hnf] at he
      exact ⟨_, List.mem_cons_of_mem _ (List.mem_singleton_self _), rfl, he⟩

theorem ensureRedisStatefulset_notFound (cluster : DistributedRedisCluster)
    (ssName svcName : String) (labels : Labels) (w : World σ) :
    ∃ delta, (ensureRedisStatefulset d r cluster ssName svcName labels w).2.trace
        = w.trace ++ delta ∧
      ∀ u err, (ensureRedisStatefulset d r cluster ssName svcName labels w).1
          = Res.ret (u, some err) →
        IsNotFound err = true →
        writtenIn err delta ∨
          d.NewStatefulSetForCR cluster ssName svcName labels = Except.error err := by
  obtain ⟨delta1, ht1, hpdbNf⟩ := ensureRedisPDB_notFound d r cluster ssName labels w
  cases hpdb : (ensureRedisPDB d r cluster ssName labels w).1 with
  | some e =>
    rw [ensureRedisStatefulset_of_pdb_error d r cluster ssName svcName labels w e hpdb]
    refine ⟨delta1, ht1, ?_⟩
    intro u err he hn
    simp only [Res.ret.injEq, Prod.mk.injEq, Option.some.injEq] at he
    exact Or.inl (hpdbNf err (by rw [hpdb, he.2]) hn)
  | none =>
    cases hget : (r.statefulSetClient.GetStatefulSet cluster.Namespace ssName
        (ensureRedisPDB d r cluster ssName labels w).2.state).1 with
    | ok ss =>
      cases hs : shouldUpdateRedis d cluster ss with
      | panic =>
        rw [ensureRedisStatefulset_of_panic d r cluster ssName svcName labels w ss hpdb hget
          hs]
        refine ⟨delta1 ++ _, by rw [ht1, List.append_assoc], ?_⟩
        intro u err he
        cases he
      | ret b =>
        cases b with
        | false =>
          rw [ensureRedisStatefulset_of_fresh d r cluster ssName svcName labels w ss hpdb
            hget hs]
          refine ⟨delta1 ++ _, by rw [ht1, List.append_assoc], ?_⟩
          intro u err he
          simp at he
        | true =>
          cases hb : d.NewStatefulSetForCR cluster ssName svcName labels with
          | error e =>
            rw [ensureRedisStatefulset_of_stale_build_error d r cluster ssName svcName labels
              w ss e hpdb hget hs hb]
            refine ⟨delta1 ++ _, by rw [ht1, List.append_assoc], ?_⟩
            intro u err he _
            simp only [Res.ret.injEq, Prod.mk.injEq, Option.some.injEq] at he
            rw [he.2]
            exact Or.inr rfl
          | ok newSS =>
            rw [ensureRedisStatefulset_of_stale d r cluster ssName svcName labels w ss newSS
              hpdb hget hs hb]
            refine ⟨delta1 ++ _, by rw [ht1, List.append_assoc], ?_⟩
            intro u err he _
            simp only [Res.ret.injEq, Prod.mk.injEq] at he
            refine Or.inl (writtenIn_append_right _ _ _ ?_)
            exact ⟨_, List.mem_cons_of_mem _ (List.mem_singleton_self _), rfl, he.2⟩
    | error e =>
      cases hnf : IsNotFound e with
      | false =>
        rw [ensureRedisStatefulset_of_get_failed d r cluster ssName svcName labels w e hpdb
          hget hnf]
        refine ⟨delta1 ++ _, by rw [ht1, List.append_assoc], ?_⟩
        intro u err he hn
        simp only [Res.ret.injEq, Prod.mk.injEq, Option.some.injEq] at he
        rw [← he.2, hnf] at hn
        cases hn
      | true =>
        cases hb : d.NewStatefulSetForCR cluster ssName svcName labels with
        | error be =>
          rw [ensureRedisStatefulset_of_absent_build_error d r cluster ssName svcName labels
            w e be hpdb hget hnf hb]
          refine ⟨delta1 ++ _, by rw [ht1, List.append_assoc], ?_⟩
          intro u err he _
          simp only [Res.ret.injEq, Prod.mk.injEq, Option.some.injEq] at he
          rw [he.2]
          exact Or.inr rfl
        | ok newSS =>
          rw [ensureRedisStatefulset_of_absent d r cluster ssName svcName labels w e newSS
            hpdb hget hnf hb]
          refine ⟨delta1 ++ _, by rw [ht1, List.append_assoc], ?_⟩
          intro u err he _
          simp only [Res.ret.injEq, Prod.mk.injEq] at he
          refine Or.inl (writtenIn_append_right _ _ _ ?_)
          exact ⟨_, List.mem_cons_of_mem _ (List.mem_singleton_self _), rfl, he.2⟩

end NotFound

section NotFoundLoops

variable {σ : Type} (d : Collaborators) (r : realEnsureResource σ)

theorem EnsureRedisStatefulsetsLoop_notFound (cluster : DistributedRedisCluster) :
    ∀ (k i : Nat) (updated : Bool) (labels : Labels) (w : World σ),
      ∃ delta, (EnsureRedisStatefulsetsLoop d r cluster i k updated labels w).2.2.trace
          = w.trace ++ delta ∧
        ∀ b err, (EnsureRedisStatefulsetsLoop d r cluster i k updated labels w).1
            = Res.ret (b, some err) →
          IsNotFound err = true →
          writtenIn err delta ∨
            ∃ name svcName labels1,
              d.NewStatefulSetForCR cluster name svcName labels1 = Except.error err := by
  intro k
  induction k with
  | zero =>
    intro i updated labels w
    refine ⟨[], by simp [EnsureRedisStatefulsetsLoop], ?_⟩
    intro b err he
    simp [EnsureRedisStatefulsetsLoop] at he
  | succ k ih =>
    intro i updated labels w
    obtain ⟨delta, ht, hnf⟩ := ensureRedisStatefulset_notFound d r cluster
      (d.ClusterStatefulSetName cluster.Name i)
      (d.ClusterHeadlessSvcName cluster.Spec.ServiceName i) (shardLabels d cluster labels i) w
    rw [EnsureRedisStatefulsetsLoop]
    cases hres : (ensureRedisStatefulset d r cluster
        (d.ClusterStatefulSetName cluster.Name i)
        (d.ClusterHeadlessSvcName cluster.Spec.ServiceName i)
        (shardLabels d cluster labels i) w).1 with
    | panic =>
      refine ⟨delta, ht, ?_⟩
      intro b err he
      cases he
    | ret p =>
      obtain ⟨u, e⟩ := p
      cases e with
      | some e1 =>
        refine ⟨delta, ht, ?_⟩
        intro b err he hn
        simp only [Res.ret.injEq, Prod.mk.injEq, Option.some.injEq] at he
        rcases hnf u err (by rw [hres, he.2]) hn with h | h
        · exact Or.inl h
        · exact Or.inr ⟨_, _, _, h⟩
      | none =>
        simp only []
        obtain ⟨delta2, ht2, hnf2⟩ := ih (i + 1) (if u = true then u else updated)
          (shardLabels d cluster labels i)
          (ensureRedisStatefulset d r cluster (d.ClusterStatefulSetName cluster.Name i)
            (d.ClusterHeadlessSvcName cluster.Spec.ServiceName i)
            (shardLabels d cluster labels i) w).2
        refine ⟨delta ++ delta2, by rw [ht2, ht, List.append_assoc], ?_⟩
        intro b err he hn
        rcases hnf2 b err he hn with h | h
        · exact Or.inl (writtenIn_append_right _ _ _ h)
        · exact Or.inr h

theorem EnsureRedisHeadLessSvcsLoop_notFound (cluster : DistributedRedisCluster) :
    ∀ (k i : Nat) (labels : Labels) (w : World σ),
      ∃ delta, (EnsureRedisHeadLessSvcsLoop d r cluster i k labels w).2.2.trace
          = w.trace ++ delta ∧
        ∀ err, (EnsureRedisHeadLessSvcsLoop d r cluster i k labels w).1 = some err →
          IsNotFound err = true → writtenIn err delta := by
  intro k
  induction k with
  | zero =>
    intro i labels w
    refine ⟨[], by simp [EnsureRedisHeadLessSvcsLoop], ?_⟩
    intro err he
    simp [EnsureRedisHeadLessSvcsLoop] at he
  | succ k ih =>
    intro i labels w
    obtain ⟨delta, ht, hnf⟩ := ensureRedisHeadLessSvc_notFound d r cluster
      (d.ClusterHeadlessSvcName cluster.Spec.ServiceName i) (shardLabels d cluster labels i) w
    rw [EnsureRedisHeadLessSvcsLoop]
    cases hres : (ensureRedisHeadLessSvc d r cluster
        (d.ClusterHeadlessSvcName cluster.Spec.ServiceName i)
        (shardLabels d cluster labels i) w).1 with
    | some e1 =>
      refine ⟨delta, ht, ?_⟩
      intro err he hn
      simp only [Option.some.injEq] at he
      exact hnf err (by rw [hres, he]) hn
    | none =>
      simp only []
      obtain ⟨delta2, ht2, hnf2⟩ := ih (i + 1) (shardLabels d cluster labels i)
        (ensureRedisHeadLessSvc d r cluster
          (d.ClusterHeadlessSvcName cluster.Spec.ServiceName i)
          (shardLabels d cluster labels i) w).2
      refine ⟨delta ++ delta2, by rw [ht2, ht, List.append_assoc], ?_⟩
      intro err he hn
      exact writtenIn_append_right _ _ _ (hnf2 err he hn)

theorem ensureRestoreConfigMap_notFound (cluster : DistributedRedisCluster)
    (labels : Labels) (w : World σ) :
    ∃ delta, (ensureRestoreConfigMap d r cluster labels w).2.trace = w.trace ++ delta ∧
      ∀ err, (ensureRestoreConfigMap d r cluster labels w).1 = some err →
        IsNotFound err = true → writtenIn err delta := by
  cases hmode : d.IsRestoreFromBackup cluster with
  | false =>
    refine ⟨[], by simp [ensureRestoreConfigMap, hmode], ?_⟩
    intro err he
    simp [ensureRestoreConfigMap, hmode] at he
  | true =>
    cases hget : (r.configMapClient.GetConfigMap cluster.Namespace
        (d.RestoreConfigMapName cluster.Name) w.state).1 with
    | ok cm =>
      obtain ⟨hA, hB⟩ := ensureRestoreConfigMap_found d r cluster labels w cm hmode hget
      by_cases hdata : (cm.Data d.RestoreSucceeded).getD ""
          = Itoa cluster.Status.Restore.RestoreSucceeded
      · rw [hB hdata]
        exact ⟨_, rfl, fun err he => by cases he⟩
      · rw [hA hdata]
        refine ⟨_, rfl, ?_⟩
        intro err he _
        exact ⟨_, List.mem_cons_of_mem _ (List.mem_singleton_self _), rfl, he⟩
    | error e =>
      cases hnf : IsNotFound e with
      | false =>
        refine ⟨[Call.GetConfigMap cluster.Namespace (d.RestoreConfigMapName cluster.Name)
          (Except.error e)],
          by simp [ensureRestoreConfigMap, callGetConfigMap, hmode, hget, hnf], ?_⟩
        intro err he hn
        simp [ensureRestoreConfigMap, callGetConfigMap, hmode, hget, hnf] at he
        rw [← he, hnf] at hn
        cases hn
      | true =>
        refine ⟨[Call.GetConfigMap cluster.Namespace (d.RestoreConfigMapName cluster.Name)
            (Except.error e),
          Call.CreateConfigMap (d.NewConfigMapForRestore cluster labels)
            (r.configMapClient.CreateConfigMap (d.NewConfigMapForRestore cluster labels)
              (r.configMapClient.GetConfigMap cluster.Namespace
                (d.RestoreConfigMapName cluster.Name) w.state).2).1],
          by simp [ensureRestoreConfigMap, callGetConfigMap, callCreateConfigMap, hmode, hget,
            hnf], ?_⟩
        intro err he _
        simp [ensureRestoreConfigMap, callGetConfigMap, callCreateConfigMap, hmode, hget,
          hnf] at he
        exact ⟨_, List.mem_cons_of_mem _ (List.mem_singleton_self _), rfl, he⟩

theorem EnsureRedisConfigMap_notFound (cluster : DistributedRedisCluster)
    (labels : Labels) (w : World σ) :
    ∃ delta, (EnsureRedisConfigMap d r cluster labels w).2.trace = w.trace ++ delta ∧
      ∀ err, (EnsureRedisConfigMap d r cluster labels w).1 = some err →
        IsNotFound err = true → writtenIn err delta := by
  cases hget : (r.configMapClient.GetConfigMap cluster.Namespace
      (d.RedisConfigMapName cluster.Name) w.state).1 with
  | ok cm =>
    have hout : EnsureRedisConfigMap d r cluster labels w
        = ensureRestoreConfigMap d r cluster labels
            ⟨(r.configMapClient.GetConfigMap cluster.Namespace
              (d.RedisConfigMapName cluster.Name) w.state).2,
            w.trace ++ [Call.GetConfigMap cluster.Namespace
              (d.RedisConfigMapName cluster.Name) (Except.ok cm)]⟩ := by
      simp [EnsureRedisConfigMap, callGetConfigMap, hget]
    obtain ⟨delta, ht, hnf⟩ := ensureRestoreConfigMap_notFound d r cluster labels
      ⟨(r.configMapClient.GetConfigMap cluster.Namespace
        (d.RedisConfigMapName cluster.Name) w.state).2,
      w.trace ++ [Call.GetConfigMap cluster.Namespace
        (d.RedisConfigMapName cluster.Name) (Except.ok cm)]⟩
    rw [hout]
    refine ⟨[Call.GetConfigMap cluster.Namespace (d.RedisConfigMapName cluster.Name)
      (Except.ok cm)] ++ delta, by rw [ht, List.append_assoc], ?_⟩
    intro err he hn
    exact writtenIn_append_right _ _ _ (hnf err he hn)
  | error e =>
    cases hn0 : IsNotFound e with
    | false =>
      refine ⟨[Call.GetConfigMap cluster.Namespace (d.RedisConfigMapName cluster.Name)
        (Except.error e)], by simp [EnsureRedisConfigMap, callGetConfigMap, hget, hn0], ?_⟩
      intro err he hn
      simp [EnsureRedisConfigMap, callGetConfigMap, hget, hn0] at he
      rw [← he, hn0] at hn
      cases hn
    | true =>
      cases hcr : (r.configMapClient.CreateConfigMap (d.NewConfigMapForCR cluster labels)
          (r.configMapClient.GetConfigMap cluster.Namespace
            (d.RedisConfigMapName cluster.Name) w.state).2).1 with
      | some err2 =>
        refine ⟨[Call.GetConfigMap cluster.Namespace (d.RedisConfigMapName cluster.Name)
            (Except.error e),
          Call.CreateConfigMap (d.NewConfigMapForCR cluster labels) (some err2)],
          by simp [EnsureRedisConfigMap, callGetConfigMap, callCreateConfigMap, hget, hn0,
            hcr], ?_⟩
        intro err he _
        simp [EnsureRedisConfigMap, callGetConfigMap, callCreateConfigMap, hget, hn0,
          hcr] at he
        exact ⟨_, List.mem_cons_of_mem _ (List.mem_singleton_self _), rfl, by rw [he]; rfl⟩
      | none =>
        have hout : EnsureRedisConfigMap d r cluster labels w
            = ensureRestoreConfigMap d r cluster labels
                ⟨(r.configMapClient.CreateConfigMap (d.NewConfigMapForCR cluster labels)
                  (r.configMapClient.GetConfigMap cluster.Namespace
                    (d.RedisConfigMapName cluster.Name) w.state).2).2,
                w.trace ++ [Call.GetConfigMap cluster.Namespace
                    (d.RedisConfigMapName cluster.Name) (Except.error e),
                  Call.CreateConfigMap (d.NewConfigMapForCR cluster labels) none]⟩ := by
          simp [EnsureRedisConfigMap, callGetConfigMap, callCreateConfigMap, hget, hn0, hcr]
        obtain ⟨delta, ht, hnf⟩ := ensureRestoreConfigMap_notFound d r cluster labels
          ⟨(r.configMapClient.CreateConfigMap (d.NewConfigMapForCR cluster labels)
            (r.configMapClient.GetConfigMap cluster.Namespace
              (d.RedisConfigMapName cluster.Name) w.state).2).2,
          w.trace ++ [Call.GetConfigMap cluster.Namespace
              (d.RedisConfigMapName cluster.Name) (Except.error e),
            Call.CreateConfigMap (d.NewConfigMapForCR cluster labels) none]⟩
        rw [hout]
        refine ⟨[Call.GetConfigMap cluster.Namespace (d.RedisConfigMapName cluster.Name)
            (Except.error e),
          Call.CreateConfigMap (d.NewConfigMapForCR cluster labels) none] ++ delta,
          by rw [ht, List.append_assoc], ?_⟩
        intro err he hn
        exact writtenIn_append_right _ _ _ (hnf err he hn)

end NotFoundLoops

/-! ## Errors of write calls are returned -/

theorem writtenIn_append (err : Error) (d1 d2 : List Call) (h : writtenIn err (d1 ++ d2)) :
    writtenIn err d1 ∨ writtenIn err d2 := by
  obtain ⟨c, hc, hw⟩ := h
  rcases List.mem_append.mp hc with hc | hc
  · exact Or.inl ⟨c, hc, hw⟩
  · exact Or.inr ⟨c, hc, hw⟩

theorem not_writtenIn_nil (err : Error) : ¬ writtenIn err [] := by
  rintro ⟨c, hc, -⟩
  cases hc

theorem not_writtenIn_get (err : Error) (c : Call) (hc : c.isWrite = false) :
    ¬ writtenIn err [c] := by
  rintro ⟨c1, hc1, hw, -⟩
  simp only [List.mem_singleton] at hc1
  subst hc1
  rw [hc] at hw
  cases hw

theorem writtenIn_get_write (err : Error) (c1 c2 : Call) (hc : c1.isWrite = false)
    (h : writtenIn err [c1, c2]) : c2.writeResult = some err := by
  obtain ⟨c, hmem, hw, hres⟩ := h
  simp only [List.mem_cons, List.mem_singleton, List.not_mem_nil, or_false] at hmem
  rcases hmem with hmem | hmem
  · subst hmem
    rw [hc] at hw
    cases hw
  · subst hmem
    exact hres

section Propagation

variable {σ : Type} (d : Collaborators) (r : realEnsureResource σ)

theorem ensureRedisPDB_propagates (cluster : DistributedRedisCluster) (name : String)
    (labels : Labels) (w : World σ) :
    ∃ delta, (ensureRedisPDB d r cluster name labels w).2.trace = w.trace ++ delta ∧
      ∀ err, writtenIn err delta →
        (ensureRedisPDB d r cluster name labels w).1 = some err := by
  cases h : (r.pdbClient.GetPodDisruptionBudget cluster.Namespace name w.state).1 with
  | ok pdb =>
    rw [ensureRedisPDB_found d r cluster name labels w pdb h]
    refine ⟨_, rfl, ?_⟩
    exact fun err hw => (not_writtenIn_get err _ (by rfl) hw).elim
  | error e =>
    cases hnf : IsNotFound e with
    | false =>
      rw [ensureRedisPDB_failed d r cluster name labels w e h hnf]
      refine ⟨_, rfl, ?_⟩
      exact fun err hw => (not_writtenIn_get err _ (by rfl) hw).elim
    | true =>
      rw [ensureRedisPDB_absent d r cluster name labels w e h hnf]
      refine ⟨_, rfl, ?_⟩
      exact fun err hw => writtenIn_get_write err _ _ (by rfl) hw

theorem ensureRedisHeadLessSvc_propagates (cluster : DistributedRedisCluster)
    (name : String) (labels : Labels) (w : World σ) :
    ∃ delta, (ensureRedisHeadLessSvc d r cluster name labels w).2.trace = w.trace ++ delta ∧
      ∀ err, writtenIn err delta →
        (ensureRedisHeadLessSvc d r cluster name labels w).1 = some err := by
  cases h : (r.svcClient.GetService cluster.Namespace name w.state).1 with
  | ok svc =>
    rw [ensureRedisHeadLessSvc_found d r cluster name labels w svc h]
    refine ⟨_, rfl, ?_⟩
    exact fun err hw => (not_writtenIn_get err _ (by rfl) hw).elim
  | error e =>
    cases hnf : IsNotFound e with
    | false =>
      rw [ensureRedisHeadLessSvc_failed d r cluster name labels w e h hnf]
      refine ⟨_, rfl, ?_⟩
      exact fun err hw => (not_writtenIn_get err _ (by rfl) hw).elim
    | true =>
      rw [ensureRedisHeadLessSvc_absent d r cluster name labels w e h hnf]
      refine ⟨_, rfl, ?_⟩
      exact fun err hw => writtenIn_get_write err _ _ (by rfl) hw

theorem EnsureRedisSvc_propagates (cluster : DistributedRedisCluster) (labels : Labels)
    (w : World σ) :
    ∃ delta, (EnsureRedisSvc d r cluster labels w).2.2.trace = w.trace ++ delta ∧
      ∀ err, writtenIn err delta → (EnsureRedisSvc d r cluster labels w).1 = some err := by
  cases h : (r.svcClient.GetService cluster.Namespace cluster.Spec.ServiceName w.state).1 with
  | ok svc =>
    refine ⟨[Call.GetService cluster.Namespace cluster.Spec.ServiceName (Except.ok svc)],
      by simp [EnsureRedisSvc, callGetService, h], ?_⟩
    exact fun err hw => (not_writtenIn_get err _ (by rfl) hw).elim
  | error e =>
    cases hnf : IsNotFound e with
    | false =>
      refine ⟨[Call.GetService cluster.Namespace cluster.Spec.ServiceName (Except.error e)],
        by simp [EnsureRedisSvc, callGetService, h, hnf], ?_⟩
      exact fun err hw => (not_writtenIn_get err _ (by rfl) hw).elim
    | true =>
      refine ⟨[Call.GetService cluster.Namespace cluster.Spec.ServiceName (Except.error e),
        Call.CreateService (d.NewSvcForCR cluster cluster.Spec.ServiceName
          ((labels.delete d.StatefulSetLabel).delete "app.kubernetes.io/component"))
          (r.svcClient.CreateService (d.NewSvcForCR cluster cluster.Spec.ServiceName
            ((labels.delete d.StatefulSetLabel).delete "app.kubernetes.io/component"))
            (r.svcClient.GetService cluster.Namespace cluster.Spec.ServiceName
              w.state).2).1],
        by simp [EnsureRedisSvc, callGetService, callCreateService, h, hnf], ?_⟩
      intro err hw
      have hres := writtenIn_get_write err _ _ (by rfl) hw
      simp only [Call.writeResult] at hres
      simp [EnsureRedisSvc, callGetService, callCreateService, h, hnf, hres]

theorem ensureRedisStatefulset_propagates (cluster : DistributedRedisCluster)
    (ssName svcName : String) (labels : Labels) (w : World σ) :
    ∃ delta, (ensureRedisStatefulset d r cluster ssName svcName labels w).2.trace
        = w.trace ++ delta ∧
      ∀ err, writtenIn err delta →
        ∃ u, (ensureRedisStatefulset d r cluster ssName svcName labels w).1
          = Res.ret (u, some err) := by
  obtain ⟨delta1, ht1, hprop⟩ := ensureRedisPDB_propagates d r cluster ssName labels w
  cases hpdb : (ensureRedisPDB d r cluster ssName labels w).1 with
  | some e =>
    rw [ensureRedisStatefulset_of_pdb_error d r cluster ssName svcName labels w e hpdb]
    refine ⟨delta1, ht1, ?_⟩
    intro err hw
    have := hprop err hw
    rw [hpdb] at this
    simp only [Option.some.injEq] at this
    exact ⟨false, by rw [this]⟩
  | none =>
    have hnot1 : ∀ err, ¬ writtenIn err delta1 := by
      intro err hw
      have := hprop err hw
      rw [hpdb] at this
      cases this
    cases hget : (r.statefulSetClient.GetStatefulSet cluster.Namespace ssName
        (ensureRedisPDB d r cluster ssName labels w).2.state).1 with
    | ok ss =>
      cases hs : shouldUpdateRedis d cluster ss with
      | panic =>
        rw [ensureRedisStatefulset_of_panic d r cluster ssName svcName labels w ss hpdb hget
          hs]
        refine ⟨delta1 ++ _, by rw [ht1, List.append_assoc], ?_⟩
        intro err hw
        rcases writtenIn_append err _ _ hw with h | h
        · exact (hnot1 err h).elim
        · exact (not_writtenIn_get err _ (by rfl) h).elim
      | ret b =>
        cases b with
        | false =>
          rw [ensureRedisStatefulset_of_fresh d r cluster ssName svcName labels w ss hpdb
            hget hs]
          refine ⟨delta1 ++ _, by rw [ht1, List.append_assoc], ?_⟩
          intro err hw
          rcases writtenIn_append err _ _ hw with h | h
          · exact (hnot1 err h).elim
          · exact (not_writtenIn_get err _ (by rfl) h).elim
        | true =>
          cases hb : d.NewStatefulSetForCR cluster ssName svcName labels with
          | error e =>
            rw [ensureRedisStatefulset_of_stale_build_error d r cluster ssName svcName labels
              w ss e hpdb hget hs hb]
            refine ⟨delta1 ++ _, by rw [ht1, List.append_assoc], ?_⟩
            intro err hw
            rcases writtenIn_append err _ _ hw with h | h
            · exact (hnot1 err h).elim
            · exact (not_writtenIn_get err _ (by rfl) h).elim
          | ok newSS =>
            rw [ensureRedisStatefulset_of_stale d r cluster ssName svcName labels w ss newSS
              hpdb hget hs hb]
            refine ⟨delta1 ++ _, by rw [ht1, List.append_assoc], ?_⟩
            intro err hw
            rcases writtenIn_append err _ _ hw with h | h
            · exact (hnot1 err h).elim
            · have hres := writtenIn_get_write err _ _ (by rfl) h
              simp only [Call.writeResult] at hres
              exact ⟨true, by rw [hres]⟩
    | error e =>
      cases hnf : IsNotFound e with
      | false =>
        rw [ensureRedisStatefulset_of_get_failed d r cluster ssName svcName labels w e hpdb
          hget hnf]
        refine ⟨delta1 ++ _, by rw [ht1, List.append_assoc], ?_⟩
        intro err hw
        rcases writtenIn_append err _ _ hw with h | h
        · exact (hnot1 err h).elim
        · exact (not_writtenIn_get err _ (by rfl) h).elim
      | true =>
        cases hb : d.NewStatefulSetForCR cluster ssName svcName labels with
        | error be =>
          rw [ensureRedisStatefulset_of_absent_build_error d r cluster ssName svcName labels
            w e be hpdb hget hnf hb]
          refine ⟨delta1 ++ _, by rw [ht1, List.append_assoc], ?_⟩
          intro err hw
          rcases writtenIn_append err _ _ hw with h | h
          · exact (hnot1 err h).elim
          · exact (not_writtenIn_get err _ (by rfl) h).elim
        | ok newSS =>
          rw [ensureRedisStatefulset_of_absent d r cluster ssName svcName labels w e newSS
            hpdb hget hnf hb]
          refine ⟨delta1 ++ _, by rw [ht1, List.append_assoc], ?_⟩
          intro err hw
          rcases writtenIn_append err _ _ hw with h | h
          · exact (hnot1 err h).elim
          · have hres := writtenIn_get_write err _ _ (by rfl) h
            simp only [Call.writeResult] at hres
            exact ⟨false, by rw [hres]⟩

theorem EnsureRedisStatefulsetsLoop_propagates (cluster : DistributedRedisCluster) :
    ∀ (k i : Nat) (updated : Bool) (labels : Labels) (w : World σ),
      ∃ delta, (EnsureRedisStatefulsetsLoop d r cluster i k updated labels w).2.2.trace
          = w.trace ++ delta ∧
        ∀ err, writtenIn err delta →
          (EnsureRedisStatefulsetsLoop d r cluster i k updated labels w).1
            = Res.ret (false, some err) := by
  intro k
  induction k with
  | zero =>
    intro i updated labels w
    exact ⟨[], by simp [EnsureRedisStatefulsetsLoop],
      fun err hw => (not_writtenIn_nil err hw).elim⟩
  | succ k ih =>
    intro i updated labels w
    obtain ⟨delta, ht, hprop⟩ := ensureRedisStatefulset_propagates d r cluster
      (d.ClusterStatefulSetName cluster.Name i)
      (d.ClusterHeadlessSvcName cluster.Spec.ServiceName i) (shardLabels d cluster labels i) w
    rw [EnsureRedisStatefulsetsLoop]
    cases hres : (ensureRedisStatefulset d r cluster
        (d.ClusterStatefulSetName cluster.Name i)
        (d.ClusterHeadlessSvcName cluster.Spec.ServiceName i)
        (shardLabels d cluster labels i) w).1 with
    | panic =>
      refine ⟨delta, ht, ?_⟩
      intro err hw
      obtain ⟨u, hu⟩ := hprop err hw
      rw [hres] at hu
      cases hu
    | ret p =>
      obtain ⟨u, e⟩ := p
      cases e with
      | some e1 =>
        refine ⟨delta, ht, ?_⟩
        intro err hw
        obtain ⟨u1, hu⟩ := hprop err hw
        rw [hres] at hu
        simp only [Res.ret.injEq, Prod.mk.injEq, Option.some.injEq] at hu
        rw [hu.2]
      | none =>
        simp only []
        obtain ⟨delta2, ht2, hprop2⟩ := ih (i + 1) (if u = true then u else updated)
          (shardLabels d cluster labels i)
          (ensureRedisStatefulset d r cluster (d.ClusterStatefulSetName cluster.Name i)
            (d.ClusterHeadlessSvcName cluster.Spec.ServiceName i)
            (shardLabels d cluster labels i) w).2
        refine ⟨delta ++ delta2, by rw [ht2, ht, List.append_assoc], ?_⟩
        intro err hw
        rcases writtenIn_append err _ _ hw with h | h
        · obtain ⟨u1, hu⟩ := hprop err h
          rw [hres] at hu
          simp at hu
        · exact hprop2 err h

theorem EnsureRedisHeadLessSvcsLoop_propagates (cluster : DistributedRedisCluster) :
    ∀ (k i : Nat) (labels : Labels) (w : World σ),
      ∃ delta, (EnsureRedisHeadLessSvcsLoop d r cluster i k labels w).2.2.trace
          = w.trace ++ delta ∧
        ∀ err, writtenIn err delta →
          (EnsureRedisHeadLessSvcsLoop d r cluster i k labels w).1 = some err := by
  intro k
  induction k with
  | zero =>
    intro i labels w
    exact ⟨[], by simp [EnsureRedisHeadLessSvcsLoop],
      fun err hw => (not_writtenIn_nil err hw).elim⟩
  | succ k ih =>
    intro i labels w
    obtain ⟨delta, ht, hprop⟩ := ensureRedisHeadLessSvc_propagates d r cluster
      (d.ClusterHeadlessSvcName cluster.Spec.ServiceName i) (shardLabels d cluster labels i) w
    rw [EnsureRedisHeadLessSvcsLoop]
    cases hres : (ensureRedisHeadLessSvc d r cluster
        (d.ClusterHeadlessSvcName cluster.Spec.ServiceName i)
        (shardLabels d cluster labels i) w).1 with
    | some e1 =>
      refine ⟨delta, ht, ?_⟩
      intro err hw
      have hu := hprop err hw
      rw [hres] at hu
      exact hu
    | none =>
      simp only []
      obtain ⟨delta2, ht2, hprop2⟩ := ih (i + 1) (shardLabels d cluster labels i)
        (ensureRedisHeadLessSvc d r cluster
          (d.ClusterHeadlessSvcName cluster.Spec.ServiceName i)
          (shardLabels d cluster labels i) w).2
      refine ⟨delta ++ delta2, by rw [ht2, ht, List.append_assoc], ?_⟩
      intro err hw
      rcases writtenIn_append err _ _ hw with h | h
      · have hu := hprop err h
        rw [hres] at hu
        cases hu
      · exact hprop2 err h

theorem ensureRestoreConfigMap_propagates (cluster : DistributedRedisCluster)
    (labels : Labels) (w : World σ) :
    ∃ delta, (ensureRestoreConfigMap d r cluster labels w).2.trace = w.trace ++ delta ∧
      ∀ err, writtenIn err delta →
        (ensureRestoreConfigMap d r cluster labels w).1 = some err := by
  cases hmode : d.IsRestoreFromBackup cluster with
  | false =>
    exact ⟨[], by simp [ensureRestoreConfigMap, hmode],
      fun err hw => (not_writtenIn_nil err hw).elim⟩
  | true =>
    cases hget : (r.configMapClient.GetConfigMap cluster.Namespace
        (d.RestoreConfigMapName cluster.Name) w.state).1 with
    | ok cm =>
      obtain ⟨hA, hB⟩ := ensureRestoreConfigMap_found d r cluster labels w cm hmode hget
      by_cases hdata : (cm.Data d.RestoreSucceeded).getD ""
          = Itoa cluster.Status.Restore.RestoreSucceeded
      · rw [hB hdata]
        refine ⟨_, rfl, ?_⟩
        exact fun err hw => (not_writtenIn_get err _ (by rfl) hw).elim
      · rw [hA hdata]
        refine ⟨_, rfl, ?_⟩
        exact fun err hw => writtenIn_get_write err _ _ (by rfl) hw
    | error e =>
      cases hnf : IsNotFound e with
      | false =>
        refine ⟨[Call.GetConfigMap cluster.Namespace (d.RestoreConfigMapName cluster.Name)
          (Except.error e)],
          by simp [ensureRestoreConfigMap, callGetConfigMap, hmode, hget, hnf], ?_⟩
        exact fun err hw => (not_writtenIn_get err _ (by rfl) hw).elim
      | true =>
        refine ⟨[Call.GetConfigMap cluster.Namespace (d.RestoreConfigMapName cluster.Name)
            (Except.error e),
          Call.CreateConfigMap (d.NewConfigMapForRestore cluster labels)
            (r.configMapClient.CreateConfigMap (d.NewConfigMapForRestore cluster labels)
              (r.configMapClient.GetConfigMap cluster.Namespace
                (d.RestoreConfigMapName cluster.Name) w.state).2).1],
          by simp [ensureRestoreConfigMap, callGetConfigMap, callCreateConfigMap, hmode, hget,
            hnf], ?_⟩
        intro err hw
        have hres := writtenIn_get_write err _ _ (by rfl) hw
        simp only [Call.writeResult] at hres
        simp [ensureRestoreConfigMap, callGetConfigMap, callCreateConfigMap, hmode, hget,
          hnf, hres]

theorem EnsureRedisConfigMap_propagates (cluster : DistributedRedisCluster)
    (labels : Labels) (w : World σ) :
    ∃ delta, (EnsureRedisConfigMap d r cluster labels w).2.trace = w.trace ++ delta ∧
      ∀ err, writtenIn err delta →
        (EnsureRedisConfigMap d r cluster labels w).1 = some err := by
  cases hget : (r.configMapClient.GetConfigMap cluster.Namespace
      (d.RedisConfigMapName cluster.Name) w.state).1 with
  | ok cm =>
    have hout : EnsureRedisConfigMap d r cluster labels w
        = ensureRestoreConfigMap d r cluster labels
            ⟨(r.configMapClient.GetConfigMap cluster.Namespace
              (d.RedisConfigMapName cluster.Name) w.state).2,
            w.trace ++ [Call.GetConfigMap cluster.Namespace
              (d.RedisConfigMapName cluster.Name) (Except.ok cm)]⟩ := by
      simp [EnsureRedisConfigMap, callGetConfigMap, hget]
    obtain ⟨delta, ht, hprop⟩ := ensureRestoreConfigMap_propagates d r cluster labels
      ⟨(r.configMapClient.GetConfigMap cluster.Namespace
        (d.RedisConfigMapName cluster.Name) w.state).2,
      w.trace ++ [Call.GetConfigMap cluster.Namespace
        (d.RedisConfigMapName cluster.Name) (Except.ok cm)]⟩
    rw [hout]
    refine ⟨[Call.GetConfigMap cluster.Namespace (d.RedisConfigMapName cluster.Name)
      (Except.ok cm)] ++ delta, by rw [ht, List.append_assoc], ?_⟩
    intro err hw
    rcases writtenIn_append err _ _ hw with h | h
    · exact (not_writtenIn_get err _ (by rfl) h).elim
    · exact hprop err h
  | error e =>
    cases hn0 : IsNotFound e with
    | false =>
      refine ⟨[Call.GetConfigMap cluster.Namespace (d.RedisConfigMapName cluster.Name)
        (Except.error e)], by simp [EnsureRedisConfigMap, callGetConfigMap, hget, hn0], ?_⟩
      exact fun err hw => (not_writtenIn_get err _ (by rfl) hw).elim
    | true =>
      cases hcr : (r.configMapClient.CreateConfigMap (d.NewConfigMapForCR cluster labels)
          (r.configMapClient.GetConfigMap cluster.Namespace
            (d.RedisConfigMapName cluster.Name) w.state).2).1 with
      | some err2 =>
        refine ⟨[Call.GetConfigMap cluster.Namespace (d.RedisConfigMapName cluster.Name)
            (Except.error e),
          Call.CreateConfigMap (d.NewConfigMapForCR cluster labels) (some err2)],
          by simp [EnsureRedisConfigMap, callGetConfigMap, callCreateConfigMap, hget, hn0,
            hcr], ?_⟩
        intro err hw
        have hres := writtenIn_get_write err _ _ (by rfl) hw
        simp only [Call.writeResult, Option.some.injEq] at hres
        simp [EnsureRedisConfigMap, callGetConfigMap, callCreateConfigMap, hget, hn0, hcr,
          hres]
      | none =>
        have hout : EnsureRedisConfigMap d r cluster labels w
            = ensureRestoreConfigMap d r cluster labels
                ⟨(r.configMapClient.CreateConfigMap (d.NewConfigMapForCR cluster labels)
                  (r.configMapClient.GetConfigMap cluster.Namespace
                    (d.RedisConfigMapName cluster.Name) w.state).2).2,
                w.trace ++ [Call.GetConfigMap cluster.Namespace
                    (d.RedisConfigMapName cluster.Name) (Except.error e),
                  Call.CreateConfigMap (d.NewConfigMapForCR cluster labels) none]⟩ := by
          simp [EnsureRedisConfigMap, callGetConfigMap, callCreateConfigMap, hget, hn0, hcr]
        obtain ⟨delta, ht, hprop⟩ := ensureRestoreConfigMap_propagates d r cluster labels
          ⟨(r.configMapClient.CreateConfigMap (d.NewConfigMapForCR cluster labels)
            (r.configMapClient.GetConfigMap cluster.Namespace
              (d.RedisConfigMapName cluster.Name) w.state).2).2,
          w.trace ++ [Call.GetConfigMap cluster.Namespace
              (d.RedisConfigMapName cluster.Name) (Except.error e),
            Call.CreateConfigMap (d.NewConfigMapForCR cluster labels) none]⟩
        rw [hout]
        refine ⟨[Call.GetConfigMap cluster.Namespace (d.RedisConfigMapName cluster.Name)
            (Except.error e),
          Call.CreateConfigMap (d.NewConfigMapForCR cluster labels) none] ++ delta,
          by rw [ht, List.append_assoc], ?_⟩
        intro err hw
        rcases writtenIn_append err _ _ hw with h | h
        · have hres := writtenIn_get_write err _ _ (by rfl) h
          cases hres
        · exact hprop err h

/-- C16, as amended. A not-found error of a fetch is never returned, and errors of write
calls are returned unchanged. For `EnsureRedisStatefulsets`, `EnsureRedisHeadLessSvcs`,
`EnsureRedisSvc` and `EnsureRedisConfigMap`: whenever the operation returns a not-found
error, that error is the result of a create or update call it issued or, for
`EnsureRedisStatefulsets`, the error of the workload-group builder; and whenever a create
or update call it issued failed with an error, not-found or not, the operation returns
that same error (`EnsureRedisStatefulsets` with `updated = false`). -/
theorem notFound_only_from_writes (cluster : DistributedRedisCluster) (labels : Labels)
    (w : World σ) :
    (∀ err, IsNotFound err = true →
      (∀ b, (EnsureRedisStatefulsets d r cluster labels w).1 = Res.ret (b, some err) →
          writtenIn err (newCalls w (EnsureRedisStatefulsets d r cluster labels w).2.2) ∨
            ∃ name svcName labels1,
              d.NewStatefulSetForCR cluster name svcName labels1 = Except.error err) ∧
        ((EnsureRedisHeadLessSvcs d r cluster labels w).1 = some err →
          writtenIn err (newCalls w (EnsureRedisHeadLessSvcs d r cluster labels w).2.2)) ∧
        ((EnsureRedisSvc d r cluster labels w).1 = some err →
          writtenIn err (newCalls w (EnsureRedisSvc d r cluster labels w).2.2)) ∧
        ((EnsureRedisConfigMap d r cluster labels w).1 = some err →
          writtenIn err (newCalls w (EnsureRedisConfigMap d r cluster labels w).2))) ∧
      (∀ err,
        (writtenIn err (newCalls w (EnsureRedisStatefulsets d r cluster labels w).2.2) →
          (EnsureRedisStatefulsets d r cluster labels w).1 = Res.ret (false, some err)) ∧
        (writtenIn err (newCalls w (EnsureRedisHeadLessSvcs d r cluster labels w).2.2) →
          (EnsureRedisHeadLessSvcs d r cluster labels w).1 = some err) ∧
        (writtenIn err (newCalls w (EnsureRedisSvc d r cluster labels w).2.2) →
          (EnsureRedisSvc d r cluster labels w).1 = some err) ∧
        (writtenIn err (newCalls w (EnsureRedisConfigMap d r cluster labels w).2) →
          (EnsureRedisConfigMap d r cluster labels w).1 = some err)) := by
  constructor
  · intro err hnf
    refine ⟨?_, ?_, ?_, ?_⟩
    · intro b he
      obtain ⟨delta, ht, h⟩ := EnsureRedisStatefulsetsLoop_notFound d r cluster
        (Int.toNat cluster.Spec.MasterSize) 0 false labels w
      have hnew : newCalls w (EnsureRedisStatefulsets d r cluster labels w).2.2 = delta :=
        newCalls_of_append _ _ delta ht
      rw [hnew]
      exact h b err he hnf
    · intro he
      obtain ⟨delta, ht, h⟩ := EnsureRedisHeadLessSvcsLoop_notFound d r cluster
        (Int.toNat cluster.Spec.MasterSize) 0 labels w
      have hnew : newCalls w (EnsureRedisHeadLessSvcs d r cluster labels w).2.2 = delta :=
        newCalls_of_append _ _ delta ht
      rw [hnew]
      exact h err he hnf
    · intro he
      obtain ⟨delta, ht, h⟩ := EnsureRedisSvc_notFound d r cluster labels w
      rw [newCalls_of_append _ _ delta ht]
      exact h err he hnf
    · intro he
      obtain ⟨delta, ht, h⟩ := EnsureRedisConfigMap_notFound d r cluster labels w
      rw [newCalls_of_append _ _ delta ht]
      exact h err he hnf
  · intro err
    refine ⟨?_, ?_, ?_, ?_⟩
    · intro hw
      obtain ⟨delta, ht, h⟩ := EnsureRedisStatefulsetsLoop_propagates d r cluster
        (Int.toNat cluster.Spec.MasterSize) 0 false labels w
      have hnew : newCalls w (EnsureRedisStatefulsets d r cluster labels w).2.2 = delta :=
        newCalls_of_append _ _ delta ht
      rw [hnew] at hw
      exact h err hw
    · intro hw
      obtain ⟨delta, ht, h⟩ := EnsureRedisHeadLessSvcsLoop_propagates d r cluster
        (Int.toNat cluster.Spec.MasterSize) 0 labels w
      have hnew : newCalls w (EnsureRedisHeadLessSvcs d r cluster labels w).2.2 = delta :=
        newCalls_of_append _ _ delta ht
      rw [hnew] at hw
      exact h err hw
    · intro hw
      obtain ⟨delta, ht, h⟩ := EnsureRedisSvc_propagates d r cluster labels w
      rw [newCalls_of_append _ _ delta ht] at hw
      exact h err hw
    · intro hw
      obtain ⟨delta, ht, h⟩ := EnsureRedisConfigMap_propagates d r cluster labels w
      rw [newCalls_of_append _ _ delta ht] at hw
      exact h err hw

end Propagation

/-- C16 fails as stated: for cluster `x` in a namespace that does not exist, the fetch of
the client service and its create are both answered with the not-found error of the
namespace, and `EnsureRedisSvc` returns that not-found error. -/
theorem EnsureRedisSvc_returns_notFound :
    (EnsureRedisSvc exampleCollaborators namespaceMissingClient exampleCluster noLabels
        ⟨(), []⟩).1 = some namespaceMissing ∧
      IsNotFound namespaceMissing = true :=
  ⟨rfl, by decide⟩

/-- C16 as amended, at the same input: the not-found error that `EnsureRedisSvc` returns
is the result of its create call, and that failed create makes it return the error. -/
theorem notFound_only_from_writes_witness :
    IsNotFound namespaceMissing = true ∧
      writtenIn namespaceMissing
        (newCalls ⟨(), []⟩
          (EnsureRedisSvc exampleCollaborators namespaceMissingClient exampleCluster noLabels
            ⟨(), []⟩).2.2) ∧
      (writtenIn namespaceMissing
          (newCalls ⟨(), []⟩
            (EnsureRedisSvc exampleCollaborators namespaceMissingClient exampleCluster
              noLabels ⟨(), []⟩).2.2) →
        (EnsureRedisSvc exampleCollaborators namespaceMissingClient exampleCluster noLabels
          ⟨(), []⟩).1 = some namespaceMissing) :=
  ⟨by decide,
    ((notFound_only_from_writes exampleCollaborators namespaceMissingClient exampleCluster
      noLabels ⟨(), []⟩).1 namespaceMissing (by decide)).2.2.1 rfl,
    ((notFound_only_from_writes exampleCollaborators namespaceMissingClient exampleCluster
      noLabels ⟨(), []⟩).2 namespaceMissing).2.2.1⟩

end Manager
